import Mathlib

/-!
# A verification development for the pikuma 2D rigid-body physics engine

Shallow embedding of the Go sources under `src/physics` (math.go, body.go,
shape.go, collisionDection.go, constraint.go, world.go).

Numbers: Go `float64` values are modelled as elements of a linearly ordered
field `K` (exact arithmetic, no rounding, no NaN).  The three transcendental
primitives the code calls (`math.Sqrt`, `math.Sincos`) are passed explicitly as
an `Ops K` record, so every definition stays executable; the laws of the real
square root, sine and cosine appear as hypotheses where a theorem needs them and
are discharged at `K = ℝ` in the witnesses.

Pointers: a `*Body` is an address (`Nat`) into a store `Nat → Body K`.
-/

namespace Pikuma

/-- The primitives of package `math` used by the engine. -/
structure Ops (K : Type) where
  /-- The function `math.Sqrt`. -/
  sqrt : K → K
  /-- First result of `math.Sincos`. -/
  sin : K → K
  /-- Second result of `math.Sincos`. -/
  cos : K → K

/-- The laws of the real square root, sine and cosine that the proofs use. -/
structure Ops.Exact {K : Type} [LinearOrderedField K] (ops : Ops K) : Prop where
  sqrt_nonneg : ∀ x, 0 ≤ ops.sqrt x
  sqrt_mul_self : ∀ x, 0 ≤ x → ops.sqrt x * ops.sqrt x = x
  sin_sq_add_cos_sq : ∀ a, ops.sin a * ops.sin a + ops.cos a * ops.cos a = 1
  sin_neg : ∀ a, ops.sin (-a) = -ops.sin a
  cos_neg : ∀ a, ops.cos (-a) = ops.cos a

/-! ## math.go -/

/-- Go `type Vec2 struct { X, Y float64 }`. -/
structure Vec2 (K : Type) where
  X : K
  Y : K
deriving DecidableEq, Repr

section Defs

variable {K : Type} [LinearOrderedField K]

def Vec2.Add (v o : Vec2 K) : Vec2 K := ⟨v.X + o.X, v.Y + o.Y⟩

def Vec2.Sub (v o : Vec2 K) : Vec2 K := ⟨v.X - o.X, v.Y - o.Y⟩

def Vec2.Muln (v : Vec2 K) (t : K) : Vec2 K := ⟨v.X * t, v.Y * t⟩

def Vec2.Divn (v : Vec2 K) (t : K) : Vec2 K := ⟨v.X / t, v.Y / t⟩

def Vec2.Dot (v o : Vec2 K) : K := v.X * o.X + v.Y * o.Y

def Vec2.Cross (v o : Vec2 K) : K := v.X * o.Y - v.Y * o.X

def Vec2.Length (ops : Ops K) (v : Vec2 K) : K := ops.sqrt (v.Dot v)

def Vec2.Normalize (ops : Ops K) (v : Vec2 K) : Vec2 K :=
  let l := v.Length ops
  if l ≠ 0 then v.Divn l else v

/-- The unit perpendicular `Vec2{v.Y, -v.X}.Normalize()`. -/
def Vec2.Normal (ops : Ops K) (v : Vec2 K) : Vec2 K :=
  Vec2.Normalize ops ⟨v.Y, -v.X⟩

def Vec2.Rotate (ops : Ops K) (v : Vec2 K) (angle : K) : Vec2 K :=
  let sin := ops.sin angle
  let cos := ops.cos angle
  ⟨v.X * cos - v.Y * sin, v.X * sin + v.Y * cos⟩

def Clamp (val min max : K) : K :=
  if val < min then min else if val > max then max else val

/-! ## shape.go (lesson30-3) -/

/-- Go `type PolygonBase struct { LocalVertices, WorldVertices []Vec2 }`. -/
structure PolygonBase (K : Type) where
  LocalVertices : List (Vec2 K)
  WorldVertices : List (Vec2 K)
deriving DecidableEq, Repr

/-- The three implementations of interface `Shape`: `*CircleShape`,
`*PolygonBase` and `*BoxShape` (which embeds `PolygonBase`).  A body owns its
shape, so the shape is stored by value. -/
inductive Shape (K : Type) where
  | circle (Radius : K)
  | polygon (base : PolygonBase K)
  | box (base : PolygonBase K) (Width Height : K)
deriving DecidableEq, Repr

inductive ShapeType where
  | CIRCLE_SHAPE
  | POLYGON_SHAPE
  | BOX_SHAPE
deriving DecidableEq, Repr

def Shape.GetType (s : Shape K) : ShapeType :=
  match s with
  | .circle _ => .CIRCLE_SHAPE
  | .polygon _ => .POLYGON_SHAPE
  | .box _ _ _ => .BOX_SHAPE

def NewCircleShape (radius : K) : Shape K := .circle radius

def NewPolygoShape (vertices : List (Vec2 K)) : Shape K :=
  .polygon ⟨vertices, vertices⟩

def NewBoxShape (width height : K) : Shape K :=
  .box
    ⟨[⟨-width / 2, -height / 2⟩, ⟨width / 2, -height / 2⟩,
      ⟨width / 2, height / 2⟩, ⟨-width / 2, height / 2⟩],
     [⟨-width / 2, -height / 2⟩, ⟨width / 2, -height / 2⟩,
      ⟨width / 2, height / 2⟩, ⟨-width / 2, height / 2⟩]⟩
    width height

def Shape.GetMomentOfInertia (s : Shape K) : K :=
  match s with
  | .circle r => (1 / 2) * r * r
  | .polygon _ => 5000
  | .box _ w h => (83333 / 1000000) * (w * w + h + h)

/-- The loop `WorldVertices[i] = LocalVertices[i].Rotate(angle).Add(position)`
over the indices of `LocalVertices`; entries of `WorldVertices` past that range
are kept (the constructors always give both slices the same length). -/
def PolygonBase.UpdateVertices (ops : Ops K) (s : PolygonBase K) (angle : K)
    (position : Vec2 K) : PolygonBase K :=
  { s with
    WorldVertices :=
      s.LocalVertices.map (fun v => (v.Rotate ops angle).Add position)
        ++ s.WorldVertices.drop s.LocalVertices.length }

def Shape.UpdateVertices (ops : Ops K) (s : Shape K) (angle : K) (position : Vec2 K) :
    Shape K :=
  match s with
  | .circle r => .circle r
  | .polygon p => .polygon (p.UpdateVertices ops angle position)
  | .box p w h => .box (p.UpdateVertices ops angle position) w h

/-- The constant `math.MaxFloat64`, `(2 - 2^-52) * 2^1023`. -/
def MaxFloat64 : K := 2 ^ 1024 - 2 ^ 971

/-- An index expression `vs[i]`; in range at every call the engine makes. -/
def vertexAt (vs : List (Vec2 K)) (i : Nat) : Vec2 K := vs.getD i ⟨0, 0⟩

def PolygonBase.GetWorldVertices (s : PolygonBase K) : List (Vec2 K) := s.WorldVertices

def PolygonBase.GetWorldVertice (s : PolygonBase K) (i : Nat) : Vec2 K :=
  vertexAt s.WorldVertices i

def PolygonBase.EdgeAt (s : PolygonBase K) (i : Nat) : Vec2 K :=
  let currVertex := i
  let nextVertex := (i + 1) % s.WorldVertices.length
  (vertexAt s.WorldVertices nextVertex).Sub (vertexAt s.WorldVertices currVertex)

/-- The inner loop of `FindMinSeparation`: the least projection `(v2 - v)·normal`
over the vertices `v2` of the other polygon and the first vertex attaining it,
starting from `(minSep, minVertex)`. -/
def minSepLoop (v normal : Vec2 K) (vs2 : List (Vec2 K)) (init : K × Vec2 K) : K × Vec2 K :=
  vs2.foldl
    (fun st v2 =>
      let proj := (v2.Sub v).Dot normal
      if proj < st.1 then (proj, v2) else st)
    init

/-- One pass of the outer loop of `FindMinSeparation` (lesson30-3) for edge `i`,
on the state `(separation, indexReferenceEdge, supportPoint)`. -/
def findMinSeparationStep (ops : Ops K) (s s2 : PolygonBase K) (st : K × Nat × Vec2 K)
    (i : Nat) : K × Nat × Vec2 K :=
  let v := s.GetWorldVertice i
  let normal := (s.EdgeAt i).Normal ops
  let r := minSepLoop v normal s2.GetWorldVertices (MaxFloat64, ⟨0, 0⟩)
  let minSep := r.1
  let minVertex := r.2
  let st1 : K × Nat × Vec2 K := if minSep > st.1 then (minSep, i, minVertex) else st
  (max st1.1 minSep, st1.2.1, st1.2.2)

/-- `PolygonBase.FindMinSeparation` of lesson30-3: returns
`(separation, indexReferenceEdge, supportPoint)`. -/
def PolygonBase.FindMinSeparation (ops : Ops K) (s s2 : PolygonBase K) : K × Nat × Vec2 K :=
  (List.range s.GetWorldVertices.length).foldl (findMinSeparationStep ops s s2)
    (-MaxFloat64, 0, ⟨0, 0⟩)

def PolygonBase.FindIncidentEdge (ops : Ops K) (s : PolygonBase K) (normal : Vec2 K) : Nat :=
  ((List.range s.WorldVertices.length).foldl
    (fun (st : K × Nat) i =>
      let edgeNormal := (s.EdgeAt i).Normal ops
      let proj := edgeNormal.Dot normal
      if proj < st.1 then (proj, i) else st)
    (MaxFloat64, 0)).2

/-- `PolygonBase.ClipSegmentToLine`: returns `(numOut, contactsOut)`, where
`contactsOut` is a fresh slice of `len(contactsIn)` zero vectors into which the
retained points are written. -/
def ClipSegmentToLine (ops : Ops K) (contactsIn : List (Vec2 K)) (c0 c1 : Vec2 K) :
    Nat × List (Vec2 K) :=
  let contactsOut : List (Vec2 K) := List.replicate contactsIn.length ⟨0, 0⟩
  let numOut := 0
  let normal := (c1.Sub c0).Normalize ops
  let dist0 := ((vertexAt contactsIn 0).Sub c0).Cross normal
  let dist1 := ((vertexAt contactsIn 1).Sub c0).Cross normal
  let r1 : Nat × List (Vec2 K) :=
    if dist0 ≤ 0 then (numOut + 1, contactsOut.set numOut (vertexAt contactsIn 0))
    else (numOut, contactsOut)
  let r2 : Nat × List (Vec2 K) :=
    if dist1 ≤ 0 then (r1.1 + 1, r1.2.set r1.1 (vertexAt contactsIn 1)) else r1
  if dist0 * dist1 < 0 then
    let totalDist := dist0 - dist1
    let t := dist0 / totalDist
    let contact :=
      (vertexAt contactsIn 0).Add (((vertexAt contactsIn 1).Sub (vertexAt contactsIn 0)).Muln t)
    (r2.1 + 1, r2.2.set r2.1 contact)
  else r2

/-- The type assertion `shape.(PolygonShape)`: the embedded `PolygonBase` of a
polygon or box; `none` stands for the panic on a circle. -/
def Shape.asPolygon (s : Shape K) : Option (PolygonBase K) :=
  match s with
  | .circle _ => none
  | .polygon p => some p
  | .box p _ _ => some p

/-- The type assertion `shape.(*CircleShape)`: the radius of a circle. -/
def Shape.asCircle (s : Shape K) : Option K :=
  match s with
  | .circle r => some r
  | _ => none

/-! ## body.go (lesson29-5) -/

/-- Go `type Body struct`; the SDL texture handle is not part of the model. -/
structure Body (K : Type) where
  Position : Vec2 K
  Velocity : Vec2 K
  Acceleration : Vec2 K
  Rotation : K
  AngularVelocity : K
  AngularAcceleration : K
  SumForces : Vec2 K
  sumTorque : K
  Mass : K
  InvMass : K
  I : K
  InvI : K
  Restitution : K
  Friction : K
  Shape : Shape K
deriving DecidableEq, Repr

def NewBody (ops : Ops K) (shape : Shape K) (x y mass : K) : Body K :=
  let invMass : K := if mass ≠ 0 then 1 / mass else 0
  let I := shape.GetMomentOfInertia * mass
  let invI : K := if I ≠ 0 then 1 / I else 0
  { Position := ⟨x, y⟩
    Velocity := ⟨0, 0⟩
    Acceleration := ⟨0, 0⟩
    Rotation := 0
    AngularVelocity := 0
    AngularAcceleration := 0
    SumForces := ⟨0, 0⟩
    sumTorque := 0
    Mass := mass
    InvMass := invMass
    I := I
    InvI := invI
    Restitution := 1
    Friction := 7 / 10
    Shape := shape.UpdateVertices ops 0 ⟨x, y⟩ }

def Body.IsStatic (b : Body K) : Bool :=
  let epsilon : K := 5 / 1000
  decide (|b.InvMass - 0| < epsilon)

def Body.LocalSpaceToWorldSpace (ops : Ops K) (b : Body K) (point : Vec2 K) : Vec2 K :=
  let rotated := point.Rotate ops b.Rotation
  rotated.Add b.Position

def Body.WorldSpaceToLocalSpace (ops : Ops K) (b : Body K) (point : Vec2 K) : Vec2 K :=
  let translated := point.Sub b.Position
  let sin := ops.sin (-b.Rotation)
  let cos := ops.cos (-b.Rotation)
  let rotatedX := cos * translated.X - sin * translated.Y
  let rotatedY := cos * translated.Y + sin * translated.X
  ⟨rotatedX, rotatedY⟩

def Body.ApplyImpulseLinear (b : Body K) (j : Vec2 K) : Body K :=
  if b.IsStatic then b
  else { b with Velocity := b.Velocity.Add (j.Muln b.InvMass) }

def Body.ApplyImpulseAngular (b : Body K) (j : K) : Body K :=
  if b.IsStatic then b
  else { b with AngularVelocity := b.AngularVelocity + j * b.InvI }

def Body.ApplyImpulseAtPoint (b : Body K) (j r : Vec2 K) : Body K :=
  if b.IsStatic then b
  else
    { b with
      Velocity := b.Velocity.Add (j.Muln b.InvMass)
      AngularVelocity := b.AngularVelocity + r.Cross j * b.InvI }

def Body.AddFore (b : Body K) (force : Vec2 K) : Body K :=
  { b with SumForces := b.SumForces.Add force }

def Body.ClearFore (b : Body K) : Body K :=
  { b with SumForces := ⟨0, 0⟩ }

def Body.AddTorque (b : Body K) (torque : K) : Body K :=
  { b with sumTorque := b.sumTorque + torque }

def Body.ClearTorque (b : Body K) : Body K :=
  { b with sumTorque := 0 }

def Body.IntegrateForces (b : Body K) (dt : K) : Body K :=
  if b.IsStatic then b
  else
    let b1 := { b with Acceleration := b.SumForces.Muln b.InvMass }
    let b2 := { b1 with Velocity := b1.Velocity.Add (b1.Acceleration.Muln dt) }
    let b3 := { b2 with AngularAcceleration := b2.sumTorque * b2.InvI }
    let b4 := { b3 with AngularVelocity := b3.AngularVelocity + b3.AngularAcceleration * dt }
    b4.ClearFore.ClearTorque

def Body.IntegrateVelocities (ops : Ops K) (b : Body K) (dt : K) : Body K :=
  if b.IsStatic then b
  else
    let b1 := { b with Position := b.Position.Add (b.Velocity.Muln dt) }
    let b2 := { b1 with Rotation := b1.Rotation + b1.AngularVelocity * dt }
    { b2 with Shape := b2.Shape.UpdateVertices ops b2.Rotation b2.Position }

/-- A `*Body` is an address; the store maps addresses to bodies. -/
abbrev Store (K : Type) := Nat → Body K

/-! ## contact.go and collisionDection.go (lesson30-2) -/

/-- Go `type Contact struct { A, B *Body; Start, End, Normal Vec2; Depth float64 }`. -/
structure Contact (K : Type) where
  A : Nat
  B : Nat
  Start : Vec2 K
  End : Vec2 K
  Normal : Vec2 K
  Depth : K
deriving DecidableEq, Repr

def IsCollidingCircleCircle (ops : Ops K) (h : Store K) (a b : Nat)
    (contacts : List (Contact K)) : Bool × List (Contact K) :=
  match (h a).Shape.asCircle, (h b).Shape.asCircle with
  | some aRadius, some bRadius =>
    let ab := (h b).Position.Sub (h a).Position
    let radiusSum := aRadius + bRadius
    let isColliding := decide (ab.Dot ab ≤ radiusSum * radiusSum)
    if !isColliding then (false, contacts)
    else
      let normal := ab.Normalize ops
      let start := (h b).Position.Sub (normal.Muln bRadius)
      let end_ := (h a).Position.Add (normal.Muln aRadius)
      let contact : Contact K :=
        { A := a, B := b, Normal := normal, Start := start, End := end_,
          Depth := (end_.Sub start).Length ops }
      (true, contacts ++ [contact])
  | _, _ => (false, contacts)

/-- The clipping loop of `IsCollidingPolygonPolygon` over the reference edges
`is`: state `(contactPoints, clippedPoints)`; `break` leaves the loop with the
output of the last `ClipSegmentToLine` call in `clippedPoints`. -/
def clipLoop (ops : Ops K) (refVertices : List (Vec2 K)) (indexReferenceEdge : Nat) :
    List Nat → List (Vec2 K) × List (Vec2 K) → List (Vec2 K) × List (Vec2 K)
  | [], st => st
  | i :: rest, st =>
    if i = indexReferenceEdge then clipLoop ops refVertices indexReferenceEdge rest st
    else
      let c0 := vertexAt refVertices i
      let c1 := vertexAt refVertices ((i + 1) % refVertices.length)
      let r := ClipSegmentToLine ops st.1 c0 c1
      if r.1 < 2 then (st.1, r.2)
      else clipLoop ops refVertices indexReferenceEdge rest (r.2, r.2)

/-- The final loop of `IsCollidingPolygonPolygon`: one contact per clipped point with
`separation <= 0`.  The `Depth` field is never assigned there and keeps its zero value. -/
def appendClippedContacts (a b : Nat) (vref normal : Vec2 K) (flip : Bool) :
    List (Vec2 K) → List (Contact K) → List (Contact K)
  | [], contacts => contacts
  | vclip :: rest, contacts =>
    let separation := (vclip.Sub vref).Dot normal
    if separation ≤ 0 then
      let start := vclip
      let end_ := vclip.Add (normal.Muln (-separation))
      let contact : Contact K :=
        if flip then
          { A := a, B := b, Normal := normal.Muln (-1), Start := end_, End := start, Depth := 0 }
        else
          { A := a, B := b, Normal := normal, Start := start, End := end_, Depth := 0 }
      appendClippedContacts a b vref normal flip rest (contacts ++ [contact])
    else appendClippedContacts a b vref normal flip rest contacts

def IsCollidingPolygonPolygon (ops : Ops K) (h : Store K) (a b : Nat)
    (contacts : List (Contact K)) : Bool × List (Contact K) :=
  match (h a).Shape.asPolygon, (h b).Shape.asPolygon with
  | some aPolygonShape, some bPolygonShape =>
    let ab := aPolygonShape.FindMinSeparation ops bPolygonShape
    let abSeparation := ab.1
    let aIndexReferenceEdge := ab.2.1
    if abSeparation ≥ 0 then (false, contacts)
    else
      let ba := bPolygonShape.FindMinSeparation ops aPolygonShape
      let baSeparation := ba.1
      let bIndexReferenceEdge := ba.2.1
      if baSeparation ≥ 0 then (false, contacts)
      else
        let referenceShape := if abSeparation > baSeparation then aPolygonShape else bPolygonShape
        let incidentShape := if abSeparation > baSeparation then bPolygonShape else aPolygonShape
        let indexReferenceEdge :=
          if abSeparation > baSeparation then aIndexReferenceEdge else bIndexReferenceEdge
        let referenceEdge := referenceShape.EdgeAt indexReferenceEdge
        let incidentIndex := incidentShape.FindIncidentEdge ops (referenceEdge.Normal ops)
        let incidentNextIndex := (incidentIndex + 1) % incidentShape.GetWorldVertices.length
        let v0 := vertexAt incidentShape.GetWorldVertices incidentIndex
        let v1 := vertexAt incidentShape.GetWorldVertices incidentNextIndex
        let contactPoints := [v0, v1]
        let clippedPoints : List (Vec2 K) := List.replicate contactPoints.length ⟨0, 0⟩
        let r := clipLoop ops referenceShape.GetWorldVertices indexReferenceEdge
          (List.range referenceShape.GetWorldVertices.length) (contactPoints, clippedPoints)
        let vref := vertexAt referenceShape.GetWorldVertices indexReferenceEdge
        (true, appendClippedContacts a b vref (referenceEdge.Normal ops)
          (decide (baSeparation ≥ abSeparation)) r.2 contacts)
  | _, _ => (false, contacts)

/-- The edge loop of `IsCollidingPolygonCircle`: state
`(isOutside, minCurVertex, minNextVertex, distanceCircleEdge)`; the loop stops at
the first edge with a positive projection. -/
def nearestEdgeLoop (ops : Ops K) (polygonShape : PolygonBase K) (center : Vec2 K) :
    List Nat → Bool × Vec2 K × Vec2 K × K → Bool × Vec2 K × Vec2 K × K
  | [], st => st
  | i :: rest, st =>
    let polygonVertices := polygonShape.GetWorldVertices
    let n := (i + 1) % polygonVertices.length
    let edge := polygonShape.EdgeAt i
    let normal := edge.Normal ops
    let vertexToCircleCenter := center.Sub (vertexAt polygonVertices i)
    let projection := vertexToCircleCenter.Dot normal
    if projection > 0 then
      (true, vertexAt polygonVertices i, vertexAt polygonVertices n, projection)
    else if projection > st.2.2.2 then
      nearestEdgeLoop ops polygonShape center rest
        (st.1, vertexAt polygonVertices i, vertexAt polygonVertices n, projection)
    else nearestEdgeLoop ops polygonShape center rest st

def IsCollidingPolygonCircle (ops : Ops K) (h : Store K) (polygon circle : Nat)
    (contacts : List (Contact K)) : Bool × List (Contact K) :=
  match (h polygon).Shape.asPolygon, (h circle).Shape.asCircle with
  | some polygonShape, some radius =>
    let center := (h circle).Position
    let st := nearestEdgeLoop ops polygonShape center
      (List.range polygonShape.GetWorldVertices.length) (false, ⟨0, 0⟩, ⟨0, 0⟩, -MaxFloat64)
    let isOutside := st.1
    let minCurVertex := st.2.1
    let minNextVertex := st.2.2.1
    let distanceCircleEdge := st.2.2.2
    if isOutside then
      let v1 := center.Sub minCurVertex
      let v2 := minNextVertex.Sub minCurVertex
      if v1.Dot v2 < 0 then
        if v1.Length ops > radius then (false, contacts)
        else
          let depth := radius - v1.Length ops
          let normal := v1.Normalize ops
          let start := center.Add (normal.Muln (-radius))
          (true, contacts ++ [{ A := polygon, B := circle, Depth := depth, Normal := normal,
                                Start := start, End := start.Add (normal.Muln depth) }])
      else
        let v1 := center.Sub minNextVertex
        let v2 := minCurVertex.Sub minNextVertex
        if v1.Dot v2 < 0 then
          if v1.Length ops > radius then (false, contacts)
          else
            let depth := radius - v1.Length ops
            let normal := v1.Normalize ops
            let start := center.Add (normal.Muln (-radius))
            (true, contacts ++ [{ A := polygon, B := circle, Depth := depth, Normal := normal,
                                  Start := start, End := start.Add (normal.Muln depth) }])
        else
          if distanceCircleEdge > radius then (false, contacts)
          else
            let depth := radius - distanceCircleEdge
            let normal := (minNextVertex.Sub minCurVertex).Normal ops
            let start := center.Sub (normal.Muln radius)
            (true, contacts ++ [{ A := polygon, B := circle, Depth := depth, Normal := normal,
                                  Start := start, End := start.Add (normal.Muln depth) }])
    else
      let depth := radius - distanceCircleEdge
      let normal := (minNextVertex.Sub minCurVertex).Normal ops
      let start := center.Sub (normal.Muln radius)
      (true, contacts ++ [{ A := polygon, B := circle, Depth := depth, Normal := normal,
                            Start := start, End := start.Add (normal.Muln depth) }])
  | _, _ => (false, contacts)

def IsColliding (ops : Ops K) (h : Store K) (a b : Nat) (contacts : List (Contact K)) :
    Bool × List (Contact K) :=
  let aIsCircle := (h a).Shape.GetType = .CIRCLE_SHAPE
  let bIsCircle := (h b).Shape.GetType = .CIRCLE_SHAPE
  let aIsPolygon := (h a).Shape.GetType = .POLYGON_SHAPE ∨ (h a).Shape.GetType = .BOX_SHAPE
  let bIsPolygon := (h b).Shape.GetType = .POLYGON_SHAPE ∨ (h b).Shape.GetType = .BOX_SHAPE
  if aIsCircle ∧ bIsCircle then IsCollidingCircleCircle ops h a b contacts
  else if aIsPolygon ∧ bIsPolygon then IsCollidingPolygonPolygon ops h a b contacts
  else if aIsPolygon ∧ bIsCircle then IsCollidingPolygonCircle ops h a b contacts
  else if aIsCircle ∧ bIsPolygon then IsCollidingPolygonCircle ops h b a contacts
  else (false, contacts)

/-- A store holding `b0` at address 0 and `b1` at every other address. -/
def twoBodies (b0 b1 : Body K) : Store K := fun p => if p = 0 then b0 else b1

/-! ## math.go: `Vec` and `Mat` -/

/-- Go `type Vec []float64`. -/
abbrev Vec (K : Type) := List K

/-- Go `type Mat []Vec`. -/
abbrev Mat (K : Type) := List (List K)

/-- The element `v[i]` of a vector. -/
def Vec.elem (v : Vec K) (i : Nat) : K := v.getD i 0

/-- The row `m[i]` of a matrix. -/
def Mat.row (m : Mat K) (i : Nat) : Vec K := m.getD i []

def Vec.Add (v o : Vec K) : Vec K :=
  (List.range v.length).map (fun i => Vec.elem v i + Vec.elem o i)

def Vec.Sub (v o : Vec K) : Vec K :=
  (List.range v.length).map (fun i => Vec.elem v i - Vec.elem o i)

def Vec.Muln (v : Vec K) (n : K) : Vec K :=
  (List.range v.length).map (fun i => Vec.elem v i * n)

def Vec.Dot (v o : Vec K) : K :=
  (List.range v.length).foldl (fun s i => s + Vec.elem v i * Vec.elem o i) 0

def NewMat (rows cols : Nat) : Mat K :=
  List.replicate rows (List.replicate cols 0)

def Mat.Nrows (m : Mat K) : Nat := m.length

def Mat.Ncols (m : Mat K) : Nat :=
  if m.length = 0 then 0 else (Mat.row m 0).length

def Mat.Transpose (m : Mat K) : Mat K :=
  let r := Mat.Nrows m
  let c := Mat.Ncols m
  (List.range c).map (fun j => (List.range r).map (fun i => Vec.elem (Mat.row m i) j))

def Mat.Mulv (m : Mat K) (v : Vec K) : Vec K :=
  let c := Mat.Ncols m
  if c ≠ v.length then v
  else
    let r := Mat.Nrows m
    (List.range r).map (fun i => Vec.Dot v (Mat.row m i))

def Mat.Mul (m n : Mat K) : Mat K :=
  let mr := Mat.Nrows m
  let mc := Mat.Ncols m
  let nr := Mat.Nrows n
  let nc := Mat.Ncols n
  if mc ≠ nr then n
  else
    let transposed := Mat.Transpose n
    (List.range mr).map (fun i =>
      (List.range nc).map (fun j => Vec.Dot (Mat.row m i) (Mat.row transposed j)))

/-- One pass `for i := range n` of `SolveGaussSeidel`.  In exact arithmetic
`dx` fails the test `dx == dx` (is NaN) exactly when the quotients are undefined,
that is when `m[i][i]` is zero; the update is then skipped. -/
def gaussSeidelSweep (m : Mat K) (v : Vec K) (u : Vec K) : Vec K :=
  (List.range v.length).foldl
    (fun u i =>
      let dx := Vec.elem v i / Vec.elem (Mat.row m i) i - Vec.Dot (Mat.row m i) u / Vec.elem (Mat.row m i) i
      if Vec.elem (Mat.row m i) i = 0 then u else u.set i (Vec.elem u i + dx))
    u

def Mat.SolveGaussSeidel (m : Mat K) (v : Vec K) : Vec K :=
  let n := v.length
  (List.range n).foldl (fun u _ => gaussSeidelSweep m v u) (List.replicate n 0)

/-! ## constraint.go (lesson29-4) -/

/-- The update of the body at address `p` by a method with pointer receiver. -/
def Store.modify (h : Store K) (p : Nat) (f : Body K → Body K) : Store K :=
  Function.update h p (f (h p))

/-- Go `type ConstraintBase struct { a, b *Body; aPoint, bPoint Vec2 }`. -/
structure ConstraintBase (K : Type) where
  a : Nat
  b : Nat
  aPoint : Vec2 K
  bPoint : Vec2 K
deriving DecidableEq, Repr

def ConstraintBase.GetInvM (c : ConstraintBase K) (h : Store K) : Mat K :=
  [[(h c.a).InvMass, 0, 0, 0, 0, 0],
   [0, (h c.a).InvMass, 0, 0, 0, 0],
   [0, 0, (h c.a).InvI, 0, 0, 0],
   [0, 0, 0, (h c.b).InvMass, 0, 0],
   [0, 0, 0, 0, (h c.b).InvMass, 0],
   [0, 0, 0, 0, 0, (h c.b).InvI]]

def ConstraintBase.GetVelocities (c : ConstraintBase K) (h : Store K) : Vec K :=
  [(h c.a).Velocity.X, (h c.a).Velocity.Y, (h c.a).AngularVelocity,
   (h c.b).Velocity.X, (h c.b).Velocity.Y, (h c.b).AngularVelocity]

/-- The four calls `c.a.ApplyImpulseLinear`, `c.a.ApplyImpulseAngular`,
`c.b.ApplyImpulseLinear`, `c.b.ApplyImpulseAngular` that end `PreSolve` and `Solve`. -/
def ConstraintBase.applyImpulses (c : ConstraintBase K) (h : Store K) (impulses : Vec K) :
    Store K :=
  let h1 := Store.modify h c.a
    (fun body => body.ApplyImpulseLinear ⟨Vec.elem impulses 0, Vec.elem impulses 1⟩)
  let h2 := Store.modify h1 c.a (fun body => body.ApplyImpulseAngular (Vec.elem impulses 2))
  let h3 := Store.modify h2 c.b
    (fun body => body.ApplyImpulseLinear ⟨Vec.elem impulses 3, Vec.elem impulses 4⟩)
  Store.modify h3 c.b (fun body => body.ApplyImpulseAngular (Vec.elem impulses 5))

/-- Go `type JointConstraint struct`. -/
structure JointConstraint (K : Type) where
  base : ConstraintBase K
  Jacobian : Mat K
  cachedLambda : Vec K
  bias : K
deriving DecidableEq, Repr

def NewJointConstraint (ops : Ops K) (h : Store K) (a b : Nat) (anchorPoint : Vec2 K) :
    JointConstraint K :=
  { base :=
      { a := a, b := b
        aPoint := (h a).WorldSpaceToLocalSpace ops anchorPoint
        bPoint := (h b).WorldSpaceToLocalSpace ops anchorPoint }
    Jacobian := NewMat 1 6
    cachedLambda := List.replicate 1 0
    bias := 0 }

def JointConstraint.PreSolve (ops : Ops K) (dt : K) (c : JointConstraint K) (h : Store K) :
    JointConstraint K × Store K :=
  let pa := (h c.base.a).LocalSpaceToWorldSpace ops c.base.aPoint
  let pb := (h c.base.b).LocalSpaceToWorldSpace ops c.base.bPoint
  let ra := pa.Sub (h c.base.a).Position
  let rb := pb.Sub (h c.base.b).Position
  let J1 := (pa.Sub pb).Muln 2
  let J2 := ra.Cross (pa.Sub pb) * 2
  let J3 := (pb.Sub pa).Muln 2
  let J4 := rb.Cross (pb.Sub pa) * 2
  let jacobian : Mat K := [[J1.X, J1.Y, J2, J3.X, J3.Y, J4]]
  let Jt := Mat.Transpose jacobian
  let impulses := Mat.Mulv Jt c.cachedLambda
  let h1 := c.base.applyImpulses h impulses
  let beta : K := 2 / 10
  let C := (pb.Sub pa).Dot (pb.Sub pa)
  let C1 := max 0 (C - 1 / 100)
  ({ c with Jacobian := jacobian, bias := beta / dt * C1 }, h1)

def JointConstraint.Solve (c : JointConstraint K) (h : Store K) : JointConstraint K × Store K :=
  let V := c.base.GetVelocities h
  let invM := c.base.GetInvM h
  let J := c.Jacobian
  let Jt := Mat.Transpose c.Jacobian
  let lhs := Mat.Mul (Mat.Mul J invM) Jt
  let rhs0 := Vec.Muln (Mat.Mulv J V) (-1)
  let rhs := rhs0.set 0 (Vec.elem rhs0 0 - c.bias)
  let lambda := Mat.SolveGaussSeidel lhs rhs
  let impulses := Mat.Mulv Jt lambda
  ({ c with cachedLambda := Vec.Add c.cachedLambda lambda }, c.base.applyImpulses h impulses)

def JointConstraint.PostSolve (c : JointConstraint K) (h : Store K) :
    JointConstraint K × Store K := (c, h)

/-! ## Example configurations -/

/-- A static circle at the origin (address 0) and a unit-mass circle at `(3, 0)`
(every other address). -/
def pendulumStore (ops : Ops K) : Store K :=
  twoBodies (NewBody ops (NewCircleShape 1) 0 0 0) (NewBody ops (NewCircleShape 1) 3 0 1)

/-- A joint between the bodies at addresses 0 and 1 whose anchors are the two centres. -/
def pendulumJoint : JointConstraint K :=
  { base := { a := 0, b := 1, aPoint := ⟨0, 0⟩, bPoint := ⟨0, 0⟩ }
    Jacobian := NewMat 1 6
    cachedLambda := List.replicate 1 0
    bias := 0 }

/-! ## collisionDection.go of lesson21 with shape.go of lesson22-2

The earlier, single-contact version of the narrow phase. -/

/-- Go `Contact` as a returned value; the zero value `Contact{}` has nil body pointers. -/
structure Lesson21.Contact (K : Type) where
  A : Option Nat
  B : Option Nat
  Start : Vec2 K
  End : Vec2 K
  Normal : Vec2 K
  Depth : K
deriving DecidableEq, Repr

/-- The zero value `Contact{}`. -/
def Lesson21.zeroContact : Lesson21.Contact K :=
  { A := none, B := none, Start := ⟨0, 0⟩, End := ⟨0, 0⟩, Normal := ⟨0, 0⟩, Depth := 0 }

/-- One pass of the outer loop of `FindMinSeparation` (lesson22-2) for edge `i`, on the
state `(separation, axis, point)`. -/
def Lesson21.findMinSeparationStep (ops : Ops K) (s s2 : PolygonBase K)
    (st : K × Vec2 K × Vec2 K) (i : Nat) : K × Vec2 K × Vec2 K :=
  let v := s.GetWorldVertice i
  let normal := (s.EdgeAt i).Normal ops
  let r := minSepLoop v normal s2.GetWorldVertices (MaxFloat64, ⟨0, 0⟩)
  let minSep := r.1
  let minVertex := r.2
  let st1 : K × Vec2 K × Vec2 K := if minSep > st.1 then (minSep, s.EdgeAt i, minVertex) else st
  (max st1.1 minSep, st1.2.1, st1.2.2)

/-- `PolygonBase.FindMinSeparation` of lesson22-2: returns `(separation, axis, point)`. -/
def Lesson21.FindMinSeparation (ops : Ops K) (s s2 : PolygonBase K) : K × Vec2 K × Vec2 K :=
  (List.range s.GetWorldVertices.length).foldl (Lesson21.findMinSeparationStep ops s s2)
    (-MaxFloat64, ⟨0, 0⟩, ⟨0, 0⟩)

def Lesson21.IsCollidingCircleCircle (ops : Ops K) (h : Store K) (a b : Nat) :
    Bool × Lesson21.Contact K :=
  match (h a).Shape.asCircle, (h b).Shape.asCircle with
  | some aRadius, some bRadius =>
    let ab := (h b).Position.Sub (h a).Position
    let radiusSum := aRadius + bRadius
    let isColliding := decide (ab.Dot ab ≤ radiusSum * radiusSum)
    if !isColliding then (false, Lesson21.zeroContact)
    else
      let normal := ab.Normalize ops
      let start := (h b).Position.Sub (normal.Muln bRadius)
      let end_ := (h a).Position.Add (normal.Muln aRadius)
      (true, { A := some a, B := some b, Normal := normal, Start := start, End := end_,
               Depth := (end_.Sub start).Length ops })
  | _, _ => (false, Lesson21.zeroContact)

def Lesson21.IsCollidingPolygonPolygon (ops : Ops K) (h : Store K) (a b : Nat) :
    Bool × Lesson21.Contact K :=
  match (h a).Shape.asPolygon, (h b).Shape.asPolygon with
  | some aPolygonShape, some bPolygonShape =>
    let ab := Lesson21.FindMinSeparation ops aPolygonShape bPolygonShape
    let abSeparation := ab.1
    let aAxis := ab.2.1
    let aPoint := ab.2.2
    if abSeparation ≥ 0 then (false, Lesson21.zeroContact)
    else
      let ba := Lesson21.FindMinSeparation ops bPolygonShape aPolygonShape
      let baSeparation := ba.1
      let bAxis := ba.2.1
      let bPoint := ba.2.2
      if baSeparation ≥ 0 then (false, Lesson21.zeroContact)
      else if abSeparation > baSeparation then
        let depth := -abSeparation
        let normal := aAxis.Normal ops
        (true, { A := some a, B := some b, Depth := depth, Normal := normal, Start := aPoint,
                 End := aPoint.Add (normal.Muln depth) })
      else
        let depth := -baSeparation
        let normal := (bAxis.Normal ops).Muln (-1)
        (true, { A := some a, B := some b, Depth := depth, Normal := normal,
                 Start := bPoint.Sub (normal.Muln depth), End := bPoint })
  | _, _ => (false, Lesson21.zeroContact)

/-- The edge loop of the lesson21 `IsCollidingPolygonCircle`: the end points of the
first edge with a positive projection of the circle centre. -/
def Lesson21.firstOutsideEdge (ops : Ops K) (polygonShape : PolygonBase K) (center : Vec2 K) :
    List Nat → Vec2 K × Vec2 K
  | [] => (⟨0, 0⟩, ⟨0, 0⟩)
  | i :: rest =>
    let polygonVertices := polygonShape.GetWorldVertices
    let n := (i + 1) % polygonVertices.length
    let normal := (polygonShape.EdgeAt i).Normal ops
    let circleCenter := center.Sub (vertexAt polygonVertices i)
    let projection := circleCenter.Dot normal
    if projection > 0 then (vertexAt polygonVertices i, vertexAt polygonVertices n)
    else Lesson21.firstOutsideEdge ops polygonShape center rest

/-- In lesson21 the polygon-circle test is unfinished and always answers `false`. -/
def Lesson21.IsCollidingPolygonCircle (ops : Ops K) (h : Store K) (polygon circle : Nat) :
    Bool × Lesson21.Contact K :=
  match (h polygon).Shape.asPolygon with
  | some polygonShape =>
    let r := Lesson21.firstOutsideEdge ops polygonShape (h circle).Position
      (List.range polygonShape.GetWorldVertices.length)
    (false, { Lesson21.zeroContact with Start := r.1, End := r.2 })
  | none => (false, Lesson21.zeroContact)

def Lesson21.IsColliding (ops : Ops K) (h : Store K) (a b : Nat) : Bool × Lesson21.Contact K :=
  let aIsCircle := (h a).Shape.GetType = .CIRCLE_SHAPE
  let bIsCircle := (h b).Shape.GetType = .CIRCLE_SHAPE
  let aIsPolygon := (h a).Shape.GetType = .POLYGON_SHAPE ∨ (h a).Shape.GetType = .BOX_SHAPE
  let bIsPolygon := (h b).Shape.GetType = .POLYGON_SHAPE ∨ (h b).Shape.GetType = .BOX_SHAPE
  if aIsCircle ∧ bIsCircle then Lesson21.IsCollidingCircleCircle ops h a b
  else if aIsPolygon ∧ bIsPolygon then Lesson21.IsCollidingPolygonPolygon ops h a b
  else if aIsPolygon ∧ bIsCircle then Lesson21.IsCollidingPolygonCircle ops h a b
  else if aIsCircle ∧ bIsPolygon then Lesson21.IsCollidingPolygonCircle ops h b a
  else (false, Lesson21.zeroContact)

/-- A 2x2 box centred at `(1, 1)` (address 0) and the triangle
`(3/2, 1), (11/2, -2), (11/2, 4)` (every other address). -/
def boxAndTriangle (ops : Ops K) : Store K :=
  twoBodies (NewBody ops (NewBoxShape 2 2) 1 1 1)
    (NewBody ops (NewPolygoShape [⟨3 / 2, 1⟩, ⟨11 / 2, -2⟩, ⟨11 / 2, 4⟩]) 0 0 1)

/-! ## constraint.go (lesson29-4): `PenetrationConstraint` -/

/-- Go `type PenetrationConstraint struct`. -/
structure PenetrationConstraint (K : Type) where
  base : ConstraintBase K
  Jacobian : Mat K
  cachedLambda : Vec K
  bias : K
  normal : Vec2 K
  friction : K
deriving DecidableEq, Repr

def NewPenetrationConstraint (ops : Ops K) (h : Store K) (a b : Nat)
    (aCollisionPoint bCollisionPoint normal : Vec2 K) : PenetrationConstraint K :=
  { base :=
      { a := a, b := b
        aPoint := (h a).WorldSpaceToLocalSpace ops aCollisionPoint
        bPoint := (h b).WorldSpaceToLocalSpace ops bCollisionPoint }
    Jacobian := NewMat 2 6
    cachedLambda := List.replicate 2 0
    bias := 0
    normal := (h a).WorldSpaceToLocalSpace ops normal
    friction := 0 }

def PenetrationConstraint.PreSolve (ops : Ops K) (dt : K) (c : PenetrationConstraint K)
    (h : Store K) : PenetrationConstraint K × Store K :=
  let pa := (h c.base.a).LocalSpaceToWorldSpace ops c.base.aPoint
  let pb := (h c.base.b).LocalSpaceToWorldSpace ops c.base.bPoint
  let n := (h c.base.a).LocalSpaceToWorldSpace ops c.normal
  let ra := pa.Sub (h c.base.a).Position
  let rb := pb.Sub (h c.base.b).Position
  let row0 : Vec K := [-n.X, -n.Y, -(ra.Cross n), n.X, n.Y, rb.Cross n]
  let friction := max (h c.base.a).Friction (h c.base.b).Friction
  let row1 : Vec K :=
    if friction > 0 then
      let t := n.Normal ops
      [-t.X, -t.Y, -(ra.Cross t), t.X, t.Y, rb.Cross t]
    else [0, 0, 0, 0, 0, 0]
  let jacobian : Mat K := [row0, row1]
  let Jt := Mat.Transpose jacobian
  let impulses := Mat.Mulv Jt c.cachedLambda
  let h1 := c.base.applyImpulses h impulses
  let beta : K := 2 / 10
  let C := (pb.Sub pa).Dot (n.Muln (-1))
  let C1 := min 0 (C + 1 / 100)
  ({ c with Jacobian := jacobian, bias := beta / dt * C1 }, h1)

def PenetrationConstraint.Solve (c : PenetrationConstraint K) (h : Store K) :
    PenetrationConstraint K × Store K :=
  let V := c.base.GetVelocities h
  let invM := c.base.GetInvM h
  let J := c.Jacobian
  let Jt := Mat.Transpose c.Jacobian
  let lhs := Mat.Mul (Mat.Mul J invM) Jt
  let rhs0 := Vec.Muln (Mat.Mulv J V) (-1)
  let rhs := rhs0.set 0 (Vec.elem rhs0 0 - c.bias)
  let lambda := Mat.SolveGaussSeidel lhs rhs
  let oldLambda := c.cachedLambda
  let cl0 := Vec.Add c.cachedLambda lambda
  let cl1 := if Vec.elem cl0 0 < 0 then cl0.set 0 0 else cl0
  let cl2 :=
    if c.friction > 0 then
      let maxFriction := Vec.elem cl1 0 * c.friction
      cl1.set 1 (Clamp (Vec.elem cl1 1) (-maxFriction) maxFriction)
    else cl1
  let lambda1 := Vec.Sub cl2 oldLambda
  let impulses := Mat.Mulv Jt lambda1
  ({ c with cachedLambda := cl2 }, c.base.applyImpulses h impulses)

def PenetrationConstraint.PostSolve (c : PenetrationConstraint K) (h : Store K) :
    PenetrationConstraint K × Store K := (c, h)

/-- The two implementations of Go `type Constraint interface`. -/
inductive Constraint (K : Type) where
  | joint (c : JointConstraint K)
  | penetration (c : PenetrationConstraint K)
deriving DecidableEq, Repr

def Constraint.PreSolve (ops : Ops K) (dt : K) (c : Constraint K) (h : Store K) :
    Constraint K × Store K :=
  match c with
  | .joint j => (.joint (j.PreSolve ops dt h).1, (j.PreSolve ops dt h).2)
  | .penetration q => (.penetration (q.PreSolve ops dt h).1, (q.PreSolve ops dt h).2)

def Constraint.Solve (c : Constraint K) (h : Store K) : Constraint K × Store K :=
  match c with
  | .joint j => (.joint (j.Solve h).1, (j.Solve h).2)
  | .penetration q => (.penetration (q.Solve h).1, (q.Solve h).2)

def Constraint.PostSolve (c : Constraint K) (h : Store K) : Constraint K × Store K :=
  match c with
  | .joint j => (.joint (j.PostSolve h).1, (j.PostSolve h).2)
  | .penetration q => (.penetration (q.PostSolve h).1, (q.PostSolve h).2)

/-! ## world.go (lesson29-5) -/

def PIXELS_PER_METER : K := 50

/-- Go `type World struct`. -/
structure World (K : Type) where
  G : K
  bodies : List Nat
  constraints : List (Constraint K)
  forces : List (Vec2 K)
  torques : List K

def NewWorld (gravity : K) : World K :=
  { G := -gravity, bodies := [], constraints := [], forces := [], torques := [] }

def World.AddBody (w : World K) (body : Nat) : World K :=
  { w with bodies := w.bodies ++ [body] }

def World.AddConstraint (w : World K) (constraint : Constraint K) : World K :=
  { w with constraints := w.constraints ++ [constraint] }

def World.AddForce (w : World K) (force : Vec2 K) : World K :=
  { w with forces := w.forces ++ [force] }

/-- A loop `for _, c := range cs { c.method() }` over constraints held by pointer: each
call updates the constraint and the bodies. -/
def forEachConstraint {C : Type} (f : C → Store K → C × Store K) :
    List C → Store K → List C × Store K
  | [], h => ([], h)
  | c :: cs, h =>
    let r := f c h
    let rs := forEachConstraint f cs r.2
    (r.1 :: rs.1, rs.2)

/-- The first loop of `World.Update`: weight, world forces and world torques. -/
def World.applyForces (w : World K) (h : Store K) : Store K :=
  w.bodies.foldl
    (fun h body =>
      let weight : Vec2 K := ⟨0, (h body).Mass * w.G * PIXELS_PER_METER⟩
      let h1 := Store.modify h body (fun b => b.AddFore weight)
      let h2 := w.forces.foldl (fun h force => Store.modify h body (fun b => b.AddFore force)) h1
      w.torques.foldl (fun h torque => Store.modify h body (fun b => b.AddTorque torque)) h2)
    h

/-- The collision loop of `World.Update` over the pairs `i < j`.  The narrow phase
`IsColliding` of that lesson, of type `(a, b *Body) (bool, Contact)`, is the
parameter `isColliding`. -/
def World.detectCollisions (ops : Ops K) (isColliding : Store K → Nat → Nat → Bool × Contact K)
    (w : World K) (h : Store K) : List (PenetrationConstraint K) :=
  (List.range w.bodies.length).foldl
    (fun penetrations i =>
      (List.range (w.bodies.length - (i + 1))).foldl
        (fun penetrations k =>
          let j := i + 1 + k
          let a := w.bodies.getD i 0
          let b := w.bodies.getD j 0
          let r := isColliding h a b
          if r.1 then
            penetrations ++
              [NewPenetrationConstraint ops h r.2.A r.2.B r.2.Start r.2.End r.2.Normal]
          else penetrations)
        penetrations)
    []

/-- One of the five solver iterations of `World.Update`. -/
def World.solveOnce (st : List (Constraint K) × List (PenetrationConstraint K) × Store K) :
    List (Constraint K) × List (PenetrationConstraint K) × Store K :=
  let r1 := forEachConstraint Constraint.Solve st.1 st.2.2
  let r2 := forEachConstraint PenetrationConstraint.Solve st.2.1 r1.2
  (r1.1, r2.1, r2.2)

def World.Update (ops : Ops K) (isColliding : Store K → Nat → Nat → Bool × Contact K)
    (dt : K) (w : World K) (h : Store K) : World K × Store K :=
  let h1 := w.applyForces h
  let h2 := w.bodies.foldl (fun h body => Store.modify h body (fun b => b.IntegrateForces dt)) h1
  let penetrations := w.detectCollisions ops isColliding h2
  let p1 := forEachConstraint (Constraint.PreSolve ops dt) w.constraints h2
  let p2 := forEachConstraint (PenetrationConstraint.PreSolve ops dt) penetrations p1.2
  let s := (List.range 5).foldl (fun st _ => World.solveOnce st) (p1.1, p2.1, p2.2)
  let q1 := forEachConstraint Constraint.PostSolve s.1 s.2.2
  let q2 := forEachConstraint PenetrationConstraint.PostSolve s.2.1 q1.2
  let h3 := w.bodies.foldl
    (fun h body => Store.modify h body (fun b => b.IntegrateVelocities ops dt)) q2.2
  ({ w with constraints := q1.1 }, h3)

/-- A call a client can make on a world and its bodies. -/
inductive Call (K : Type) where
  | AddFore (body : Nat) (force : Vec2 K)
  | AddTorque (body : Nat) (torque : K)
  | ApplyImpulseLinear (body : Nat) (j : Vec2 K)
  | ApplyImpulseAngular (body : Nat) (j : K)
  | ApplyImpulseAtPoint (body : Nat) (j r : Vec2 K)
  | IntegrateForces (body : Nat) (dt : K)
  | IntegrateVelocities (body : Nat) (dt : K)
  | WorldUpdate (dt : K)
  | WorldAddBody (body : Nat)
  | WorldAddConstraint (constraint : Constraint K)
  | WorldAddForce (force : Vec2 K)

/-- The effect of one call on the world and the store. -/
def Call.run (ops : Ops K) (isColliding : Store K → Nat → Nat → Bool × Contact K)
    (st : World K × Store K) (c : Call K) : World K × Store K :=
  match c with
  | .AddFore body force => (st.1, Store.modify st.2 body (fun b => b.AddFore force))
  | .AddTorque body torque => (st.1, Store.modify st.2 body (fun b => b.AddTorque torque))
  | .ApplyImpulseLinear body j => (st.1, Store.modify st.2 body (fun b => b.ApplyImpulseLinear j))
  | .ApplyImpulseAngular body j =>
    (st.1, Store.modify st.2 body (fun b => b.ApplyImpulseAngular j))
  | .ApplyImpulseAtPoint body j r =>
    (st.1, Store.modify st.2 body (fun b => b.ApplyImpulseAtPoint j r))
  | .IntegrateForces body dt => (st.1, Store.modify st.2 body (fun b => b.IntegrateForces dt))
  | .IntegrateVelocities body dt =>
    (st.1, Store.modify st.2 body (fun b => b.IntegrateVelocities ops dt))
  | .WorldUpdate dt => World.Update ops isColliding dt st.1 st.2
  | .WorldAddBody body => (st.1.AddBody body, st.2)
  | .WorldAddConstraint constraint => (st.1.AddConstraint constraint, st.2)
  | .WorldAddForce force => (st.1.AddForce force, st.2)

/-- A sequence of calls, in order. -/
def runCalls (ops : Ops K) (isColliding : Store K → Nat → Nat → Bool × Contact K)
    (calls : List (Call K)) (st : World K × Store K) : World K × Store K :=
  calls.foldl (Call.run ops isColliding) st

/-- The part of a body's state that a static body must keep: its inverse mass,
`Position`, `Velocity`, `Rotation` and `AngularVelocity`. -/
def Body.frame (b : Body K) : K × Vec2 K × Vec2 K × K × K :=
  (b.InvMass, b.Position, b.Velocity, b.Rotation, b.AngularVelocity)

/-! ## Polygons as regions -/

/-- The quantity `FindMinSeparation` minimises: the signed distance of the point `x`
to the line of edge `i`, positive on the side the edge normal points to. -/
def PolygonBase.edgeDistance (ops : Ops K) (s : PolygonBase K) (i : Nat) (x : Vec2 K) : K :=
  (x.Sub (s.GetWorldVertice i)).Dot ((s.EdgeAt i).Normal ops)

/-- The point `x` is in the interior of the polygon: strictly on the inner side of
the line of every edge. -/
def PolygonBase.InInterior (ops : Ops K) (s : PolygonBase K) (x : Vec2 K) : Prop :=
  ∀ i, i < s.GetWorldVertices.length → s.edgeDistance ops i x < 0

/-- A convex polygon wound so that the edge normals point outward: at least three
vertices, no zero-length edge, and every vertex on the inner side of (or on) the line
of every edge. -/
def PolygonBase.IsConvex (ops : Ops K) (s : PolygonBase K) : Prop :=
  3 ≤ s.GetWorldVertices.length ∧
  (∀ i, i < s.GetWorldVertices.length → s.EdgeAt i ≠ ⟨0, 0⟩) ∧
  ∀ i, i < s.GetWorldVertices.length → ∀ j, j < s.GetWorldVertices.length →
    s.edgeDistance ops i (s.GetWorldVertice j) ≤ 0


/-- Two unit circles of mass 1 centred at `(0, 0)` (address 0, given the velocity
`(1, 0)` by a linear impulse) and at `(0, 2)` (every other address). -/
def slidingCircles (ops : Ops K) : Store K :=
  twoBodies ((NewBody ops (NewCircleShape 1) 0 0 1).ApplyImpulseLinear ⟨1, 0⟩)
    (NewBody ops (NewCircleShape 1) 0 2 1)

/-- The penetration constraint of the two circles of `slidingCircles` for the contact
at `(0, 1)` with normal `(0, 1)`. -/
def slidingContact (ops : Ops K) : PenetrationConstraint K :=
  NewPenetrationConstraint ops (slidingCircles ops) 0 1 ⟨0, 1⟩ ⟨0, 1⟩ ⟨0, 1⟩


/-- The world-vertex cache of a polygon or box body agrees with the body's pose:
`WorldVertices[i] = LocalVertices[i].Rotate(Rotation).Add(Position)` for every index
`i` of `LocalVertices`.  A circle has no cache. -/
def Body.VerticesFresh (ops : Ops K) (b : Body K) : Prop :=
  match b.Shape.asPolygon with
  | none => True
  | some p =>
    ∀ i, i < p.LocalVertices.length →
      vertexAt p.WorldVertices i =
        ((vertexAt p.LocalVertices i).Rotate ops b.Rotation).Add b.Position


/-! ## collisionDection.go and contact.go of lesson17-3, contact.go of lesson19

The `Contact` struct of these lessons is the one of lesson21 (`Lesson21.Contact`); the
body methods they call are those of body.go (lesson29-5). -/

def Lesson17.IsCollidingCircleCircle (ops : Ops K) (h : Store K) (a b : Nat) :
    Bool × Lesson21.Contact K :=
  match (h a).Shape.asCircle, (h b).Shape.asCircle with
  | some aRadius, some bRadius =>
    let ab := (h b).Position.Sub (h a).Position
    let radiusSum := aRadius + bRadius
    let isColliding := decide (ab.Dot ab ≤ radiusSum * radiusSum)
    if !isColliding then (false, Lesson21.zeroContact)
    else
      let normal := ab.Normalize ops
      let start := (h b).Position.Sub (normal.Muln bRadius)
      let end_ := (h a).Position.Add (normal.Muln aRadius)
      (true, { A := some a, B := some b, Normal := normal, Start := start, End := end_,
               Depth := (end_.Sub start).Length ops })
  | _, _ => (false, Lesson21.zeroContact)

def Lesson17.IsColliding (ops : Ops K) (h : Store K) (a b : Nat) : Bool × Lesson21.Contact K :=
  let aIsCircle := (h a).Shape.GetType = .CIRCLE_SHAPE
  let bIsCircle := (h b).Shape.GetType = .CIRCLE_SHAPE
  if aIsCircle ∧ bIsCircle then Lesson17.IsCollidingCircleCircle ops h a b
  else (false, Lesson21.zeroContact)

/-- `Contact.ResolvePenetration` (lesson17-3, the same in lesson19): the projection
method; `none` stands for the nil dereference on a contact without bodies. -/
def Lesson17.ResolvePenetration (c : Lesson21.Contact K) (h : Store K) : Option (Store K) :=
  match c.A, c.B with
  | some a, some b =>
    if (h a).IsStatic && (h b).IsStatic then some h
    else
      let da := c.Depth / ((h a).InvMass + (h b).InvMass) * (h a).InvMass
      let db := c.Depth / ((h a).InvMass + (h b).InvMass) * (h b).InvMass
      let h1 := Store.modify h a
        (fun body => { body with Position := body.Position.Sub (c.Normal.Muln da) })
      some (Store.modify h1 b
        (fun body => { body with Position := body.Position.Add (c.Normal.Muln db) }))
  | _, _ => none

/-- `Contact.ResolveCollision` (lesson19).  The body method `ApplyImpulse` it calls is
not among the sources of that lesson and is the parameter `applyImpulse`. -/
def Lesson19.ResolveCollision (applyImpulse : Body K → Vec2 K → Body K)
    (c : Lesson21.Contact K) (h : Store K) : Option (Store K) :=
  match Lesson17.ResolvePenetration c h, c.A, c.B with
  | some h1, some a, some b =>
    let e := min (h1 a).Restitution (h1 b).Restitution
    let vrel := (h1 a).Velocity.Sub (h1 b).Velocity
    let vrelDotNormal := vrel.Dot c.Normal
    let impulseDirection := c.Normal
    let impulseMagnitude := -(1 + e) * vrelDotNormal / ((h1 a).InvMass + (h1 b).InvMass)
    let jn := impulseDirection.Muln impulseMagnitude
    let h2 := Store.modify h1 a (fun body => applyImpulse body jn)
    some (Store.modify h2 b (fun body => applyImpulse body (jn.Muln (-1))))
  | _, _, _ => none

/-- Two circles of radius 10 and mass 1 centred at `(0, 0)` (address 0) and `(15, 0)`
(every other address). -/
def overlappingCircles (ops : Ops K) : Store K :=
  twoBodies (NewBody ops (NewCircleShape 10) 0 0 1) (NewBody ops (NewCircleShape 10) 15 0 1)


/-- Two unit circles of mass 1 centred at `(0, 0)` (address 0, velocity `(1, 0)`) and
`(2, 0)` (every other address, velocity `(-1, 0)`), moving towards each other. -/
def headOnCircles (ops : Ops K) : Store K :=
  twoBodies ((NewBody ops (NewCircleShape 1) 0 0 1).ApplyImpulseLinear ⟨1, 0⟩)
    ((NewBody ops (NewCircleShape 1) 2 0 1).ApplyImpulseLinear ⟨-1, 0⟩)


/-! ## body.go (lesson29-5): force generators -/

def Body.GenerateSpringForce (ops : Ops K) (b : Body K) (anchor : Vec2 K) (restLength k : K) :
    Vec2 K :=
  let d := b.Position.Sub anchor
  let displacement := d.Length ops - restLength
  let springDirection := d.Normalize ops
  let springMagnitude := -k * displacement
  springDirection.Muln springMagnitude


/-- The quantity `dist0`, `dist1` of `ClipSegmentToLine`: the signed distance
`(p - c0) x unit(c1 - c0)` of the point `p` to the clip line through `c0` and `c1`. -/
def clipDistance (ops : Ops K) (c0 c1 p : Vec2 K) : K :=
  (p.Sub c0).Cross ((c1.Sub c0).Normalize ops)


/-! ## collisionDection.go (lesson19): the first `FindMinSeparation` -/

/-- `FindMinSeparation(a, b)` of lesson19, in its `math.Min`/`math.Max` formulation.
The methods `GetWorldVertices`, `GetWorldVertice`, `EdgeAt` of the polygon shape and
`Normal` of `Vec2` are not among the sources of that lesson and are the parameters
`getWorldVertices`, `getWorldVertice`, `edgeAt` and `normalOf`. -/
def Lesson19.FindMinSeparation {P : Type} (getWorldVertices : P → List (Vec2 K))
    (getWorldVertice : P → Nat → Vec2 K) (edgeAt : P → Nat → Vec2 K)
    (normalOf : Vec2 K → Vec2 K) (a b : P) : K :=
  (List.range (getWorldVertices a).length).foldl
    (fun separation i =>
      let va := getWorldVertice a i
      let normal := normalOf (edgeAt a i)
      let minSep := (List.range (getWorldVertices b).length).foldl
        (fun minSep j =>
          let vb := getWorldVertice b j
          min minSep ((vb.Sub va).Dot normal))
        MaxFloat64
      max separation minSep)
    (-MaxFloat64)


/-! ## Impulses of a constraint and linear momentum -/

/-- The embedded `ConstraintBase` of a constraint. -/
def Constraint.base : Constraint K → ConstraintBase K
  | .joint j => j.base
  | .penetration q => q.base

/-- The field `Jacobian` of a constraint. -/
def Constraint.Jacobian : Constraint K → Mat K
  | .joint j => j.Jacobian
  | .penetration q => q.Jacobian

/-- The field `cachedLambda` of a constraint. -/
def Constraint.cachedLambda : Constraint K → Vec K
  | .joint j => j.cachedLambda
  | .penetration q => q.cachedLambda

/-- The number of rows of the Jacobian of a constraint: `NewMat(1, 6)` for a joint,
`NewMat(2, 6)` for a penetration. -/
def Constraint.rows : Constraint K → Nat
  | .joint _ => 1
  | .penetration _ => 2

/-- A vector of six impulses `[ax, ay, aw, bx, by, bw]` whose linear part for body B
is the negation of its linear part for body A. -/
def Vec.Balanced (v : Vec K) : Prop :=
  Vec.elem v 3 = -Vec.elem v 0 ∧ Vec.elem v 4 = -Vec.elem v 1

/-- The shape the constructors and `PreSolve` give a constraint: `cachedLambda` has one
entry per row of the Jacobian, and every row of the Jacobian has six entries, those of
body B's linear velocity being the negations of those of body A's. -/
def Constraint.Balanced (c : Constraint K) : Prop :=
  c.cachedLambda.length = c.rows ∧ c.Jacobian.length = c.rows ∧
    ∀ row ∈ c.Jacobian, row.length = 6 ∧ Vec.Balanced row

/-- The total linear momentum `MassA * VelocityA + MassB * VelocityB` of the two bodies
of a constraint. -/
def ConstraintBase.momentum (c : ConstraintBase K) (h : Store K) : Vec2 K :=
  ((h c.a).Velocity.Muln (h c.a).Mass).Add ((h c.b).Velocity.Muln (h c.b).Mass)

end Defs

/-! ## Theorems -/

section Theorems

variable {K : Type} [LinearOrderedField K]

/-- The real square root, sine and cosine satisfy the laws of `Ops.Exact`. -/
theorem real_ops_exact : Ops.Exact (Ops.mk Real.sqrt Real.sin Real.cos) where
  sqrt_nonneg := Real.sqrt_nonneg
  sqrt_mul_self := fun x hx => Real.mul_self_sqrt hx
  sin_sq_add_cos_sq := fun a => by
    have := Real.sin_sq_add_cos_sq a
    simpa [sq] using this
  sin_neg := Real.sin_neg
  cos_neg := Real.cos_neg

/-- C2. Round trip between local and world space: for every body pose and every
point `p`, `WorldSpaceToLocalSpace (LocalSpaceToWorldSpace p) = p` and
`LocalSpaceToWorldSpace (WorldSpaceToLocalSpace p) = p`, in exact arithmetic. -/
theorem local_world_round_trip (ops : Ops K) (hops : ops.Exact) (b : Body K) (p : Vec2 K) :
    b.WorldSpaceToLocalSpace ops (b.LocalSpaceToWorldSpace ops p) = p ∧
    b.LocalSpaceToWorldSpace ops (b.WorldSpaceToLocalSpace ops p) = p := by
  have h1 := hops.sin_sq_add_cos_sq b.Rotation
  have hs := hops.sin_neg b.Rotation
  have hc := hops.cos_neg b.Rotation
  obtain ⟨x, y⟩ := p
  constructor
  · simp only [Body.WorldSpaceToLocalSpace, Body.LocalSpaceToWorldSpace, Vec2.Rotate,
      Vec2.Add, Vec2.Sub, hs, hc, Vec2.mk.injEq]
    constructor
    · linear_combination (x) * h1
    · linear_combination (y) * h1
  · simp only [Body.WorldSpaceToLocalSpace, Body.LocalSpaceToWorldSpace, Vec2.Rotate,
      Vec2.Add, Vec2.Sub, hs, hc, Vec2.mk.injEq]
    constructor
    · linear_combination (x - b.Position.X) * h1
    · linear_combination (y - b.Position.Y) * h1

/-- Witness for C2 at `K = ℝ`: a box body at `(3, 4)` and the point `(1, 2)`. -/
theorem local_world_round_trip_witness :
    (NewBody (Ops.mk Real.sqrt Real.sin Real.cos) (NewBoxShape 2 2) 3 4 1).WorldSpaceToLocalSpace
        (Ops.mk Real.sqrt Real.sin Real.cos)
        ((NewBody (Ops.mk Real.sqrt Real.sin Real.cos) (NewBoxShape 2 2) 3 4
          1).LocalSpaceToWorldSpace (Ops.mk Real.sqrt Real.sin Real.cos) ⟨1, 2⟩) = ⟨1, 2⟩ ∧
    (NewBody (Ops.mk Real.sqrt Real.sin Real.cos) (NewBoxShape 2 2) 3 4 1).LocalSpaceToWorldSpace
        (Ops.mk Real.sqrt Real.sin Real.cos)
        ((NewBody (Ops.mk Real.sqrt Real.sin Real.cos) (NewBoxShape 2 2) 3 4
          1).WorldSpaceToLocalSpace (Ops.mk Real.sqrt Real.sin Real.cos) ⟨1, 2⟩) = ⟨1, 2⟩ :=
  local_world_round_trip _ real_ops_exact _ _

/-- The square root of a square of a non-negative number. -/
theorem Ops.Exact.sqrt_mul_self_eq {ops : Ops K} (hops : ops.Exact) {y : K} (hy : 0 ≤ y) :
    ops.sqrt (y * y) = y := by
  have h1 := hops.sqrt_nonneg (y * y)
  have h2 := hops.sqrt_mul_self (y * y) (mul_self_nonneg y)
  nlinarith [mul_self_nonneg (ops.sqrt (y * y) - y), mul_nonneg h1 hy]

theorem Ops.Exact.sqrt_pos {ops : Ops K} (hops : ops.Exact) {x : K} (hx : 0 < x) :
    0 < ops.sqrt x := by
  have h1 := hops.sqrt_nonneg x
  have h2 := hops.sqrt_mul_self x hx.le
  rcases h1.lt_or_eq with h | h
  · exact h
  · rw [← h] at h2; simp at h2; exact absurd h2.symm hx.ne'

theorem Vec2.dot_self_nonneg (v : Vec2 K) : 0 ≤ v.Dot v := by
  unfold Vec2.Dot; nlinarith [mul_self_nonneg v.X, mul_self_nonneg v.Y]

theorem Vec2.dot_self_pos {v : Vec2 K} (hv : v ≠ ⟨0, 0⟩) : 0 < v.Dot v := by
  obtain ⟨x, y⟩ := v
  unfold Vec2.Dot
  simp only
  by_contra hcon
  have hx : x = 0 := by nlinarith [mul_self_nonneg x, mul_self_nonneg y]
  have hy : y = 0 := by nlinarith [mul_self_nonneg x, mul_self_nonneg y]
  exact hv (by rw [hx, hy])

theorem Vec2.length_pos {ops : Ops K} (hops : ops.Exact) {v : Vec2 K} (hv : v ≠ ⟨0, 0⟩) :
    0 < v.Length ops :=
  hops.sqrt_pos (Vec2.dot_self_pos hv)

theorem Vec2.length_mul_self {ops : Ops K} (hops : ops.Exact) (v : Vec2 K) :
    v.Length ops * v.Length ops = v.Dot v :=
  hops.sqrt_mul_self _ (Vec2.dot_self_nonneg v)

theorem Vec2.normalize_eq {ops : Ops K} (hops : ops.Exact) {v : Vec2 K} (hv : v ≠ ⟨0, 0⟩) :
    v.Normalize ops = v.Divn (v.Length ops) := by
  unfold Vec2.Normalize
  simp [(Vec2.length_pos hops hv).ne']

/-- C4. Circle against circle: a collision is reported exactly when the squared
centre distance is at most `(ra + rb)^2`; when it is and the centres are distinct,
the contact has `Normal` the unit vector from `a` to `b`, `Start = b.Position - Normal*rb`,
`End = a.Position + Normal*ra` and `Depth = |End - Start| = ra + rb - |b.Position - a.Position|`. -/
theorem circle_circle (ops : Ops K) (hops : ops.Exact) (h : Store K) (a b : Nat)
    (ra rb : K) (cs : List (Contact K))
    (ha : (h a).Shape = .circle ra) (hb : (h b).Shape = .circle rb)
    (hra : 0 ≤ ra) (hrb : 0 ≤ rb) :
    ((IsCollidingCircleCircle ops h a b cs).1 = true ↔
      ((h b).Position.Sub (h a).Position).Dot ((h b).Position.Sub (h a).Position)
        ≤ (ra + rb) * (ra + rb)) ∧
    ((IsCollidingCircleCircle ops h a b cs).1 = true → (h a).Position ≠ (h b).Position →
      ∃ c : Contact K, (IsCollidingCircleCircle ops h a b cs).2 = cs ++ [c] ∧
        c.Normal = ((h b).Position.Sub (h a).Position).Divn
          (((h b).Position.Sub (h a).Position).Length ops) ∧
        c.Normal.Dot c.Normal = 1 ∧
        c.Start = (h b).Position.Sub (c.Normal.Muln rb) ∧
        c.End = (h a).Position.Add (c.Normal.Muln ra) ∧
        c.Depth = (c.End.Sub c.Start).Length ops ∧
        c.Depth = ra + rb - ((h b).Position.Sub (h a).Position).Length ops) := by
  have hiff : (IsCollidingCircleCircle ops h a b cs).1 = true ↔
      ((h b).Position.Sub (h a).Position).Dot ((h b).Position.Sub (h a).Position)
        ≤ (ra + rb) * (ra + rb) := by
    simp only [IsCollidingCircleCircle, ha, hb, Shape.asCircle]
    by_cases hc : ((h b).Position.Sub (h a).Position).Dot ((h b).Position.Sub (h a).Position)
        ≤ (ra + rb) * (ra + rb)
    · simp [hc]
    · simp [hc]
  refine ⟨hiff, fun hcol hne => ?_⟩
  have hle := hiff.mp hcol
  set ab := (h b).Position.Sub (h a).Position with hab
  have habne : ab ≠ ⟨0, 0⟩ := by
    intro h0
    apply hne
    have hx : (h b).Position.X - (h a).Position.X = 0 := congrArg Vec2.X h0
    have hy : (h b).Position.Y - (h a).Position.Y = 0 := congrArg Vec2.Y h0
    cases hpa : (h a).Position with
    | mk ax ay =>
      cases hpb : (h b).Position with
      | mk bx b_y =>
        rw [hpa, hpb] at hx hy
        simp only at hx hy
        rw [Vec2.mk.injEq]
        constructor <;> linarith
  have hLpos := Vec2.length_pos hops habne
  have hLL := Vec2.length_mul_self hops ab
  set L := ab.Length ops with hL
  have hLle : L ≤ ra + rb := by
    by_contra hcon
    push_neg at hcon
    nlinarith [add_nonneg hra hrb]
  have hnorm : ab.Normalize ops = ab.Divn L := Vec2.normalize_eq hops habne
  have hNN : (ab.Divn L).Dot (ab.Divn L) = 1 := by
    unfold Vec2.Divn Vec2.Dot
    simp only
    unfold Vec2.Dot at hLL
    field_simp
    linarith
  refine ⟨{ A := a, B := b, Normal := ab.Divn L,
             Start := (h b).Position.Sub ((ab.Divn L).Muln rb),
             End := (h a).Position.Add ((ab.Divn L).Muln ra),
             Depth := (((h a).Position.Add ((ab.Divn L).Muln ra)).Sub
               ((h b).Position.Sub ((ab.Divn L).Muln rb))).Length ops }, ?_, ?_⟩
  · simp only [IsCollidingCircleCircle, ha, hb, Shape.asCircle]
    rw [← hab, hnorm]
    simp only [hle, decide_True, Bool.not_true, Bool.false_eq_true, ↓reduceIte]
  · refine ⟨rfl, hNN, rfl, rfl, rfl, ?_⟩
    simp only
    have hES : (((h a).Position.Add ((ab.Divn L).Muln ra)).Sub
        ((h b).Position.Sub ((ab.Divn L).Muln rb))) = (ab.Divn L).Muln (ra + rb - L) := by
      rw [hab]
      simp only [Vec2.Add, Vec2.Sub, Vec2.Muln, Vec2.Divn, Vec2.mk.injEq]
      constructor <;> field_simp <;> ring
    rw [hES]
    have : ((ab.Divn L).Muln (ra + rb - L)).Dot ((ab.Divn L).Muln (ra + rb - L))
        = (ra + rb - L) * (ra + rb - L) := by
      have := hNN
      unfold Vec2.Dot at this ⊢
      simp only [Vec2.Muln] at this ⊢
      linear_combination ((ra + rb - L) * (ra + rb - L)) * this
    unfold Vec2.Length
    rw [this]
    exact hops.sqrt_mul_self_eq (by linarith)

/-- Witness for C4 at `K = ℝ`: circles of radius 10 centred at `(0, 0)` and `(15, 0)`. -/
theorem circle_circle_witness :
    ((IsCollidingCircleCircle (Ops.mk Real.sqrt Real.sin Real.cos)
        (twoBodies (NewBody (Ops.mk Real.sqrt Real.sin Real.cos) (NewCircleShape 10) 0 0 1)
          (NewBody (Ops.mk Real.sqrt Real.sin Real.cos) (NewCircleShape 10) 15 0 1)) 0 1 []).1 = true ↔
      ((twoBodies (NewBody (Ops.mk Real.sqrt Real.sin Real.cos) (NewCircleShape 10) 0 0 1)
          (NewBody (Ops.mk Real.sqrt Real.sin Real.cos) (NewCircleShape 10) 15 0 1) 1).Position.Sub
        (twoBodies (NewBody (Ops.mk Real.sqrt Real.sin Real.cos) (NewCircleShape 10) 0 0 1)
          (NewBody (Ops.mk Real.sqrt Real.sin Real.cos) (NewCircleShape 10) 15 0 1) 0).Position).Dot
        ((twoBodies (NewBody (Ops.mk Real.sqrt Real.sin Real.cos) (NewCircleShape 10) 0 0 1)
          (NewBody (Ops.mk Real.sqrt Real.sin Real.cos) (NewCircleShape 10) 15 0 1) 1).Position.Sub
        (twoBodies (NewBody (Ops.mk Real.sqrt Real.sin Real.cos) (NewCircleShape 10) 0 0 1)
          (NewBody (Ops.mk Real.sqrt Real.sin Real.cos) (NewCircleShape 10) 15 0 1) 0).Position)
        ≤ ((10 : ℝ) + 10) * (10 + 10)) :=
  (circle_circle (Ops.mk Real.sqrt Real.sin Real.cos) real_ops_exact
    (twoBodies (NewBody (Ops.mk Real.sqrt Real.sin Real.cos) (NewCircleShape 10) 0 0 1)
      (NewBody (Ops.mk Real.sqrt Real.sin Real.cos) (NewCircleShape 10) 15 0 1))
    0 1 10 10 [] rfl rfl (by norm_num) (by norm_num)).1

/-! ## Joint constraint: one Gauss-Seidel solve -/

theorem Body.applyImpulseLinear_of_exact (b : Body K) (j : Vec2 K)
    (hb : b.IsStatic = false ∨ (b.InvMass = 0 ∧ b.InvI = 0)) :
    b.ApplyImpulseLinear j = { b with Velocity := b.Velocity.Add (j.Muln b.InvMass) } := by
  unfold Body.ApplyImpulseLinear
  rcases hb with hb | ⟨h1, _⟩
  · simp [hb]
  · split
    · obtain ⟨p, ⟨vx, vy⟩, _⟩ := b
      simp only at h1
      simp [h1, Vec2.Add, Vec2.Muln]
    · rfl

theorem Body.applyImpulseAngular_of_exact (b : Body K) (j : K)
    (hb : b.IsStatic = false ∨ (b.InvMass = 0 ∧ b.InvI = 0)) :
    b.ApplyImpulseAngular j = { b with AngularVelocity := b.AngularVelocity + j * b.InvI } := by
  unfold Body.ApplyImpulseAngular
  rcases hb with hb | ⟨_, h2⟩
  · simp [hb]
  · split
    · obtain ⟨p, v, _⟩ := b
      simp only at h2
      simp [h2]
    · rfl

omit [LinearOrderedField K] in
theorem Store.modify_same (h : Store K) (p : Nat) (f : Body K → Body K) :
    Store.modify h p f p = f (h p) := by
  simp [Store.modify]

omit [LinearOrderedField K] in
theorem Store.modify_other (h : Store K) {p q : Nat} (f : Body K → Body K) (hq : q ≠ p) :
    Store.modify h p f q = h q := by
  simp [Store.modify, Function.update, hq]

theorem Body.applyImpulseLinear_invMass (b : Body K) (j : Vec2 K) :
    (b.ApplyImpulseLinear j).InvMass = b.InvMass ∧ (b.ApplyImpulseLinear j).InvI = b.InvI ∧
    (b.ApplyImpulseLinear j).AngularVelocity = b.AngularVelocity := by
  unfold Body.ApplyImpulseLinear; split <;> simp

theorem Body.applyImpulseAngular_invMass (b : Body K) (j : K) :
    (b.ApplyImpulseAngular j).InvMass = b.InvMass ∧ (b.ApplyImpulseAngular j).InvI = b.InvI ∧
    (b.ApplyImpulseAngular j).Velocity = b.Velocity := by
  unfold Body.ApplyImpulseAngular; split <;> simp

/-- The impulses applied at the end of `PreSolve` and `Solve` never change an inverse
mass or an inverse moment of inertia. -/
theorem ConstraintBase.applyImpulses_invMass (c : ConstraintBase K) (h : Store K)
    (impulses : Vec K) (p : Nat) :
    (c.applyImpulses h impulses p).InvMass = (h p).InvMass ∧
    (c.applyImpulses h impulses p).InvI = (h p).InvI := by
  have key : ∀ (h : Store K) (q : Nat) (f : Body K → Body K),
      (∀ b, (f b).InvMass = b.InvMass ∧ (f b).InvI = b.InvI) →
      (Store.modify h q f p).InvMass = (h p).InvMass ∧
      (Store.modify h q f p).InvI = (h p).InvI := by
    intro h q f hf
    by_cases hpq : p = q
    · subst hpq; rw [Store.modify_same]; exact hf _
    · rw [Store.modify_other _ _ hpq]; exact ⟨rfl, rfl⟩
  unfold ConstraintBase.applyImpulses
  have e1 := key h c.a (fun body => body.ApplyImpulseLinear ⟨Vec.elem impulses 0, Vec.elem impulses 1⟩)
    (fun b => ⟨(b.applyImpulseLinear_invMass _).1, (b.applyImpulseLinear_invMass _).2.1⟩)
  have e2 := key (Store.modify h c.a
      (fun body => body.ApplyImpulseLinear ⟨Vec.elem impulses 0, Vec.elem impulses 1⟩)) c.a
    (fun body => body.ApplyImpulseAngular (Vec.elem impulses 2))
    (fun b => ⟨(b.applyImpulseAngular_invMass _).1, (b.applyImpulseAngular_invMass _).2.1⟩)
  have e3 := key (Store.modify (Store.modify h c.a
      (fun body => body.ApplyImpulseLinear ⟨Vec.elem impulses 0, Vec.elem impulses 1⟩)) c.a
    (fun body => body.ApplyImpulseAngular (Vec.elem impulses 2))) c.b
    (fun body => body.ApplyImpulseLinear ⟨Vec.elem impulses 3, Vec.elem impulses 4⟩)
    (fun b => ⟨(b.applyImpulseLinear_invMass _).1, (b.applyImpulseLinear_invMass _).2.1⟩)
  have e4 := key (Store.modify (Store.modify (Store.modify h c.a
      (fun body => body.ApplyImpulseLinear ⟨Vec.elem impulses 0, Vec.elem impulses 1⟩)) c.a
    (fun body => body.ApplyImpulseAngular (Vec.elem impulses 2))) c.b
    (fun body => body.ApplyImpulseLinear ⟨Vec.elem impulses 3, Vec.elem impulses 4⟩)) c.b
    (fun body => body.ApplyImpulseAngular (Vec.elem impulses 5))
    (fun b => ⟨(b.applyImpulseAngular_invMass _).1, (b.applyImpulseAngular_invMass _).2.1⟩)
  exact ⟨by rw [e4.1, e3.1, e2.1, e1.1], by rw [e4.2, e3.2, e2.2, e1.2]⟩

theorem Body.isStatic_congr {b b' : Body K} (hm : b'.InvMass = b.InvMass) :
    b'.IsStatic = b.IsStatic := by
  unfold Body.IsStatic; rw [hm]

/-- The velocities of two distinct bodies after the four impulse applications, when
each body is non-static or has zero inverse mass and inertia. -/
theorem ConstraintBase.applyImpulses_velocities (c : ConstraintBase K) (h : Store K)
    (i0 i1 i2 i3 i4 i5 : K) (hab : c.a ≠ c.b)
    (hA : (h c.a).IsStatic = false ∨ ((h c.a).InvMass = 0 ∧ (h c.a).InvI = 0))
    (hB : (h c.b).IsStatic = false ∨ ((h c.b).InvMass = 0 ∧ (h c.b).InvI = 0)) :
    c.GetVelocities (c.applyImpulses h [i0, i1, i2, i3, i4, i5]) =
      [(h c.a).Velocity.X + i0 * (h c.a).InvMass, (h c.a).Velocity.Y + i1 * (h c.a).InvMass,
       (h c.a).AngularVelocity + i2 * (h c.a).InvI,
       (h c.b).Velocity.X + i3 * (h c.b).InvMass, (h c.b).Velocity.Y + i4 * (h c.b).InvMass,
       (h c.b).AngularVelocity + i5 * (h c.b).InvI] := by
  have hba : c.b ≠ c.a := fun e => hab e.symm
  have hA1 : ((h c.a).ApplyImpulseLinear ⟨i0, i1⟩).IsStatic = false ∨
      (((h c.a).ApplyImpulseLinear ⟨i0, i1⟩).InvMass = 0 ∧
       ((h c.a).ApplyImpulseLinear ⟨i0, i1⟩).InvI = 0) := by
    have e := (h c.a).applyImpulseLinear_invMass ⟨i0, i1⟩
    rw [Body.isStatic_congr e.1, e.1, e.2.1]; exact hA
  have hB1 : ((h c.b).ApplyImpulseLinear ⟨i3, i4⟩).IsStatic = false ∨
      (((h c.b).ApplyImpulseLinear ⟨i3, i4⟩).InvMass = 0 ∧
       ((h c.b).ApplyImpulseLinear ⟨i3, i4⟩).InvI = 0) := by
    have e := (h c.b).applyImpulseLinear_invMass ⟨i3, i4⟩
    rw [Body.isStatic_congr e.1, e.1, e.2.1]; exact hB
  simp only [ConstraintBase.GetVelocities, ConstraintBase.applyImpulses, Vec.elem,
    List.getD_cons_zero, List.getD_cons_succ]
  simp only [Store.modify_same, Store.modify_other _ _ hab, Store.modify_other _ _ hba]
  rw [Body.applyImpulseAngular_of_exact _ _ hA1, Body.applyImpulseLinear_of_exact _ _ hA,
    Body.applyImpulseAngular_of_exact _ _ hB1, Body.applyImpulseLinear_of_exact _ _ hB]
  simp [Vec2.Add, Vec2.Muln]

theorem Vec.dot_six (a0 a1 a2 a3 a4 a5 b0 b1 b2 b3 b4 b5 : K) :
    Vec.Dot [a0, a1, a2, a3, a4, a5] [b0, b1, b2, b3, b4, b5] =
      a0 * b0 + a1 * b1 + a2 * b2 + a3 * b3 + a4 * b4 + a5 * b5 := by
  simp [Vec.Dot, Vec.elem, List.range_succ]

/-- Gauss-Seidel on a 1x1 system with a non-zero coefficient is the exact quotient. -/
theorem Mat.solveGaussSeidel_one (e r : K) (he : e ≠ 0) :
    Mat.SolveGaussSeidel [[e]] [r] = [r / e] := by
  simp [Mat.SolveGaussSeidel, gaussSeidelSweep, Mat.row, Vec.elem, Vec.Dot, List.range_succ, he]

theorem Mat.mulv_transpose_row (j0 j1 j2 j3 j4 j5 x : K) :
    Mat.Mulv (Mat.Transpose [[j0, j1, j2, j3, j4, j5]]) [x] =
      [x * j0, x * j1, x * j2, x * j3, x * j4, x * j5] := by
  simp [Mat.Mulv, Mat.Transpose, Mat.Nrows, Mat.Ncols, Mat.row, Vec.elem, Vec.Dot,
    List.range_succ]

theorem Mat.mulv_row (j0 j1 j2 j3 j4 j5 : K) (v : Vec K) (hv : v.length = 6) :
    Mat.Mulv [[j0, j1, j2, j3, j4, j5]] v = [Vec.Dot v [j0, j1, j2, j3, j4, j5]] := by
  simp [Mat.Mulv, Mat.Nrows, Mat.Ncols, Mat.row, hv, List.range_succ]

theorem ConstraintBase.effectiveMass (c : ConstraintBase K) (h : Store K)
    (j0 j1 j2 j3 j4 j5 : K) :
    Mat.Mul (Mat.Mul [[j0, j1, j2, j3, j4, j5]] (c.GetInvM h))
        (Mat.Transpose [[j0, j1, j2, j3, j4, j5]]) =
      [[Vec.Dot [j0, j1, j2, j3, j4, j5] (Mat.Mulv (c.GetInvM h) [j0, j1, j2, j3, j4, j5])]] := by
  simp [Mat.Mul, Mat.Mulv, Mat.Transpose, Mat.Nrows, Mat.Ncols, Mat.row, Vec.elem, Vec.Dot,
    ConstraintBase.GetInvM, List.range_succ]
  ring

/-- One call of `Solve` on a constraint whose Jacobian is the single row `j0 .. j5`. -/
theorem JointConstraint.solve_row (c : JointConstraint K) (h : Store K)
    (j0 j1 j2 j3 j4 j5 l0 : K)
    (hJ : c.Jacobian = [[j0, j1, j2, j3, j4, j5]]) (hl : c.cachedLambda = [l0])
    (hK : Vec.Dot [j0, j1, j2, j3, j4, j5]
      (Mat.Mulv (c.base.GetInvM h) [j0, j1, j2, j3, j4, j5]) ≠ 0) :
    c.Solve h =
      ({ c with cachedLambda := [l0 +
          (-(Vec.Dot [j0, j1, j2, j3, j4, j5] (c.base.GetVelocities h)) - c.bias) /
            Vec.Dot [j0, j1, j2, j3, j4, j5]
              (Mat.Mulv (c.base.GetInvM h) [j0, j1, j2, j3, j4, j5])] },
       c.base.applyImpulses h
        (Mat.Mulv (Mat.Transpose [[j0, j1, j2, j3, j4, j5]])
          [(-(Vec.Dot [j0, j1, j2, j3, j4, j5] (c.base.GetVelocities h)) - c.bias) /
            Vec.Dot [j0, j1, j2, j3, j4, j5]
              (Mat.Mulv (c.base.GetInvM h) [j0, j1, j2, j3, j4, j5])])) := by
  have hV : (c.base.GetVelocities h).length = 6 := rfl
  have hdot : Vec.Dot (c.base.GetVelocities h) [j0, j1, j2, j3, j4, j5] =
      Vec.Dot [j0, j1, j2, j3, j4, j5] (c.base.GetVelocities h) := by
    simp only [ConstraintBase.GetVelocities, Vec.dot_six]; ring
  simp only [JointConstraint.Solve, hJ, hl, ConstraintBase.effectiveMass,
    Mat.mulv_row _ _ _ _ _ _ _ hV, hdot]
  have e1 : ∀ d : K, Vec.Muln [d] (-1) = [d * (-1)] := by
    intro d; simp [Vec.Muln, Vec.elem, List.range_succ]
  have e2 : ∀ x y : K, Vec.Add [x] [y] = [x + y] := by
    intro x y; simp [Vec.Add, Vec.elem, List.range_succ]
  simp only [e1, List.set_cons_zero, Vec.elem, List.getD_cons_zero,
    Mat.solveGaussSeidel_one _ _ hK, e2, mul_neg, mul_one]

/-- The full effect of one `Solve` on two distinct bodies, for a one-row Jacobian. -/
theorem JointConstraint.solve_spec (c : JointConstraint K) (h : Store K)
    (j0 j1 j2 j3 j4 j5 l0 lam : K)
    (hJ : c.Jacobian = [[j0, j1, j2, j3, j4, j5]]) (hl : c.cachedLambda = [l0])
    (hab : c.base.a ≠ c.base.b)
    (hA : (h c.base.a).IsStatic = false ∨ ((h c.base.a).InvMass = 0 ∧ (h c.base.a).InvI = 0))
    (hB : (h c.base.b).IsStatic = false ∨ ((h c.base.b).InvMass = 0 ∧ (h c.base.b).InvI = 0))
    (hK : Vec.Dot [j0, j1, j2, j3, j4, j5]
      (Mat.Mulv (c.base.GetInvM h) [j0, j1, j2, j3, j4, j5]) ≠ 0)
    (hlam : lam = (-(Vec.Dot [j0, j1, j2, j3, j4, j5] (c.base.GetVelocities h)) - c.bias) /
      Vec.Dot [j0, j1, j2, j3, j4, j5] (Mat.Mulv (c.base.GetInvM h) [j0, j1, j2, j3, j4, j5])) :
    (c.Solve h).1 = { c with cachedLambda := [l0 + lam] } ∧
    (c.Solve h).2 =
      c.base.applyImpulses h (Mat.Mulv (Mat.Transpose [[j0, j1, j2, j3, j4, j5]]) [lam]) ∧
    c.base.GetVelocities (c.Solve h).2 =
      Vec.Add (c.base.GetVelocities h)
        (Mat.Mulv (c.base.GetInvM h) (Mat.Mulv (Mat.Transpose [[j0, j1, j2, j3, j4, j5]]) [lam])) ∧
    Vec.Dot [j0, j1, j2, j3, j4, j5] (c.base.GetVelocities (c.Solve h).2) + c.bias = 0 := by
  have hs := JointConstraint.solve_row c h j0 j1 j2 j3 j4 j5 l0 hJ hl hK
  rw [← hlam] at hs
  have hv := ConstraintBase.applyImpulses_velocities c.base h
    (lam * j0) (lam * j1) (lam * j2) (lam * j3) (lam * j4) (lam * j5) hab hA hB
  have hmul : lam * Vec.Dot [j0, j1, j2, j3, j4, j5]
      (Mat.Mulv (c.base.GetInvM h) [j0, j1, j2, j3, j4, j5]) =
      -(Vec.Dot [j0, j1, j2, j3, j4, j5] (c.base.GetVelocities h)) - c.bias := by
    rw [hlam]; exact div_mul_cancel₀ _ hK
  rw [hs]
  refine ⟨rfl, rfl, ?_, ?_⟩
  · simp only [Mat.mulv_transpose_row, hv]
    simp [Vec.Add, Mat.Mulv, Mat.Nrows, Mat.Ncols, Mat.row, Vec.elem, Vec.Dot,
      ConstraintBase.GetInvM, ConstraintBase.GetVelocities, List.range_succ]
  · simp only [Mat.mulv_transpose_row, hv, Vec.dot_six]
    have hm2 : Mat.Mulv (c.base.GetInvM h) [j0, j1, j2, j3, j4, j5] =
        [j0 * (h c.base.a).InvMass, j1 * (h c.base.a).InvMass, j2 * (h c.base.a).InvI,
         j3 * (h c.base.b).InvMass, j4 * (h c.base.b).InvMass, j5 * (h c.base.b).InvI] := by
      simp [Mat.Mulv, Mat.Nrows, Mat.Ncols, Mat.row, Vec.elem, Vec.Dot,
        ConstraintBase.GetInvM, List.range_succ]
    rw [hm2] at hmul
    simp only [ConstraintBase.GetVelocities, Vec.dot_six] at hmul
    linear_combination hmul

/-- C10. For a joint constraint between two distinct bodies, each non-static or with
zero inverse mass and inertia, with the Jacobian row `J` and the bias computed by
`PreSolve` and a non-zero effective mass `J M⁻¹ Jᵀ`, with
`M⁻¹ = diag(invMassA, invMassA, invIA, invMassB, invMassB, invIB)`: one call of
`Solve` computes `lambda = (-J v - bias) / (J M⁻¹ Jᵀ)`, adds it to the cached
impulse, applies the impulse `Jᵀ lambda`, so that the new velocities are
`v + M⁻¹ Jᵀ lambda` and satisfy `J v' + bias = 0`. -/
theorem joint_solve (ops : Ops K) (dt : K) (c0 : JointConstraint K) (h0 : Store K) (l0 : K)
    (hl : c0.cachedLambda = [l0]) (hab : c0.base.a ≠ c0.base.b)
    (hA : (h0 c0.base.a).IsStatic = false ∨
      ((h0 c0.base.a).InvMass = 0 ∧ (h0 c0.base.a).InvI = 0))
    (hB : (h0 c0.base.b).IsStatic = false ∨
      ((h0 c0.base.b).InvMass = 0 ∧ (h0 c0.base.b).InvI = 0))
    (hK : Vec.Dot (Mat.row (c0.PreSolve ops dt h0).1.Jacobian 0)
      (Mat.Mulv ((c0.PreSolve ops dt h0).1.base.GetInvM (c0.PreSolve ops dt h0).2)
        (Mat.row (c0.PreSolve ops dt h0).1.Jacobian 0)) ≠ 0) :
    let c := (c0.PreSolve ops dt h0).1
    let h := (c0.PreSolve ops dt h0).2
    let J := Mat.row c.Jacobian 0
    let v := c.base.GetVelocities h
    let invM := c.base.GetInvM h
    let lam := (-(Vec.Dot J v) - c.bias) / Vec.Dot J (Mat.Mulv invM J)
    invM = [[(h c.base.a).InvMass, 0, 0, 0, 0, 0],
            [0, (h c.base.a).InvMass, 0, 0, 0, 0],
            [0, 0, (h c.base.a).InvI, 0, 0, 0],
            [0, 0, 0, (h c.base.b).InvMass, 0, 0],
            [0, 0, 0, 0, (h c.base.b).InvMass, 0],
            [0, 0, 0, 0, 0, (h c.base.b).InvI]] ∧
    (c.Solve h).1 = { c with cachedLambda := [l0 + lam] } ∧
    (c.Solve h).2 = c.base.applyImpulses h (Mat.Mulv (Mat.Transpose c.Jacobian) [lam]) ∧
    c.base.GetVelocities (c.Solve h).2 =
      Vec.Add v (Mat.Mulv invM (Mat.Mulv (Mat.Transpose c.Jacobian) [lam])) ∧
    Vec.Dot J (c.base.GetVelocities (c.Solve h).2) + c.bias = 0 := by
  intro c h J v invM lam
  obtain ⟨j0, j1, j2, j3, j4, j5, hJ⟩ :
      ∃ j0 j1 j2 j3 j4 j5 : K, c.Jacobian = [[j0, j1, j2, j3, j4, j5]] :=
    ⟨_, _, _, _, _, _, rfl⟩
  have hJr : J = [j0, j1, j2, j3, j4, j5] := by
    show Mat.row c.Jacobian 0 = _
    rw [hJ]; rfl
  have hh : h = c0.base.applyImpulses h0 (Mat.Mulv (Mat.Transpose c.Jacobian) c0.cachedLambda) :=
    rfl
  have hbase : c.base = c0.base := rfl
  have ia := ConstraintBase.applyImpulses_invMass c0.base h0
    (Mat.Mulv (Mat.Transpose c.Jacobian) c0.cachedLambda) c0.base.a
  have ib := ConstraintBase.applyImpulses_invMass c0.base h0
    (Mat.Mulv (Mat.Transpose c.Jacobian) c0.cachedLambda) c0.base.b
  rw [← hh] at ia ib
  have hA1 : (h c.base.a).IsStatic = false ∨
      ((h c.base.a).InvMass = 0 ∧ (h c.base.a).InvI = 0) := by
    rw [hbase, Body.isStatic_congr ia.1, ia.1, ia.2]; exact hA
  have hB1 : (h c.base.b).IsStatic = false ∨
      ((h c.base.b).InvMass = 0 ∧ (h c.base.b).InvI = 0) := by
    rw [hbase, Body.isStatic_congr ib.1, ib.1, ib.2]; exact hB
  have hK1 : Vec.Dot [j0, j1, j2, j3, j4, j5]
      (Mat.Mulv (c.base.GetInvM h) [j0, j1, j2, j3, j4, j5]) ≠ 0 := by
    rw [← hJr]; exact hK
  have hlam : lam = (-(Vec.Dot [j0, j1, j2, j3, j4, j5] (c.base.GetVelocities h)) - c.bias) /
      Vec.Dot [j0, j1, j2, j3, j4, j5]
        (Mat.Mulv (c.base.GetInvM h) [j0, j1, j2, j3, j4, j5]) := by
    rw [← hJr]
  have hs := JointConstraint.solve_spec c h j0 j1 j2 j3 j4 j5 l0 lam hJ hl hab hA1 hB1 hK1 hlam
  have hT : Mat.Transpose c.Jacobian = Mat.Transpose [[j0, j1, j2, j3, j4, j5]] := by rw [hJ]
  refine ⟨rfl, ?_⟩
  rw [hJr, hT]
  exact hs

theorem joint_solve_witness :
    Vec.Dot
        (Mat.row ((pendulumJoint (K := ℝ)).PreSolve (Ops.mk Real.sqrt Real.sin Real.cos) 1
          (pendulumStore (Ops.mk Real.sqrt Real.sin Real.cos))).1.Jacobian 0)
        (((pendulumJoint (K := ℝ)).PreSolve (Ops.mk Real.sqrt Real.sin Real.cos) 1
          (pendulumStore (Ops.mk Real.sqrt Real.sin Real.cos))).1.base.GetVelocities
          ((((pendulumJoint (K := ℝ)).PreSolve (Ops.mk Real.sqrt Real.sin Real.cos) 1
            (pendulumStore (Ops.mk Real.sqrt Real.sin Real.cos))).1.Solve
            ((pendulumJoint (K := ℝ)).PreSolve (Ops.mk Real.sqrt Real.sin Real.cos) 1
              (pendulumStore (Ops.mk Real.sqrt Real.sin Real.cos))).2).2)) +
      ((pendulumJoint (K := ℝ)).PreSolve (Ops.mk Real.sqrt Real.sin Real.cos) 1
        (pendulumStore (Ops.mk Real.sqrt Real.sin Real.cos))).1.bias = 0 :=
  (joint_solve (Ops.mk Real.sqrt Real.sin Real.cos) 1 pendulumJoint
    (pendulumStore (Ops.mk Real.sqrt Real.sin Real.cos)) 0 rfl (by decide)
    (Or.inr ⟨by simp [pendulumStore, pendulumJoint, twoBodies, NewBody],
      by simp [pendulumStore, pendulumJoint, twoBodies, NewBody]⟩)
    (Or.inl (by
      simp [pendulumStore, pendulumJoint, twoBodies, NewBody, Body.IsStatic]
      norm_num))
    (by
      simp [JointConstraint.PreSolve, pendulumStore, pendulumJoint, twoBodies, NewBody,
        Body.LocalSpaceToWorldSpace, Vec2.Rotate, Vec2.Add, Vec2.Sub, Vec2.Muln, Vec2.Cross,
        ConstraintBase.applyImpulses, Store.modify, Body.ApplyImpulseLinear,
        Body.ApplyImpulseAngular, Body.IsStatic, Mat.row, Vec.elem, Vec.dot_six, Mat.Mulv,
        Mat.Ncols, Mat.Nrows, Mat.Transpose, ConstraintBase.GetInvM, List.range_succ,
        Vec.Dot, Function.update])).2.2.2.2

/-! ## Polygon-polygon contacts on concrete bodies -/

/-- The dispatch of `IsColliding` on two polygon or box bodies. -/
theorem IsColliding_polygons (ops : Ops K) (h : Store K) (a b : Nat) (contacts : List (Contact K))
    (ha : (h a).Shape.GetType ≠ .CIRCLE_SHAPE) (hb : (h b).Shape.GetType ≠ .CIRCLE_SHAPE) :
    IsColliding ops h a b contacts = IsCollidingPolygonPolygon ops h a b contacts := by
  unfold IsColliding
  cases hta : (h a).Shape.GetType <;> cases htb : (h b).Shape.GetType <;> simp_all

theorem real_sqrt_four : Real.sqrt 4 = 2 := by
  rw [show (4 : ℝ) = 2 ^ 2 by norm_num]; exact Real.sqrt_sq (by norm_num)

theorem real_sqrt_nine : Real.sqrt 9 = 3 := by
  rw [show (9 : ℝ) = 3 ^ 2 by norm_num]; exact Real.sqrt_sq (by norm_num)

theorem real_sqrt_sixteen : Real.sqrt 16 = 4 := by
  rw [show (16 : ℝ) = 4 ^ 2 by norm_num]; exact Real.sqrt_sq (by norm_num)

theorem real_sqrt_twentyfive : Real.sqrt 25 = 5 := by
  rw [show (25 : ℝ) = 5 ^ 2 by norm_num]; exact Real.sqrt_sq (by norm_num)

/-- C7. The polygon-polygon case does not record the depth: for the 2x2 boxes centred
at `(1, 1)` and `(5/2, 1)`, which overlap in a strip of width `1/2`, `IsColliding`
appends two contacts whose `Depth` is `0` although `|End - Start| = 1/2`. -/
theorem polygon_contact_depth_unset :
    IsColliding (Ops.mk Real.sqrt Real.sin Real.cos)
        (twoBodies (NewBody (Ops.mk Real.sqrt Real.sin Real.cos) (NewBoxShape 2 2) 1 1 1)
          (NewBody (Ops.mk Real.sqrt Real.sin Real.cos) (NewBoxShape 2 2) (5 / 2) 1 1)) 0 1 [] =
      (true,
        [{ A := 0, B := 1, Start := ⟨3 / 2, 0⟩, End := ⟨2, 0⟩, Normal := ⟨1, 0⟩, Depth := 0 },
         { A := 0, B := 1, Start := ⟨3 / 2, 2⟩, End := ⟨2, 2⟩, Normal := ⟨1, 0⟩, Depth := 0 }]) ∧
    Vec2.Length (Ops.mk Real.sqrt Real.sin Real.cos) ((⟨2, 0⟩ : Vec2 ℝ).Sub ⟨3 / 2, 0⟩) = 1 / 2 ∧
    Vec2.Length (Ops.mk Real.sqrt Real.sin Real.cos) ((⟨2, 2⟩ : Vec2 ℝ).Sub ⟨3 / 2, 2⟩) = 1 / 2 := by
  refine ⟨?_, ?_, ?_⟩
  · rw [IsColliding_polygons _ _ _ _ _
      (by simp [twoBodies, NewBody, NewBoxShape, Shape.UpdateVertices, Shape.GetType])
      (by simp [twoBodies, NewBody, NewBoxShape, Shape.UpdateVertices, Shape.GetType])]
    norm_num [IsCollidingPolygonPolygon, twoBodies, NewBody, NewBoxShape,
      Shape.UpdateVertices, PolygonBase.UpdateVertices, Vec2.Rotate, Vec2.Add,
      Shape.asPolygon, PolygonBase.FindMinSeparation, findMinSeparationStep, minSepLoop,
      PolygonBase.FindIncidentEdge, clipLoop, ClipSegmentToLine, appendClippedContacts,
      PolygonBase.GetWorldVertices, PolygonBase.GetWorldVertice, PolygonBase.EdgeAt, vertexAt,
      Vec2.Normal, Vec2.Normalize, Vec2.Length, Vec2.Dot, Vec2.Cross, Vec2.Sub, Vec2.Divn,
      Vec2.Muln, MaxFloat64, List.range_succ, real_sqrt_four]
  · norm_num [Vec2.Length, Vec2.Sub, Vec2.Dot, real_sqrt_four]
  · norm_num [Vec2.Length, Vec2.Sub, Vec2.Dot, real_sqrt_four]

/-- C8. A contact point that is not on the incident edge: for the 4x4 box centred at
`(3, 3)` (world vertices `(1,1), (5,1), (5,5), (1,5)`) and the triangle
`(3,3), (-1,3), (-1,0)`, the triangle is the reference polygon, the incident edge is
the box edge from `(1,1)` to `(5,1)`, the clip against the triangle edge from `(-1,0)`
to `(3,3)` keeps no point, and both contacts get `End = (0, 0)`, the zero value of the
fresh output slice, which is outside the box. -/
theorem clipped_contact_off_incident_edge :
    IsCollidingPolygonPolygon (Ops.mk Real.sqrt Real.sin Real.cos)
        (twoBodies (NewBody (Ops.mk Real.sqrt Real.sin Real.cos) (NewBoxShape 4 4) 3 3 1)
          (NewBody (Ops.mk Real.sqrt Real.sin Real.cos)
            (NewPolygoShape [⟨3, 3⟩, ⟨-1, 3⟩, ⟨-1, 0⟩]) 0 0 1)) 0 1 [] =
      (true,
        [{ A := 0, B := 1, Start := ⟨0, 3⟩, End := ⟨0, 0⟩, Normal := ⟨0, -1⟩, Depth := 0 },
         { A := 0, B := 1, Start := ⟨0, 3⟩, End := ⟨0, 0⟩, Normal := ⟨0, -1⟩, Depth := 0 }]) ∧
    (NewBody (Ops.mk Real.sqrt Real.sin Real.cos) (NewBoxShape 4 4) 3 3 1).Shape.asPolygon.map
        PolygonBase.GetWorldVertices = some [⟨1, 1⟩, ⟨5, 1⟩, ⟨5, 5⟩, ⟨1, 5⟩] := by
  constructor
  · norm_num [IsCollidingPolygonPolygon, twoBodies, NewBody, NewBoxShape, NewPolygoShape,
      Shape.UpdateVertices, PolygonBase.UpdateVertices, Vec2.Rotate, Vec2.Add,
      Shape.asPolygon, PolygonBase.FindMinSeparation, findMinSeparationStep, minSepLoop,
      PolygonBase.FindIncidentEdge, clipLoop, ClipSegmentToLine, appendClippedContacts,
      PolygonBase.GetWorldVertices, PolygonBase.GetWorldVertice, PolygonBase.EdgeAt, vertexAt,
      Vec2.Normal, Vec2.Normalize, Vec2.Length, Vec2.Dot, Vec2.Cross, Vec2.Sub, Vec2.Divn,
      Vec2.Muln, MaxFloat64, List.range_succ, real_sqrt_nine, real_sqrt_sixteen,
      real_sqrt_twentyfive]
  · norm_num [NewBody, NewBoxShape, Shape.UpdateVertices, PolygonBase.UpdateVertices,
      Vec2.Rotate, Vec2.Add, Shape.asPolygon, PolygonBase.GetWorldVertices]

/-- C9. A reported collision with no contact: for the 4x4 box centred at `(2, 2)` and
the triangle `(3,3), (-1,3), (-1,0)`, both separations are negative, the first clip
keeps no point, the two zero points left in `clippedPoints` have positive separation,
and `IsCollidingPolygonPolygon` returns `true` with the contact list unchanged. -/
theorem collision_without_contact :
    IsCollidingPolygonPolygon (Ops.mk Real.sqrt Real.sin Real.cos)
        (twoBodies (NewBody (Ops.mk Real.sqrt Real.sin Real.cos) (NewBoxShape 4 4) 2 2 1)
          (NewBody (Ops.mk Real.sqrt Real.sin Real.cos)
            (NewPolygoShape [⟨3, 3⟩, ⟨-1, 3⟩, ⟨-1, 0⟩]) 0 0 1)) 0 1 [] =
      (true, []) := by
  norm_num [IsCollidingPolygonPolygon, twoBodies, NewBody, NewBoxShape, NewPolygoShape,
    Shape.UpdateVertices, PolygonBase.UpdateVertices, Vec2.Rotate, Vec2.Add,
    Shape.asPolygon, PolygonBase.FindMinSeparation, findMinSeparationStep, minSepLoop,
    PolygonBase.FindIncidentEdge, clipLoop, ClipSegmentToLine, appendClippedContacts,
    PolygonBase.GetWorldVertices, PolygonBase.GetWorldVertice, PolygonBase.EdgeAt, vertexAt,
    Vec2.Normal, Vec2.Normalize, Vec2.Length, Vec2.Dot, Vec2.Cross, Vec2.Sub, Vec2.Divn,
    Vec2.Muln, MaxFloat64, List.range_succ, real_sqrt_nine, real_sqrt_sixteen,
    real_sqrt_twentyfive]

/-! ## Polygon-circle on a concrete quadrilateral -/

theorem real_sqrt_576 : Real.sqrt 576 = 24 := by
  rw [show (576 : ℝ) = 24 ^ 2 by norm_num]; exact Real.sqrt_sq (by norm_num)

/-- C5. A missed collision: for the convex quadrilateral `(0,0), (4,0), (8,3), (0,3)`
and the circle of radius `4.9` centred at `(8, -3)`, the edge loop stops at edge 0
(projection `3 > 0`), the centre is in the vertex region of `(4, 0)` at distance
`5 > 4.9`, and `IsCollidingPolygonCircle` reports no collision; but the point
`(128/25, 21/25)` of the edge from `(4,0)` to `(8,3)` is at distance `4.8` from the
centre, within the radius. -/
theorem polygon_circle_missed :
    IsCollidingPolygonCircle (Ops.mk Real.sqrt Real.sin Real.cos)
        (twoBodies
          (NewBody (Ops.mk Real.sqrt Real.sin Real.cos)
            (NewPolygoShape [⟨0, 0⟩, ⟨4, 0⟩, ⟨8, 3⟩, ⟨0, 3⟩]) 0 0 1)
          (NewBody (Ops.mk Real.sqrt Real.sin Real.cos) (NewCircleShape (49 / 10)) 8 (-3) 1))
        0 1 [] = (false, []) ∧
    (⟨128 / 25, 21 / 25⟩ : Vec2 ℝ) =
      (⟨4, 0⟩ : Vec2 ℝ).Add (((⟨8, 3⟩ : Vec2 ℝ).Sub ⟨4, 0⟩).Muln (7 / 25)) ∧
    Vec2.Length (Ops.mk Real.sqrt Real.sin Real.cos)
      ((⟨8, -3⟩ : Vec2 ℝ).Sub ⟨128 / 25, 21 / 25⟩) = 24 / 5 ∧
    (24 / 5 : ℝ) ≤ 49 / 10 := by
  refine ⟨?_, ?_, ?_, by norm_num⟩
  · norm_num [IsCollidingPolygonCircle, nearestEdgeLoop, twoBodies, NewBody, NewPolygoShape,
      NewCircleShape, Shape.UpdateVertices, PolygonBase.UpdateVertices, Vec2.Rotate, Vec2.Add,
      Shape.asPolygon, Shape.asCircle, PolygonBase.GetWorldVertices, PolygonBase.EdgeAt,
      vertexAt, Vec2.Normal, Vec2.Normalize, Vec2.Length, Vec2.Dot, Vec2.Sub, Vec2.Divn,
      Vec2.Muln, MaxFloat64, List.range_succ, real_sqrt_sixteen, real_sqrt_twentyfive]
  · norm_num [Vec2.Add, Vec2.Sub, Vec2.Muln]
  · norm_num [Vec2.Length, Vec2.Sub, Vec2.Dot, real_sqrt_576, real_sqrt_twentyfive]

/-! ## Symmetry of the single-contact polygon test (lesson21) -/

/-- The dispatch of the lesson21 `IsColliding` on two polygon or box bodies. -/
theorem Lesson21.isColliding_polygons (ops : Ops K) (h : Store K) (a b : Nat)
    (ha : (h a).Shape.GetType ≠ .CIRCLE_SHAPE) (hb : (h b).Shape.GetType ≠ .CIRCLE_SHAPE) :
    Lesson21.IsColliding ops h a b = Lesson21.IsCollidingPolygonPolygon ops h a b := by
  unfold Lesson21.IsColliding
  cases hta : (h a).Shape.GetType <;> cases htb : (h b).Shape.GetType <;> simp_all

omit [LinearOrderedField K] in
theorem Shape.getType_of_asPolygon {s : Shape K} {p : PolygonBase K}
    (hs : s.asPolygon = some p) : s.GetType ≠ .CIRCLE_SHAPE := by
  cases s <;> simp_all [Shape.asPolygon, Shape.GetType]

/-- C6 (amended). For two polygon bodies the lesson21 `IsColliding(a, b)` and
`IsColliding(b, a)` return the same boolean; when they report a collision the two
contacts have the same `Depth`, and their normals are opposite whenever the two
directional separations differ. -/
theorem isColliding_swap (ops : Ops K) (h : Store K) (a b : Nat) (pa pb : PolygonBase K)
    (ha : (h a).Shape.asPolygon = some pa) (hb : (h b).Shape.asPolygon = some pb) :
    (Lesson21.IsColliding ops h a b).1 = (Lesson21.IsColliding ops h b a).1 ∧
    ((Lesson21.IsColliding ops h a b).1 = true →
      (Lesson21.IsColliding ops h a b).2.Depth = (Lesson21.IsColliding ops h b a).2.Depth ∧
      ((Lesson21.FindMinSeparation ops pa pb).1 ≠ (Lesson21.FindMinSeparation ops pb pa).1 →
        (Lesson21.IsColliding ops h a b).2.Normal =
          (Lesson21.IsColliding ops h b a).2.Normal.Muln (-1))) := by
  rw [Lesson21.isColliding_polygons ops h a b (Shape.getType_of_asPolygon ha)
      (Shape.getType_of_asPolygon hb),
    Lesson21.isColliding_polygons ops h b a (Shape.getType_of_asPolygon hb)
      (Shape.getType_of_asPolygon ha)]
  unfold Lesson21.IsCollidingPolygonPolygon
  simp only [ha, hb]
  generalize Lesson21.FindMinSeparation ops pa pb = ab
  generalize Lesson21.FindMinSeparation ops pb pa = ba
  obtain ⟨s1, x1, p1⟩ := ab
  obtain ⟨s2, x2, p2⟩ := ba
  simp only [ge_iff_le, gt_iff_lt]
  by_cases h1 : 0 ≤ s1
  · by_cases h2 : 0 ≤ s2 <;> simp [h1, h2]
  · by_cases h2 : 0 ≤ s2
    · simp [h1, h2]
    · rcases lt_trichotomy s1 s2 with hlt | heq | hgt
      · have hn : ¬ s2 < s1 := not_lt.mpr hlt.le
        simp [h1, h2, hlt, hn]
      · subst heq
        simp [h1, h2]
      · have hn : ¬ s1 < s2 := not_lt.mpr hgt.le
        simp [h1, h2, hgt, hn, Vec2.Muln]

theorem real_sqrt_thirtysix : Real.sqrt 36 = 6 := by
  rw [show (36 : ℝ) = 6 ^ 2 by norm_num]; exact Real.sqrt_sq (by norm_num)

theorem isColliding_swap_witness :
    (Lesson21.IsColliding (Ops.mk Real.sqrt Real.sin Real.cos)
        (boxAndTriangle (Ops.mk Real.sqrt Real.sin Real.cos)) 0 1).1 =
      (Lesson21.IsColliding (Ops.mk Real.sqrt Real.sin Real.cos)
        (boxAndTriangle (Ops.mk Real.sqrt Real.sin Real.cos)) 1 0).1 ∧
    ((Lesson21.IsColliding (Ops.mk Real.sqrt Real.sin Real.cos)
        (boxAndTriangle (Ops.mk Real.sqrt Real.sin Real.cos)) 0 1).1 = true →
      (Lesson21.IsColliding (Ops.mk Real.sqrt Real.sin Real.cos)
          (boxAndTriangle (Ops.mk Real.sqrt Real.sin Real.cos)) 0 1).2.Depth =
        (Lesson21.IsColliding (Ops.mk Real.sqrt Real.sin Real.cos)
          (boxAndTriangle (Ops.mk Real.sqrt Real.sin Real.cos)) 1 0).2.Depth ∧
      ((Lesson21.FindMinSeparation (Ops.mk Real.sqrt Real.sin Real.cos)
            ⟨[⟨-1, -1⟩, ⟨1, -1⟩, ⟨1, 1⟩, ⟨-1, 1⟩], [⟨0, 0⟩, ⟨2, 0⟩, ⟨2, 2⟩, ⟨0, 2⟩]⟩
            ⟨[⟨3 / 2, 1⟩, ⟨11 / 2, -2⟩, ⟨11 / 2, 4⟩],
             [⟨3 / 2, 1⟩, ⟨11 / 2, -2⟩, ⟨11 / 2, 4⟩]⟩).1 ≠
          (Lesson21.FindMinSeparation (Ops.mk Real.sqrt Real.sin Real.cos)
            ⟨[⟨3 / 2, 1⟩, ⟨11 / 2, -2⟩, ⟨11 / 2, 4⟩],
             [⟨3 / 2, 1⟩, ⟨11 / 2, -2⟩, ⟨11 / 2, 4⟩]⟩
            ⟨[⟨-1, -1⟩, ⟨1, -1⟩, ⟨1, 1⟩, ⟨-1, 1⟩], [⟨0, 0⟩, ⟨2, 0⟩, ⟨2, 2⟩, ⟨0, 2⟩]⟩).1 →
        (Lesson21.IsColliding (Ops.mk Real.sqrt Real.sin Real.cos)
            (boxAndTriangle (Ops.mk Real.sqrt Real.sin Real.cos)) 0 1).2.Normal =
          (Lesson21.IsColliding (Ops.mk Real.sqrt Real.sin Real.cos)
            (boxAndTriangle (Ops.mk Real.sqrt Real.sin Real.cos)) 1 0).2.Normal.Muln (-1))) :=
  isColliding_swap (Ops.mk Real.sqrt Real.sin Real.cos)
    (boxAndTriangle (Ops.mk Real.sqrt Real.sin Real.cos)) 0 1
    ⟨[⟨-1, -1⟩, ⟨1, -1⟩, ⟨1, 1⟩, ⟨-1, 1⟩], [⟨0, 0⟩, ⟨2, 0⟩, ⟨2, 2⟩, ⟨0, 2⟩]⟩
    ⟨[⟨3 / 2, 1⟩, ⟨11 / 2, -2⟩, ⟨11 / 2, 4⟩], [⟨3 / 2, 1⟩, ⟨11 / 2, -2⟩, ⟨11 / 2, 4⟩]⟩
    (by
      norm_num [boxAndTriangle, twoBodies, NewBody, NewBoxShape, Shape.UpdateVertices,
        PolygonBase.UpdateVertices, Vec2.Rotate, Vec2.Add, Shape.asPolygon])
    (by
      norm_num [boxAndTriangle, twoBodies, NewBody, NewPolygoShape, Shape.UpdateVertices,
        PolygonBase.UpdateVertices, Vec2.Rotate, Vec2.Add, Shape.asPolygon])

/-- C6 (counterexample). On a tie of the two directional separations the normals are
not opposite: for the 2x2 boxes centred at `(1, 1)` and `(2, 2)` both separations are
`-1`, `IsColliding(a, b)` has normal `(0, 1)` and `IsColliding(b, a)` has normal
`(-1, 0)`. -/
theorem isColliding_swap_tie :
    Lesson21.IsColliding (Ops.mk Real.sqrt Real.sin Real.cos)
        (twoBodies (NewBody (Ops.mk Real.sqrt Real.sin Real.cos) (NewBoxShape 2 2) 1 1 1)
          (NewBody (Ops.mk Real.sqrt Real.sin Real.cos) (NewBoxShape 2 2) 2 2 1)) 0 1 =
      (true, { A := some 0, B := some 1, Start := ⟨2, 1⟩, End := ⟨2, 2⟩, Normal := ⟨0, 1⟩,
               Depth := 1 }) ∧
    Lesson21.IsColliding (Ops.mk Real.sqrt Real.sin Real.cos)
        (twoBodies (NewBody (Ops.mk Real.sqrt Real.sin Real.cos) (NewBoxShape 2 2) 1 1 1)
          (NewBody (Ops.mk Real.sqrt Real.sin Real.cos) (NewBoxShape 2 2) 2 2 1)) 1 0 =
      (true, { A := some 1, B := some 0, Start := ⟨2, 1⟩, End := ⟨1, 1⟩, Normal := ⟨-1, 0⟩,
               Depth := 1 }) ∧
    (⟨0, 1⟩ : Vec2 ℝ) ≠ (⟨-1, 0⟩ : Vec2 ℝ).Muln (-1) := by
  refine ⟨?_, ?_, ?_⟩
  · rw [Lesson21.isColliding_polygons _ _ _ _
      (by simp [twoBodies, NewBody, NewBoxShape, Shape.UpdateVertices, Shape.GetType])
      (by simp [twoBodies, NewBody, NewBoxShape, Shape.UpdateVertices, Shape.GetType])]
    norm_num [Lesson21.IsCollidingPolygonPolygon, Lesson21.FindMinSeparation,
      Lesson21.findMinSeparationStep, twoBodies, NewBody, NewBoxShape,
      Shape.UpdateVertices, PolygonBase.UpdateVertices, Vec2.Rotate, Vec2.Add,
      Shape.asPolygon, minSepLoop,
      PolygonBase.GetWorldVertices, PolygonBase.GetWorldVertice, PolygonBase.EdgeAt, vertexAt,
      Vec2.Normal, Vec2.Normalize, Vec2.Length, Vec2.Dot, Vec2.Sub, Vec2.Divn,
      Vec2.Muln, MaxFloat64, List.range_succ, real_sqrt_four]
  · rw [Lesson21.isColliding_polygons _ _ _ _
      (by simp [twoBodies, NewBody, NewBoxShape, Shape.UpdateVertices, Shape.GetType])
      (by simp [twoBodies, NewBody, NewBoxShape, Shape.UpdateVertices, Shape.GetType])]
    norm_num [Lesson21.IsCollidingPolygonPolygon, Lesson21.FindMinSeparation,
      Lesson21.findMinSeparationStep, twoBodies, NewBody, NewBoxShape,
      Shape.UpdateVertices, PolygonBase.UpdateVertices, Vec2.Rotate, Vec2.Add,
      Shape.asPolygon, minSepLoop,
      PolygonBase.GetWorldVertices, PolygonBase.GetWorldVertice, PolygonBase.EdgeAt, vertexAt,
      Vec2.Normal, Vec2.Normalize, Vec2.Length, Vec2.Dot, Vec2.Sub, Vec2.Divn,
      Vec2.Muln, MaxFloat64, List.range_succ, real_sqrt_four]
  · norm_num [Vec2.Muln]

/-! ## Static bodies never move -/

theorem Body.isStatic_of_invMass_zero {b : Body K} (hb : b.InvMass = 0) : b.IsStatic = true := by
  simp [Body.IsStatic, hb]

theorem Body.frame_invMass {b c : Body K} (hf : c.frame = b.frame) (hb : b.InvMass = 0) :
    c.InvMass = 0 := by
  have e : c.frame.1 = b.frame.1 := by rw [hf]
  exact e.trans hb

theorem Body.frame_step {b0 b1 b2 : Body K} (hb : b0.InvMass = 0) (h01 : b1.frame = b0.frame)
    (h12 : b1.InvMass = 0 → b2.frame = b1.frame) : b2.frame = b0.frame :=
  (h12 (Body.frame_invMass h01 hb)).trans h01

theorem Body.addFore_frame (b : Body K) (force : Vec2 K) : (b.AddFore force).frame = b.frame :=
  rfl

theorem Body.addTorque_frame (b : Body K) (torque : K) : (b.AddTorque torque).frame = b.frame :=
  rfl

theorem Body.applyImpulseLinear_frame (b : Body K) (j : Vec2 K) (hb : b.InvMass = 0) :
    (b.ApplyImpulseLinear j).frame = b.frame := by
  simp [Body.ApplyImpulseLinear, Body.isStatic_of_invMass_zero hb]

theorem Body.applyImpulseAngular_frame (b : Body K) (j : K) (hb : b.InvMass = 0) :
    (b.ApplyImpulseAngular j).frame = b.frame := by
  simp [Body.ApplyImpulseAngular, Body.isStatic_of_invMass_zero hb]

theorem Body.applyImpulseAtPoint_frame (b : Body K) (j r : Vec2 K) (hb : b.InvMass = 0) :
    (b.ApplyImpulseAtPoint j r).frame = b.frame := by
  simp [Body.ApplyImpulseAtPoint, Body.isStatic_of_invMass_zero hb]

theorem Body.integrateForces_frame (b : Body K) (dt : K) (hb : b.InvMass = 0) :
    (b.IntegrateForces dt).frame = b.frame := by
  simp [Body.IntegrateForces, Body.isStatic_of_invMass_zero hb]

theorem Body.integrateVelocities_frame (ops : Ops K) (b : Body K) (dt : K) (hb : b.InvMass = 0) :
    (b.IntegrateVelocities ops dt).frame = b.frame := by
  simp [Body.IntegrateVelocities, Body.isStatic_of_invMass_zero hb]

/-- A pointer-receiver call that keeps the frame of every body of zero inverse mass
keeps the frame of such a body at every address. -/
theorem Store.modify_frame (h : Store K) (p q : Nat) (f : Body K → Body K)
    (hf : ∀ b : Body K, b.InvMass = 0 → (f b).frame = b.frame) (hp : (h p).InvMass = 0) :
    (Store.modify h q f p).frame = (h p).frame := by
  by_cases hpq : p = q
  · subst hpq; rw [Store.modify_same]; exact hf _ hp
  · rw [Store.modify_other _ _ hpq]

theorem Store.foldl_frame {α : Type} (p : Nat) (step : Store K → α → Store K)
    (hstep : ∀ (h : Store K) (x : α), (h p).InvMass = 0 → (step h x p).frame = (h p).frame)
    (l : List α) (h : Store K) (hp : (h p).InvMass = 0) :
    (l.foldl step h p).frame = (h p).frame := by
  induction l generalizing h with
  | nil => rfl
  | cons x xs ih =>
    rw [List.foldl_cons, ih (step h x) (Body.frame_invMass (hstep h x hp) hp)]
    exact hstep h x hp

theorem forEachConstraint_frame {C : Type} (p : Nat) (f : C → Store K → C × Store K)
    (hf : ∀ (c : C) (h : Store K), (h p).InvMass = 0 → ((f c h).2 p).frame = (h p).frame)
    (cs : List C) (h : Store K) (hp : (h p).InvMass = 0) :
    ((forEachConstraint f cs h).2 p).frame = (h p).frame := by
  induction cs generalizing h with
  | nil => rfl
  | cons c cs ih =>
    simp only [forEachConstraint]
    rw [ih (f c h).2 (Body.frame_invMass (hf c h hp) hp)]
    exact hf c h hp

theorem ConstraintBase.applyImpulses_frame (c : ConstraintBase K) (h : Store K)
    (impulses : Vec K) (p : Nat) (hp : (h p).InvMass = 0) :
    (c.applyImpulses h impulses p).frame = (h p).frame := by
  unfold ConstraintBase.applyImpulses
  have e1 := Store.modify_frame h p c.a
    (fun body => body.ApplyImpulseLinear ⟨Vec.elem impulses 0, Vec.elem impulses 1⟩)
    (fun b hb => b.applyImpulseLinear_frame _ hb) hp
  have e2 := Store.modify_frame _ p c.a
    (fun body => body.ApplyImpulseAngular (Vec.elem impulses 2))
    (fun b hb => b.applyImpulseAngular_frame _ hb) (Body.frame_invMass e1 hp)
  have e3 := Store.modify_frame _ p c.b
    (fun body => body.ApplyImpulseLinear ⟨Vec.elem impulses 3, Vec.elem impulses 4⟩)
    (fun b hb => b.applyImpulseLinear_frame _ hb)
    (Body.frame_invMass (e2.trans e1) hp)
  have e4 := Store.modify_frame _ p c.b
    (fun body => body.ApplyImpulseAngular (Vec.elem impulses 5))
    (fun b hb => b.applyImpulseAngular_frame _ hb)
    (Body.frame_invMass (e3.trans (e2.trans e1)) hp)
  exact e4.trans (e3.trans (e2.trans e1))

theorem Constraint.preSolve_frame (ops : Ops K) (dt : K) (p : Nat) (c : Constraint K)
    (h : Store K) (hp : (h p).InvMass = 0) :
    ((c.PreSolve ops dt h).2 p).frame = (h p).frame := by
  cases c with
  | joint j => exact ConstraintBase.applyImpulses_frame _ _ _ _ hp
  | penetration q => exact ConstraintBase.applyImpulses_frame _ _ _ _ hp

theorem Constraint.solve_frame (p : Nat) (c : Constraint K) (h : Store K)
    (hp : (h p).InvMass = 0) : ((c.Solve h).2 p).frame = (h p).frame := by
  cases c with
  | joint j => exact ConstraintBase.applyImpulses_frame _ _ _ _ hp
  | penetration q => exact ConstraintBase.applyImpulses_frame _ _ _ _ hp

omit [LinearOrderedField K] in
theorem Constraint.postSolve_frame (p : Nat) (c : Constraint K) (h : Store K) :
    ((c.PostSolve h).2 p).frame = (h p).frame := by
  cases c <;> rfl

theorem World.solveOnce_frame (p : Nat)
    (st : List (Constraint K) × List (PenetrationConstraint K) × Store K)
    (hp : (st.2.2 p).InvMass = 0) :
    ((World.solveOnce st).2.2 p).frame = (st.2.2 p).frame := by
  unfold World.solveOnce
  have e1 := forEachConstraint_frame p Constraint.Solve
    (fun c h hh => Constraint.solve_frame p c h hh) st.1 st.2.2 hp
  have e2 := forEachConstraint_frame p PenetrationConstraint.Solve
    (fun c h hh => ConstraintBase.applyImpulses_frame _ _ _ _ hh) st.2.1 _
    (Body.frame_invMass e1 hp)
  exact e2.trans e1

theorem World.solveLoop_frame (p : Nat) (n : List Nat)
    (st : List (Constraint K) × List (PenetrationConstraint K) × Store K)
    (hp : (st.2.2 p).InvMass = 0) :
    ((n.foldl (fun st _ => World.solveOnce st) st).2.2 p).frame = (st.2.2 p).frame := by
  induction n generalizing st with
  | nil => rfl
  | cons x xs ih =>
    rw [List.foldl_cons, ih _ (Body.frame_invMass (World.solveOnce_frame p st hp) hp)]
    exact World.solveOnce_frame p st hp

theorem World.applyForces_frame (w : World K) (p : Nat) (h : Store K)
    (hp : (h p).InvMass = 0) : (w.applyForces h p).frame = (h p).frame := by
  unfold World.applyForces
  refine Store.foldl_frame p _ ?_ w.bodies h hp
  intro h body hh
  have e1 := Store.modify_frame h p body
    (fun b => b.AddFore ⟨0, (h body).Mass * w.G * PIXELS_PER_METER⟩)
    (fun b _ => b.addFore_frame _) hh
  have e2 := Store.foldl_frame p
    (fun h force => Store.modify h body (fun b => b.AddFore force))
    (fun h force hh => Store.modify_frame h p body _ (fun b _ => b.addFore_frame _) hh)
    w.forces _ (Body.frame_invMass e1 hh)
  have e3 := Store.foldl_frame p
    (fun h torque => Store.modify h body (fun b => b.AddTorque torque))
    (fun h torque hh => Store.modify_frame h p body _ (fun b _ => b.addTorque_frame _) hh)
    w.torques _ (Body.frame_invMass (e2.trans e1) hh)
  exact e3.trans (e2.trans e1)

/-- One `World.Update` keeps the frame of every body of zero inverse mass. -/
theorem World.update_frame (ops : Ops K)
    (isColliding : Store K → Nat → Nat → Bool × Contact K) (dt : K) (w : World K) (p : Nat)
    (h : Store K) (hp : (h p).InvMass = 0) :
    ((World.Update ops isColliding dt w h).2 p).frame = (h p).frame := by
  dsimp only [World.Update]
  refine Body.frame_step hp ?_ (fun hh => Store.foldl_frame p _
    (fun h body hh =>
      Store.modify_frame h p body _ (fun b hb => b.integrateVelocities_frame ops _ hb) hh)
    w.bodies _ hh)
  refine Body.frame_step hp ?_ (fun hh => forEachConstraint_frame p
    PenetrationConstraint.PostSolve (fun c h _ => rfl) _ _ hh)
  refine Body.frame_step hp ?_ (fun hh => forEachConstraint_frame p Constraint.PostSolve
    (fun c h _ => Constraint.postSolve_frame p c h) _ _ hh)
  refine Body.frame_step hp ?_ (fun hh => World.solveLoop_frame p (List.range 5) _ hh)
  refine Body.frame_step hp ?_ (fun hh => forEachConstraint_frame p
    (PenetrationConstraint.PreSolve ops dt)
    (fun c h hh => ConstraintBase.applyImpulses_frame _ _ _ _ hh) _ _ hh)
  refine Body.frame_step hp ?_ (fun hh => forEachConstraint_frame p (Constraint.PreSolve ops dt)
    (fun c h hh => Constraint.preSolve_frame ops dt p c h hh) _ _ hh)
  refine Body.frame_step hp ?_ (fun hh => Store.foldl_frame p _
    (fun h body hh =>
      Store.modify_frame h p body _ (fun b hb => b.integrateForces_frame _ hb) hh)
    w.bodies _ hh)
  exact World.applyForces_frame w p h hp

theorem Call.run_frame (ops : Ops K) (isColliding : Store K → Nat → Nat → Bool × Contact K)
    (p : Nat) (st : World K × Store K) (c : Call K) (hp : (st.2 p).InvMass = 0) :
    ((c.run ops isColliding st).2 p).frame = (st.2 p).frame := by
  cases c with
  | AddFore body force => exact Store.modify_frame _ p body _ (fun b _ => b.addFore_frame _) hp
  | AddTorque body torque =>
    exact Store.modify_frame _ p body _ (fun b _ => b.addTorque_frame _) hp
  | ApplyImpulseLinear body j =>
    exact Store.modify_frame _ p body _ (fun b hb => b.applyImpulseLinear_frame _ hb) hp
  | ApplyImpulseAngular body j =>
    exact Store.modify_frame _ p body _ (fun b hb => b.applyImpulseAngular_frame _ hb) hp
  | ApplyImpulseAtPoint body j r =>
    exact Store.modify_frame _ p body _ (fun b hb => b.applyImpulseAtPoint_frame _ _ hb) hp
  | IntegrateForces body dt =>
    exact Store.modify_frame _ p body _ (fun b hb => b.integrateForces_frame _ hb) hp
  | IntegrateVelocities body dt =>
    exact Store.modify_frame _ p body _ (fun b hb => b.integrateVelocities_frame ops _ hb) hp
  | WorldUpdate dt => exact World.update_frame ops isColliding dt st.1 p st.2 hp
  | WorldAddBody body => rfl
  | WorldAddConstraint constraint => rfl
  | WorldAddForce force => rfl

theorem runCalls_frame (ops : Ops K) (isColliding : Store K → Nat → Nat → Bool × Contact K)
    (p : Nat) (calls : List (Call K)) (st : World K × Store K) (hp : (st.2 p).InvMass = 0) :
    ((runCalls ops isColliding calls st).2 p).frame = (st.2 p).frame := by
  unfold runCalls
  induction calls generalizing st with
  | nil => rfl
  | cons c cs ih =>
    rw [List.foldl_cons, ih _ (Body.frame_invMass (Call.run_frame ops isColliding p st c hp) hp)]
    exact Call.run_frame ops isColliding p st c hp

/-- C1. A body created by `NewBody` with mass 0 keeps its `Position`, `Velocity`,
`Rotation` and `AngularVelocity` under every sequence of `AddFore`, `AddTorque`,
`ApplyImpulseLinear`, `ApplyImpulseAngular`, `ApplyImpulseAtPoint`, `IntegrateForces`,
`IntegrateVelocities` and `World.Update` calls, on any bodies, with any time steps,
any world (bodies, forces, torques, joint and penetration constraints, also ones
added between the calls) and any narrow phase. -/
theorem static_invariance (ops : Ops K) (isColliding : Store K → Nat → Nat → Bool × Contact K)
    (shape : Shape K) (x y : K) (p : Nat) (w : World K) (h : Store K) (calls : List (Call K)) :
    let h0 : Store K := Function.update h p (NewBody ops shape x y 0)
    let h1 : Store K := (runCalls ops isColliding calls (w, h0)).2
    (h1 p).Position = (h0 p).Position ∧ (h1 p).Velocity = (h0 p).Velocity ∧
    (h1 p).Rotation = (h0 p).Rotation ∧ (h1 p).AngularVelocity = (h0 p).AngularVelocity := by
  intro h0 h1
  have hp : (h0 p).InvMass = 0 := by simp [h0, NewBody]
  have e := runCalls_frame ops isColliding p calls (w, h0) hp
  simp only [Body.frame, Prod.mk.injEq] at e
  exact ⟨e.2.1, e.2.2.1, e.2.2.2.1, e.2.2.2.2⟩

/-! ## The separating-axis test -/

theorem MaxFloat64_pos : (0 : K) < MaxFloat64 := by
  unfold MaxFloat64
  have h : (2 : K) ^ 971 < 2 ^ 1024 := pow_lt_pow_right₀ (by norm_num) (by norm_num)
  linarith

/-- The inner loop finds a negative projection exactly when it starts from one or
some vertex has one. -/
theorem minSepLoop_neg_iff (v normal : Vec2 K) (vs2 : List (Vec2 K)) (init : K × Vec2 K) :
    (minSepLoop v normal vs2 init).1 < 0 ↔
      init.1 < 0 ∨ ∃ w ∈ vs2, (w.Sub v).Dot normal < 0 := by
  unfold minSepLoop
  induction vs2 generalizing init with
  | nil => simp
  | cons w ws ih =>
    rw [List.foldl_cons, ih]
    by_cases hlt : (w.Sub v).Dot normal < init.1
    · simp only [hlt, ↓reduceIte, List.mem_cons, exists_eq_or_imp]
      constructor
      · rintro (h | h)
        · exact Or.inr (Or.inl h)
        · exact Or.inr (Or.inr h)
      · rintro (h | h | h)
        · exact Or.inl (lt_trans hlt h)
        · exact Or.inl h
        · exact Or.inr h
    · simp only [hlt, ↓reduceIte, List.mem_cons, exists_eq_or_imp]
      constructor
      · rintro (h | h)
        · exact Or.inl h
        · exact Or.inr (Or.inr h)
      · rintro (h | h | h)
        · exact Or.inl h
        · exact Or.inl (lt_of_le_of_lt (not_lt.mp hlt) h)
        · exact Or.inr h

theorem findMinSeparationStep_neg_iff (ops : Ops K) (s s2 : PolygonBase K)
    (st : K × Nat × Vec2 K) (i : Nat) :
    (findMinSeparationStep ops s s2 st i).1 < 0 ↔
      st.1 < 0 ∧ ∃ w ∈ s2.GetWorldVertices, s.edgeDistance ops i w < 0 := by
  have hm := minSepLoop_neg_iff (s.GetWorldVertice i) ((s.EdgeAt i).Normal ops)
    s2.GetWorldVertices (MaxFloat64, ⟨0, 0⟩)
  have hpos : ¬ ((MaxFloat64 : K) < 0) := not_lt.mpr MaxFloat64_pos.le
  simp only [hpos, false_or] at hm
  unfold findMinSeparationStep PolygonBase.edgeDistance
  simp only
  rw [← hm]
  generalize (minSepLoop (s.GetWorldVertice i) ((s.EdgeAt i).Normal ops) s2.GetWorldVertices
    (MaxFloat64, ⟨0, 0⟩)) = r
  by_cases hgt : r.1 > st.1
  · simp only [hgt, ↓reduceIte, max_self]
    constructor
    · intro h; exact ⟨lt_trans hgt h, h⟩
    · intro h; exact h.2
  · simp only [hgt, ↓reduceIte]
    rw [max_lt_iff]

theorem PolygonBase.getWorldVertice_eq (s : PolygonBase K) {j : Nat}
    (hj : j < s.GetWorldVertices.length) : s.GetWorldVertice j = s.GetWorldVertices[j] := by
  unfold PolygonBase.GetWorldVertices at hj
  simp [PolygonBase.GetWorldVertice, PolygonBase.GetWorldVertices, vertexAt,
    List.getElem?_eq_getElem hj]

theorem findMinSeparation_neg_iff (ops : Ops K) (s s2 : PolygonBase K) :
    (s.FindMinSeparation ops s2).1 < 0 ↔
      ∀ i, i < s.GetWorldVertices.length →
        ∃ j, j < s2.GetWorldVertices.length ∧
          s.edgeDistance ops i (s2.GetWorldVertice j) < 0 := by
  have key : ∀ (l : List Nat) (st : K × Nat × Vec2 K),
      (l.foldl (findMinSeparationStep ops s s2) st).1 < 0 ↔
        st.1 < 0 ∧ ∀ i ∈ l, ∃ w ∈ s2.GetWorldVertices, s.edgeDistance ops i w < 0 := by
    intro l
    induction l with
    | nil => intro st; simp
    | cons i is ih =>
      intro st
      rw [List.foldl_cons, ih, findMinSeparationStep_neg_iff]
      simp only [List.mem_cons, forall_eq_or_imp]
      tauto
  unfold PolygonBase.FindMinSeparation
  rw [key]
  have hneg : -(MaxFloat64 : K) < 0 := neg_lt_zero.mpr MaxFloat64_pos
  simp only [hneg, true_and, List.mem_range]
  constructor
  · intro h i hi
    obtain ⟨w, hw, hlt⟩ := h i hi
    obtain ⟨j, hj, rfl⟩ := List.getElem_of_mem hw
    refine ⟨j, hj, ?_⟩
    rw [PolygonBase.getWorldVertice_eq s2 hj]; exact hlt
  · intro h i hi
    obtain ⟨j, hj, hlt⟩ := h i hi
    refine ⟨s2.GetWorldVertice j, ?_, hlt⟩
    rw [PolygonBase.getWorldVertice_eq s2 hj]; exact List.getElem_mem _

/-- The boolean result of `IsCollidingPolygonPolygon` on two polygon bodies. -/
theorem isCollidingPolygonPolygon_iff (ops : Ops K) (h : Store K) (a b : Nat)
    (pa pb : PolygonBase K) (contacts : List (Contact K))
    (ha : (h a).Shape.asPolygon = some pa) (hb : (h b).Shape.asPolygon = some pb) :
    (IsCollidingPolygonPolygon ops h a b contacts).1 = true ↔
      (pa.FindMinSeparation ops pb).1 < 0 ∧ (pb.FindMinSeparation ops pa).1 < 0 := by
  unfold IsCollidingPolygonPolygon
  simp only [ha, hb, ge_iff_le]
  by_cases h1 : 0 ≤ (pa.FindMinSeparation ops pb).1
  · simp [h1, not_lt.mpr h1]
  · by_cases h2 : 0 ≤ (pb.FindMinSeparation ops pa).1
    · simp [h1, h2, not_lt.mpr h2]
    · simp [h1, h2, not_le.mp h1, not_le.mp h2]

/-- The projection on an edge normal, for a non-zero edge `e`: the perpendicular
product divided by the (positive) length. -/
theorem Vec2.dot_normal {ops : Ops K} (hops : ops.Exact) {e : Vec2 K} (he : e ≠ ⟨0, 0⟩)
    (w : Vec2 K) :
    0 < Vec2.Length ops ⟨e.Y, -e.X⟩ ∧
    w.Dot (e.Normal ops) = (w.X * e.Y - w.Y * e.X) / Vec2.Length ops ⟨e.Y, -e.X⟩ := by
  have hne : (⟨e.Y, -e.X⟩ : Vec2 K) ≠ ⟨0, 0⟩ := by
    intro hh
    apply he
    obtain ⟨ex, ey⟩ := e
    simp only [Vec2.mk.injEq, neg_eq_zero] at hh
    rw [hh.1, hh.2]
  have hpos := Vec2.length_pos hops hne
  refine ⟨hpos, ?_⟩
  unfold Vec2.Normal
  rw [Vec2.normalize_eq hops hne]
  simp only [Vec2.Dot, Vec2.Divn]
  field_simp
  ring

theorem Vec2.dot_normal_neg_iff {ops : Ops K} (hops : ops.Exact) {e : Vec2 K}
    (he : e ≠ ⟨0, 0⟩) (w : Vec2 K) :
    w.Dot (e.Normal ops) < 0 ↔ w.X * e.Y - w.Y * e.X < 0 := by
  obtain ⟨hpos, heq⟩ := Vec2.dot_normal hops he w
  rw [heq, div_lt_iff₀ hpos, zero_mul]

/-- The signed distance to an edge line is affine along a segment. -/
theorem PolygonBase.edgeDistance_segment (ops : Ops K) (s : PolygonBase K) (i : Nat)
    (a x : Vec2 K) (t : K) :
    s.edgeDistance ops i (a.Add ((x.Sub a).Muln t)) =
      (1 - t) * s.edgeDistance ops i a + t * s.edgeDistance ops i x := by
  simp only [PolygonBase.edgeDistance, Vec2.Dot, Vec2.Sub, Vec2.Add, Vec2.Muln]
  ring

/-- No sequence is strictly increasing around a cycle. -/
theorem cyclic_increasing_false (m : Nat) (hm : 0 < m) (t : Nat → K)
    (h : ∀ j, j < m → t j < t ((j + 1) % m)) : False := by
  have hmono : ∀ j, j < m → t 0 ≤ t j := by
    intro j
    induction j with
    | zero => intro _; exact le_refl _
    | succ k ih =>
      intro hk
      have hk1 : k < m := Nat.lt_of_succ_lt hk
      have := h k hk1
      rw [Nat.mod_eq_of_lt hk] at this
      exact le_trans (ih hk1) this.le
  have h1 := h (m - 1) (Nat.sub_lt hm Nat.one_pos)
  have h2 := hmono (m - 1) (Nat.sub_lt hm Nat.one_pos)
  rw [Nat.sub_add_cancel hm, Nat.mod_self] at h1
  exact absurd h1 (not_lt.mpr h2)

/-- A line that has an interior point of a polygon strictly on one side has a vertex
of the polygon strictly on that side. -/
theorem PolygonBase.exists_vertex_neg {ops : Ops K} (hops : ops.Exact) (s : PolygonBase K)
    (hn : 0 < s.GetWorldVertices.length)
    (hedge : ∀ i, i < s.GetWorldVertices.length → s.EdgeAt i ≠ ⟨0, 0⟩)
    (x : Vec2 K) (hx : s.InInterior ops x) (p nv : Vec2 K) (hxp : (x.Sub p).Dot nv < 0) :
    ∃ j, j < s.GetWorldVertices.length ∧ ((s.GetWorldVertice j).Sub p).Dot nv < 0 := by
  by_contra hall
  push_neg at hall
  have hnv : 0 < nv.X * nv.X + nv.Y * nv.Y := by
    have h0 : nv ≠ ⟨0, 0⟩ := by
      intro hh
      rw [hh] at hxp
      simp [Vec2.Dot] at hxp
    exact Vec2.dot_self_pos h0
  have hu : ∀ j, j < s.GetWorldVertices.length →
      0 < ((s.GetWorldVertice j).Sub x).Dot nv := by
    intro j hj
    have h1 := hall j hj
    simp only [Vec2.Dot, Vec2.Sub] at h1 hxp ⊢
    linarith
  refine cyclic_increasing_false s.GetWorldVertices.length hn
    (fun j => (nv.X * ((s.GetWorldVertice j).Sub x).Y - nv.Y * ((s.GetWorldVertice j).Sub x).X) /
      ((s.GetWorldVertice j).Sub x).Dot nv) ?_
  intro j hj
  have hj1 : (j + 1) % s.GetWorldVertices.length < s.GetWorldVertices.length :=
    Nat.mod_lt _ hn
  have hd := hx j hj
  unfold PolygonBase.edgeDistance at hd
  rw [Vec2.dot_normal_neg_iff hops (hedge j hj)] at hd
  have he : s.EdgeAt j =
      (s.GetWorldVertice ((j + 1) % s.GetWorldVertices.length)).Sub (s.GetWorldVertice j) := rfl
  rw [he] at hd
  have hu0 := hu j hj
  have hu1 := hu _ hj1
  simp only
  rw [div_lt_div_iff₀ hu0 hu1]
  generalize s.GetWorldVertice ((j + 1) % s.GetWorldVertices.length) = q1 at hd hu1 ⊢
  generalize s.GetWorldVertice j = q0 at hd hu0 ⊢
  simp only [Vec2.Dot, Vec2.Sub] at hd hu0 hu1 ⊢
  have hid : (nv.X * (q1.Y - x.Y) - nv.Y * (q1.X - x.X)) * ((q0.X - x.X) * nv.X + (q0.Y - x.Y) * nv.Y) -
      (nv.X * (q0.Y - x.Y) - nv.Y * (q0.X - x.X)) * ((q1.X - x.X) * nv.X + (q1.Y - x.Y) * nv.Y) =
      (nv.X * nv.X + nv.Y * nv.Y) *
        (-((x.X - q0.X) * (q1.Y - q0.Y) - (x.Y - q0.Y) * (q1.X - q0.X))) := by ring
  have hp : 0 < (nv.X * nv.X + nv.Y * nv.Y) *
      (-((x.X - q0.X) * (q1.Y - q0.Y) - (x.Y - q0.Y) * (q1.X - q0.X))) :=
    mul_pos hnv (by linarith)
  linarith

/-- A convex polygon with an interior point meets, in its interior, every open
half-plane of another edge line that contains one of its vertices. -/
theorem PolygonBase.interior_meets_halfplane (ops : Ops K) (s s2 : PolygonBase K)
    (hconv : s.IsConvex ops) (x0 : Vec2 K) (hx0 : s.InInterior ops x0) (i k : Nat)
    (hk : k < s.GetWorldVertices.length)
    (hlt : s2.edgeDistance ops i (s.GetWorldVertice k) < 0) :
    ∃ y, s.InInterior ops y ∧ s2.edgeDistance ops i y < 0 := by
  by_cases hg : s2.edgeDistance ops i x0 < 0
  · exact ⟨x0, hx0, hg⟩
  · have hg0 : 0 ≤ s2.edgeDistance ops i x0 := not_lt.mp hg
    have hden : 0 < 2 * (s2.edgeDistance ops i x0 - s2.edgeDistance ops i (s.GetWorldVertice k)) := by
      linarith
    have ht0 : 0 < -s2.edgeDistance ops i (s.GetWorldVertice k) /
        (2 * (s2.edgeDistance ops i x0 - s2.edgeDistance ops i (s.GetWorldVertice k))) :=
      div_pos (by linarith) hden
    have ht1 : -s2.edgeDistance ops i (s.GetWorldVertice k) /
        (2 * (s2.edgeDistance ops i x0 - s2.edgeDistance ops i (s.GetWorldVertice k))) < 1 := by
      rw [div_lt_one hden]; linarith
    refine ⟨(s.GetWorldVertice k).Add ((x0.Sub (s.GetWorldVertice k)).Muln
      (-s2.edgeDistance ops i (s.GetWorldVertice k) /
        (2 * (s2.edgeDistance ops i x0 - s2.edgeDistance ops i (s.GetWorldVertice k))))), ?_, ?_⟩
    · intro e he
      rw [PolygonBase.edgeDistance_segment]
      have h1 := hconv.2.2 e he k hk
      have h2 := hx0 e he
      have h3 := mul_nonpos_of_nonneg_of_nonpos (sub_nonneg.mpr ht1.le) h1
      have h4 := mul_neg_of_pos_of_neg ht0 h2
      linarith
    · rw [PolygonBase.edgeDistance_segment]
      generalize s2.edgeDistance ops i x0 = g0 at hg0 hden ht0 ht1 ⊢
      generalize s2.edgeDistance ops i (s.GetWorldVertice k) = ga at hlt hden ht0 ht1 ⊢
      have hne : g0 - ga ≠ 0 := by intro h0; rw [h0] at hden; simp at hden
      have : (1 - -ga / (2 * (g0 - ga))) * ga + -ga / (2 * (g0 - ga)) * g0 = ga / 2 := by
        field_simp
        ring
      rw [this]
      linarith

/-- The open inner half-plane of an edge line is convex. -/
theorem PolygonBase.convex_halfplane (ops : Ops K) (s : PolygonBase K) (i : Nat) :
    Convex K {z : K × K | s.edgeDistance ops i ⟨z.1, z.2⟩ < 0} := by
  intro z hz w hw a b ha hb hab
  simp only [Set.mem_setOf_eq, PolygonBase.edgeDistance, Vec2.Dot, Vec2.Sub, Prod.fst_add,
    Prod.snd_add, Prod.smul_fst, Prod.smul_snd, smul_eq_mul] at hz hw ⊢
  have hb1 : b = 1 - a := by linarith
  subst hb1
  rcases ha.lt_or_eq with ha0 | ha0
  · have h1 := mul_neg_of_pos_of_neg ha0 hz
    have h2 := mul_nonpos_of_nonneg_of_nonpos hb hw.le
    nlinarith
  · subst ha0
    simp only [zero_mul, zero_add, sub_zero, one_mul]
    exact hw

omit [LinearOrderedField K] in
/-- A finite family of edge half-planes of two polygons with at most one member from
the second polygon has a common point, when the first polygon has an interior point
and its interior meets each half-plane of the second. -/
theorem halfplanes_meet_one_sided {α β : Type} (I : Finset (α ⊕ β)) (F : α ⊕ β → Set (K × K))
    (x0 : K × K) (hx0 : ∀ i, x0 ∈ F (Sum.inl i))
    (hmeet : ∀ j, ∃ y, (∀ i, y ∈ F (Sum.inl i)) ∧ y ∈ F (Sum.inr j))
    (hone : ∀ j1 j2, Sum.inr j1 ∈ I → Sum.inr j2 ∈ I → j1 = j2) :
    (⋂ i ∈ I, F i).Nonempty := by
  by_cases hex : ∃ j, Sum.inr j ∈ I
  · obtain ⟨j, hj⟩ := hex
    obtain ⟨y, hy1, hy2⟩ := hmeet j
    refine ⟨y, ?_⟩
    simp only [Set.mem_iInter]
    intro i hi
    cases i with
    | inl i => exact hy1 i
    | inr j2 => rw [hone j2 j hi hj]; exact hy2
  · refine ⟨x0, ?_⟩
    simp only [Set.mem_iInter]
    intro i hi
    cases i with
    | inl i => exact hx0 i
    | inr j2 => exact absurd ⟨j2, hi⟩ hex

/-- Among at most three edges of two polygons, one polygon contributes at most one. -/
theorem at_most_one_side {α β : Type} [DecidableEq α] [DecidableEq β] (I : Finset (α ⊕ β))
    (hI : I.card ≤ 3) :
    (∀ j1 j2, Sum.inr j1 ∈ I → Sum.inr j2 ∈ I → j1 = j2) ∨
    (∀ i1 i2, Sum.inl i1 ∈ I → Sum.inl i2 ∈ I → i1 = i2) := by
  by_contra hcon
  push_neg at hcon
  obtain ⟨⟨j1, j2, hj1, hj2, hj⟩, ⟨i1, i2, hi1, hi2, hi⟩⟩ := hcon
  have hsub : ({Sum.inl i1, Sum.inl i2, Sum.inr j1, Sum.inr j2} : Finset (α ⊕ β)) ⊆ I := by
    intro z hz
    simp only [Finset.mem_insert, Finset.mem_singleton] at hz
    rcases hz with rfl | rfl | rfl | rfl <;> assumption
  have hcard : ({Sum.inl i1, Sum.inl i2, Sum.inr j1, Sum.inr j2} : Finset (α ⊕ β)).card = 4 := by
    rw [Finset.card_insert_of_not_mem, Finset.card_insert_of_not_mem,
      Finset.card_insert_of_not_mem, Finset.card_singleton]
    · simp [hj]
    · simp
    · simp [hi]
  have := Finset.card_le_card hsub
  omega

omit [LinearOrderedField K] in
/-- The mirror image of `halfplanes_meet_one_sided`. -/
theorem halfplanes_meet_other_sided {α β : Type} (I : Finset (α ⊕ β))
    (F : α ⊕ β → Set (K × K))
    (x0 : K × K) (hx0 : ∀ j, x0 ∈ F (Sum.inr j))
    (hmeet : ∀ i, ∃ y, (∀ j, y ∈ F (Sum.inr j)) ∧ y ∈ F (Sum.inl i))
    (hone : ∀ i1 i2, Sum.inl i1 ∈ I → Sum.inl i2 ∈ I → i1 = i2) :
    (⋂ i ∈ I, F i).Nonempty := by
  by_cases hex : ∃ i, Sum.inl i ∈ I
  · obtain ⟨i, hi⟩ := hex
    obtain ⟨y, hy1, hy2⟩ := hmeet i
    refine ⟨y, ?_⟩
    simp only [Set.mem_iInter]
    intro k hk
    cases k with
    | inl i2 => rw [hone i2 i hk hi]; exact hy2
    | inr j => exact hy1 j
  · refine ⟨x0, ?_⟩
    simp only [Set.mem_iInter]
    intro k hk
    cases k with
    | inl i2 => exact absurd ⟨i2, hk⟩ hex
    | inr j => exact hx0 j

/-- Helly's theorem for the edge half-planes of two convex polygons: if each polygon
has an interior point and, for every edge of either polygon, some vertex of the other
polygon is strictly on its inner side, then the two interiors have a common point. -/
theorem PolygonBase.interiors_meet (ops : Ops K) (pa pb : PolygonBase K)
    (hca : pa.IsConvex ops) (hcb : pb.IsConvex ops)
    (xa : Vec2 K) (hxa : pa.InInterior ops xa) (xb : Vec2 K) (hxb : pb.InInterior ops xb)
    (hab : ∀ i, i < pa.GetWorldVertices.length →
      ∃ j, j < pb.GetWorldVertices.length ∧ pa.edgeDistance ops i (pb.GetWorldVertice j) < 0)
    (hba : ∀ i, i < pb.GetWorldVertices.length →
      ∃ j, j < pa.GetWorldVertices.length ∧ pb.edgeDistance ops i (pa.GetWorldVertice j) < 0) :
    ∃ x, pa.InInterior ops x ∧ pb.InInterior ops x := by
  classical
  have hconv : ∀ i ∈ (Finset.univ :
      Finset (Fin pa.GetWorldVertices.length ⊕ Fin pb.GetWorldVertices.length)),
      Convex K (Sum.elim
        (fun i : Fin pa.GetWorldVertices.length =>
          {z : K × K | pa.edgeDistance ops i ⟨z.1, z.2⟩ < 0})
        (fun j : Fin pb.GetWorldVertices.length =>
          {z : K × K | pb.edgeDistance ops j ⟨z.1, z.2⟩ < 0}) i) := by
    rintro (i | j) _
    · exact PolygonBase.convex_halfplane ops pa i
    · exact PolygonBase.convex_halfplane ops pb j
  have hmeetA : ∀ j : Fin pb.GetWorldVertices.length, ∃ y : K × K,
      (∀ i : Fin pa.GetWorldVertices.length, pa.edgeDistance ops i ⟨y.1, y.2⟩ < 0) ∧
      pb.edgeDistance ops j ⟨y.1, y.2⟩ < 0 := by
    intro j
    obtain ⟨k, hk, hlt⟩ := hba j j.2
    obtain ⟨y, hy1, hy2⟩ := PolygonBase.interior_meets_halfplane ops pa pb hca xa hxa j k hk hlt
    exact ⟨(y.X, y.Y), fun i => hy1 i i.2, hy2⟩
  have hmeetB : ∀ i : Fin pa.GetWorldVertices.length, ∃ y : K × K,
      (∀ j : Fin pb.GetWorldVertices.length, pb.edgeDistance ops j ⟨y.1, y.2⟩ < 0) ∧
      pa.edgeDistance ops i ⟨y.1, y.2⟩ < 0 := by
    intro i
    obtain ⟨k, hk, hlt⟩ := hab i i.2
    obtain ⟨y, hy1, hy2⟩ := PolygonBase.interior_meets_halfplane ops pb pa hcb xb hxb i k hk hlt
    exact ⟨(y.X, y.Y), fun j => hy1 j j.2, hy2⟩
  have hne := Convex.helly_theorem' hconv (by
    intro I _ hcard
    have h3 : I.card ≤ 3 := by
      rw [Module.finrank_prod, Module.finrank_self] at hcard
      exact hcard
    rcases at_most_one_side I h3 with hone | hone
    · exact halfplanes_meet_one_sided I _ (xa.X, xa.Y) (fun i => hxa i i.2) hmeetA hone
    · exact halfplanes_meet_other_sided I _ (xb.X, xb.Y) (fun j => hxb j j.2) hmeetB hone)
  obtain ⟨z, hz⟩ := hne
  simp only [Set.mem_iInter] at hz
  refine ⟨⟨z.1, z.2⟩, fun i hi => ?_, fun j hj => ?_⟩
  · exact hz (Sum.inl ⟨i, hi⟩) (Finset.mem_univ _)
  · exact hz (Sum.inr ⟨j, hj⟩) (Finset.mem_univ _)

theorem findMinSeparation_nonneg_iff (ops : Ops K) (s s2 : PolygonBase K) :
    0 ≤ (s.FindMinSeparation ops s2).1 ↔
      ∃ i, i < s.GetWorldVertices.length ∧
        ∀ j, j < s2.GetWorldVertices.length →
          0 ≤ s.edgeDistance ops i (s2.GetWorldVertice j) := by
  rw [← not_lt, findMinSeparation_neg_iff]
  push_neg
  rfl

/-- C3. For two convex polygons with no zero-length edge, outward edge normals and
non-empty interiors, `IsCollidingPolygonPolygon` reports a collision if and only if
the interiors of the two polygons have a common point; it reports no collision
exactly when `FindMinSeparation` is non-negative in one of the two directions, that is
when the line of some edge of one polygon has every vertex of the other polygon on
its outer side (a separating axis). -/
theorem sat_iff_interiors_intersect (ops : Ops K) (hops : ops.Exact) (h : Store K) (a b : Nat)
    (pa pb : PolygonBase K) (contacts : List (Contact K))
    (ha : (h a).Shape.asPolygon = some pa) (hb : (h b).Shape.asPolygon = some pb)
    (hca : pa.IsConvex ops) (hcb : pb.IsConvex ops)
    (hia : ∃ x, pa.InInterior ops x) (hib : ∃ x, pb.InInterior ops x) :
    ((IsCollidingPolygonPolygon ops h a b contacts).1 = true ↔
      ∃ x, pa.InInterior ops x ∧ pb.InInterior ops x) ∧
    ((IsCollidingPolygonPolygon ops h a b contacts).1 = false ↔
      0 ≤ (pa.FindMinSeparation ops pb).1 ∨ 0 ≤ (pb.FindMinSeparation ops pa).1) ∧
    (0 ≤ (pa.FindMinSeparation ops pb).1 ↔
      ∃ i, i < pa.GetWorldVertices.length ∧
        ∀ j, j < pb.GetWorldVertices.length →
          0 ≤ pa.edgeDistance ops i (pb.GetWorldVertice j)) ∧
    (0 ≤ (pb.FindMinSeparation ops pa).1 ↔
      ∃ i, i < pb.GetWorldVertices.length ∧
        ∀ j, j < pa.GetWorldVertices.length →
          0 ≤ pb.edgeDistance ops i (pa.GetWorldVertice j)) := by
  have hiff := isCollidingPolygonPolygon_iff ops h a b pa pb contacts ha hb
  refine ⟨?_, ?_, findMinSeparation_nonneg_iff ops pa pb, findMinSeparation_nonneg_iff ops pb pa⟩
  · rw [hiff, findMinSeparation_neg_iff, findMinSeparation_neg_iff]
    constructor
    · rintro ⟨hab, hba⟩
      obtain ⟨xa, hxa⟩ := hia
      obtain ⟨xb, hxb⟩ := hib
      exact PolygonBase.interiors_meet ops pa pb hca hcb xa hxa xb hxb hab hba
    · rintro ⟨x, hxa, hxb⟩
      constructor
      · intro i hi
        exact PolygonBase.exists_vertex_neg hops pb (by have := hcb.1; omega) hcb.2.1 x hxb
          (pa.GetWorldVertice i) ((pa.EdgeAt i).Normal ops) (hxa i hi)
      · intro i hi
        exact PolygonBase.exists_vertex_neg hops pa (by have := hca.1; omega) hca.2.1 x hxa
          (pb.GetWorldVertice i) ((pb.EdgeAt i).Normal ops) (hxb i hi)
  · rw [← Bool.not_eq_true, hiff, not_and_or, not_lt, not_lt]

theorem sat_iff_interiors_intersect_witness :
    (IsCollidingPolygonPolygon (Ops.mk Real.sqrt Real.sin Real.cos)
        (twoBodies (NewBody (Ops.mk Real.sqrt Real.sin Real.cos) (NewBoxShape 2 2) 1 1 1)
          (NewBody (Ops.mk Real.sqrt Real.sin Real.cos) (NewBoxShape 2 2) 2 2 1)) 0 1 []).1 = true ↔
      ∃ x : Vec2 ℝ,
        PolygonBase.InInterior (Ops.mk Real.sqrt Real.sin Real.cos)
          ⟨[⟨-1, -1⟩, ⟨1, -1⟩, ⟨1, 1⟩, ⟨-1, 1⟩], [⟨0, 0⟩, ⟨2, 0⟩, ⟨2, 2⟩, ⟨0, 2⟩]⟩ x ∧
        PolygonBase.InInterior (Ops.mk Real.sqrt Real.sin Real.cos)
          ⟨[⟨-1, -1⟩, ⟨1, -1⟩, ⟨1, 1⟩, ⟨-1, 1⟩], [⟨1, 1⟩, ⟨3, 1⟩, ⟨3, 3⟩, ⟨1, 3⟩]⟩ x :=
  (sat_iff_interiors_intersect (Ops.mk Real.sqrt Real.sin Real.cos) real_ops_exact
    (twoBodies (NewBody (Ops.mk Real.sqrt Real.sin Real.cos) (NewBoxShape 2 2) 1 1 1)
      (NewBody (Ops.mk Real.sqrt Real.sin Real.cos) (NewBoxShape 2 2) 2 2 1)) 0 1
    ⟨[⟨-1, -1⟩, ⟨1, -1⟩, ⟨1, 1⟩, ⟨-1, 1⟩], [⟨0, 0⟩, ⟨2, 0⟩, ⟨2, 2⟩, ⟨0, 2⟩]⟩
    ⟨[⟨-1, -1⟩, ⟨1, -1⟩, ⟨1, 1⟩, ⟨-1, 1⟩], [⟨1, 1⟩, ⟨3, 1⟩, ⟨3, 3⟩, ⟨1, 3⟩]⟩ []
    (by
      norm_num [twoBodies, NewBody, NewBoxShape, Shape.UpdateVertices,
        PolygonBase.UpdateVertices, Vec2.Rotate, Vec2.Add, Shape.asPolygon])
    (by
      norm_num [twoBodies, NewBody, NewBoxShape, Shape.UpdateVertices,
        PolygonBase.UpdateVertices, Vec2.Rotate, Vec2.Add, Shape.asPolygon])
    (by
      refine ⟨by simp [PolygonBase.GetWorldVertices], ?_, ?_⟩
      · intro i hi
        simp only [PolygonBase.GetWorldVertices, List.length_cons, List.length_nil] at hi
        interval_cases i <;> norm_num [PolygonBase.EdgeAt, vertexAt, Vec2.Sub]
      · intro i hi j hj
        simp only [PolygonBase.GetWorldVertices, List.length_cons, List.length_nil] at hi hj
        interval_cases i <;> interval_cases j <;>
          norm_num [PolygonBase.edgeDistance, PolygonBase.GetWorldVertice, PolygonBase.EdgeAt,
            vertexAt, Vec2.Normal, Vec2.Normalize, Vec2.Length, Vec2.Dot, Vec2.Sub, Vec2.Divn,
            real_sqrt_four])
    (by
      refine ⟨by simp [PolygonBase.GetWorldVertices], ?_, ?_⟩
      · intro i hi
        simp only [PolygonBase.GetWorldVertices, List.length_cons, List.length_nil] at hi
        interval_cases i <;> norm_num [PolygonBase.EdgeAt, vertexAt, Vec2.Sub]
      · intro i hi j hj
        simp only [PolygonBase.GetWorldVertices, List.length_cons, List.length_nil] at hi hj
        interval_cases i <;> interval_cases j <;>
          norm_num [PolygonBase.edgeDistance, PolygonBase.GetWorldVertice, PolygonBase.EdgeAt,
            vertexAt, Vec2.Normal, Vec2.Normalize, Vec2.Length, Vec2.Dot, Vec2.Sub, Vec2.Divn,
            real_sqrt_four])
    ⟨⟨1, 1⟩, by
      intro i hi
      simp only [PolygonBase.GetWorldVertices, List.length_cons, List.length_nil] at hi
      interval_cases i <;>
        norm_num [PolygonBase.edgeDistance, PolygonBase.GetWorldVertice, PolygonBase.EdgeAt,
          vertexAt, Vec2.Normal, Vec2.Normalize, Vec2.Length, Vec2.Dot, Vec2.Sub, Vec2.Divn,
          real_sqrt_four]⟩
    ⟨⟨2, 2⟩, by
      intro i hi
      simp only [PolygonBase.GetWorldVertices, List.length_cons, List.length_nil] at hi
      interval_cases i <;>
        norm_num [PolygonBase.edgeDistance, PolygonBase.GetWorldVertice, PolygonBase.EdgeAt,
          vertexAt, Vec2.Normal, Vec2.Normalize, Vec2.Length, Vec2.Dot, Vec2.Sub, Vec2.Divn,
          real_sqrt_four]⟩).1

/-! ## Body construction and force integration -/

/-- C17. `NewBody` derives `InvMass = 1/mass` when `mass != 0` and `0` when `mass = 0`,
`I = shape.GetMomentOfInertia() * mass`, and `InvI = 1/I` when `I != 0` and `0`
otherwise; `IsStatic` holds exactly when `|InvMass| < 0.005`; so every body created
with mass 0 is static. -/
theorem newBody_derived (ops : Ops K) (shape : Shape K) (x y mass : K) (b : Body K) :
    ((NewBody ops shape x y mass).InvMass = if mass ≠ 0 then 1 / mass else 0) ∧
    (NewBody ops shape x y mass).I = shape.GetMomentOfInertia * mass ∧
    ((NewBody ops shape x y mass).InvI =
      if shape.GetMomentOfInertia * mass ≠ 0 then 1 / (shape.GetMomentOfInertia * mass) else 0) ∧
    (NewBody ops shape x y mass).Mass = mass ∧
    (NewBody ops shape x y mass).Position = ⟨x, y⟩ ∧
    (b.IsStatic = true ↔ |b.InvMass| < 5 / 1000) ∧
    (NewBody ops shape x y 0).InvMass = 0 ∧
    (NewBody ops shape x y 0).IsStatic = true := by
  refine ⟨rfl, rfl, rfl, rfl, rfl, ?_, ?_, ?_⟩
  · simp [Body.IsStatic]
  · simp [NewBody]
  · simp [NewBody, Body.IsStatic]

/-- C14. For a non-static body `IntegrateForces(dt)` sets
`Acceleration = SumForces * InvMass`, `Velocity = Velocity + Acceleration * dt`,
`AngularAcceleration = sumTorque * InvI` and
`AngularVelocity = AngularVelocity + AngularAcceleration * dt`, and leaves `Position`
and `Rotation` unchanged; for a static body it changes no field. -/
theorem integrateForces_spec (b : Body K) (dt : K) :
    (b.IsStatic = false →
      (b.IntegrateForces dt).Acceleration = b.SumForces.Muln b.InvMass ∧
      (b.IntegrateForces dt).Velocity =
        b.Velocity.Add ((b.SumForces.Muln b.InvMass).Muln dt) ∧
      (b.IntegrateForces dt).AngularAcceleration = b.sumTorque * b.InvI ∧
      (b.IntegrateForces dt).AngularVelocity =
        b.AngularVelocity + b.sumTorque * b.InvI * dt ∧
      (b.IntegrateForces dt).Position = b.Position ∧
      (b.IntegrateForces dt).Rotation = b.Rotation) ∧
    (b.IsStatic = true → b.IntegrateForces dt = b) := by
  constructor
  · intro hb
    simp [Body.IntegrateForces, hb, Body.ClearFore, Body.ClearTorque]
  · intro hb
    simp [Body.IntegrateForces, hb]

/-- C15 (amended). After `IntegrateForces(dt)` on a non-static body the accumulated
force is the zero vector and the accumulated torque is 0. -/
theorem integrateForces_clears (b : Body K) (dt : K) (hb : b.IsStatic = false) :
    (b.IntegrateForces dt).SumForces = ⟨0, 0⟩ ∧ (b.IntegrateForces dt).sumTorque = 0 := by
  simp [Body.IntegrateForces, hb, Body.ClearFore, Body.ClearTorque]

theorem integrateForces_clears_witness :
    (((NewBody (Ops.mk Real.sqrt Real.sin Real.cos) (NewCircleShape 1) 0 0 1).AddFore
        ⟨3, 4⟩).IntegrateForces 1).SumForces = ⟨0, 0⟩ ∧
    (((NewBody (Ops.mk Real.sqrt Real.sin Real.cos) (NewCircleShape 1) 0 0 1).AddFore
        ⟨3, 4⟩).IntegrateForces 1).sumTorque = 0 :=
  integrateForces_clears _ 1 (by
    simp [NewBody, Body.AddFore, Body.IsStatic]
    norm_num)

/-- C15 (counterexample). A static body keeps its accumulated force and torque through
`IntegrateForces`: the body of mass 0 with force `(3, 4)` and torque `2` added still
has `SumForces = (3, 4)` and `sumTorque = 2` afterwards. -/
theorem integrateForces_static_keeps_forces :
    ((((NewBody (Ops.mk Real.sqrt Real.sin Real.cos) (NewCircleShape 1) 0 0 0).AddFore
        ⟨3, 4⟩).AddTorque 2).IntegrateForces 1).SumForces = ⟨3, 4⟩ ∧
    ((((NewBody (Ops.mk Real.sqrt Real.sin Real.cos) (NewCircleShape 1) 0 0 0).AddFore
        ⟨3, 4⟩).AddTorque 2).IntegrateForces 1).sumTorque = 2 ∧
    (⟨3, 4⟩ : Vec2 ℝ) ≠ ⟨0, 0⟩ := by
  refine ⟨?_, ?_, ?_⟩
  · simp [NewBody, Body.AddFore, Body.AddTorque, Body.IntegrateForces, Body.IsStatic, Vec2.Add]
  · simp [NewBody, Body.AddFore, Body.AddTorque, Body.IntegrateForces, Body.IsStatic]
  · simp

/-- C20. The box inertia factor is not `(w^2 + h^2)/12`: the code returns
`0.083333 * (w*w + h + h)`, with `h + h` in place of `h*h`; for `w = 2`, `h = 4` it
returns `0.999996` and not `5/3`. -/
theorem box_inertia_factor :
    (∀ w h : ℚ, (NewBoxShape w h).GetMomentOfInertia = 83333 / 1000000 * (w * w + h + h)) ∧
    (NewBoxShape (2 : ℚ) 4).GetMomentOfInertia = 999996 / 1000000 ∧
    (NewBoxShape (2 : ℚ) 4).GetMomentOfInertia ≠ ((2 : ℚ) ^ 2 + 4 ^ 2) / 12 := by
  refine ⟨fun w h => rfl, ?_, ?_⟩
  · norm_num [NewBoxShape, Shape.GetMomentOfInertia]
  · norm_num [NewBoxShape, Shape.GetMomentOfInertia]

/-! ## Penetration constraint: accumulated impulses -/

theorem Vec.elem_set_one_zero (l : Vec K) (x : K) : Vec.elem (l.set 1 x) 0 = Vec.elem l 0 := by
  cases l with
  | nil => rfl
  | cons a t => cases t <;> rfl

theorem Vec.elem_set_zero_zero (l : Vec K) : Vec.elem (l.set 0 0) 0 = 0 := by
  cases l <;> rfl

/-- C11. After a call of `PenetrationConstraint.Solve` the accumulated normal impulse
`cachedLambda[0]` is non-negative, and the impulse applied to the bodies in that call
is `Jᵀ` times the difference between the clamped accumulated impulse after the call
and the accumulated impulse before it. -/
theorem penetration_solve_clamps (c : PenetrationConstraint K) (h : Store K) :
    0 ≤ Vec.elem (c.Solve h).1.cachedLambda 0 ∧
    (c.Solve h).2 = c.base.applyImpulses h
      (Mat.Mulv (Mat.Transpose c.Jacobian)
        (Vec.Sub (c.Solve h).1.cachedLambda c.cachedLambda)) := by
  refine ⟨?_, rfl⟩
  simp only [PenetrationConstraint.Solve]
  split_ifs with h1 h2 h2
  · rw [Vec.elem_set_one_zero, Vec.elem_set_zero_zero]
  · rw [Vec.elem_set_one_zero]; exact not_lt.mp h2
  · rw [Vec.elem_set_zero_zero]
  · exact not_lt.mp h2

/-- C12. The friction impulse is not clamped: `NewPenetrationConstraint` sets the field
`friction` to 0 and `PreSolve` computes `max(a.Friction, b.Friction)` into a local
variable only, so the test `c.friction > 0` in `Solve` fails.  For two unit circles of
mass 1 centred at `(0, 0)` and `(0, 2)`, touching at `(0, 1)` with normal `(0, 1)`,
friction `0.7` each, the first sliding with velocity `(1, 0)`, one `PreSolve` and one
`Solve` give `cachedLambda = [0, 1/6]`, outside `± cachedLambda[0] * 0.7 = 0`. -/
theorem penetration_friction_unclamped :
    ((((slidingContact (Ops.mk Real.sqrt Real.sin Real.cos)).PreSolve
          (Ops.mk Real.sqrt Real.sin Real.cos) 1
          (slidingCircles (Ops.mk Real.sqrt Real.sin Real.cos))).1.Solve
        ((slidingContact (Ops.mk Real.sqrt Real.sin Real.cos)).PreSolve
          (Ops.mk Real.sqrt Real.sin Real.cos) 1
          (slidingCircles (Ops.mk Real.sqrt Real.sin Real.cos))).2).1.cachedLambda
      = [0, 1 / 6]) ∧
    max (slidingCircles (Ops.mk Real.sqrt Real.sin Real.cos) 0).Friction
      (slidingCircles (Ops.mk Real.sqrt Real.sin Real.cos) 1).Friction = 7 / 10 ∧
    ¬ ((1 / 6 : ℝ) ≤ 0 * (7 / 10)) := by
  have hA : slidingCircles (Ops.mk Real.sqrt Real.sin Real.cos) 0 =
      { Position := ⟨0, 0⟩, Velocity := ⟨1, 0⟩, Acceleration := ⟨0, 0⟩, Rotation := 0,
        AngularVelocity := 0, AngularAcceleration := 0, SumForces := ⟨0, 0⟩, sumTorque := 0,
        Mass := 1, InvMass := 1, I := 1 / 2, InvI := 2, Restitution := 1, Friction := 7 / 10,
        Shape := .circle 1 } := by
    norm_num [slidingCircles, twoBodies, NewBody, NewCircleShape, Shape.GetMomentOfInertia,
      Shape.UpdateVertices, Body.ApplyImpulseLinear, Body.IsStatic, Vec2.Add, Vec2.Muln]
  have hB : slidingCircles (Ops.mk Real.sqrt Real.sin Real.cos) 1 =
      { Position := ⟨0, 2⟩, Velocity := ⟨0, 0⟩, Acceleration := ⟨0, 0⟩, Rotation := 0,
        AngularVelocity := 0, AngularAcceleration := 0, SumForces := ⟨0, 0⟩, sumTorque := 0,
        Mass := 1, InvMass := 1, I := 1 / 2, InvI := 2, Restitution := 1, Friction := 7 / 10,
        Shape := .circle 1 } := by
    norm_num [slidingCircles, twoBodies, NewBody, NewCircleShape, Shape.GetMomentOfInertia,
      Shape.UpdateVertices]
  have hc : slidingContact (Ops.mk Real.sqrt Real.sin Real.cos) =
      { base := { a := 0, b := 1, aPoint := ⟨0, 1⟩, bPoint := ⟨0, -1⟩ }
        Jacobian := [[0, 0, 0, 0, 0, 0], [0, 0, 0, 0, 0, 0]], cachedLambda := [0, 0],
        bias := 0, normal := ⟨0, 1⟩, friction := 0 } := by
    simp only [slidingContact, NewPenetrationConstraint, hA, hB]
    norm_num [Body.WorldSpaceToLocalSpace, Vec2.Sub, NewMat, List.replicate]
  have hp : ((slidingContact (Ops.mk Real.sqrt Real.sin Real.cos)).PreSolve
      (Ops.mk Real.sqrt Real.sin Real.cos) 1
      (slidingCircles (Ops.mk Real.sqrt Real.sin Real.cos))).1 =
      { base := { a := 0, b := 1, aPoint := ⟨0, 1⟩, bPoint := ⟨0, -1⟩ }
        Jacobian := [[0, -1, 0, 0, 1, 0], [-1, 0, 1, 1, 0, 1]], cachedLambda := [0, 0],
        bias := 0, normal := ⟨0, 1⟩, friction := 0 } := by
    simp only [PenetrationConstraint.PreSolve, hc, hA, hB]
    norm_num [Body.LocalSpaceToWorldSpace, Vec2.Rotate, Vec2.Sub, Vec2.Add, Vec2.Cross,
      Vec2.Dot, Vec2.Muln, Vec2.Normal, Vec2.Normalize, Vec2.Length, Vec2.Divn]
  have hs0 : ((slidingContact (Ops.mk Real.sqrt Real.sin Real.cos)).PreSolve
      (Ops.mk Real.sqrt Real.sin Real.cos) 1
      (slidingCircles (Ops.mk Real.sqrt Real.sin Real.cos))).2 0 =
      slidingCircles (Ops.mk Real.sqrt Real.sin Real.cos) 0 := by
    simp only [PenetrationConstraint.PreSolve, hc, ConstraintBase.applyImpulses, Store.modify]
    norm_num [Function.update, hc, hA, Body.ApplyImpulseLinear, Body.ApplyImpulseAngular,
      Body.IsStatic, Mat.Mulv, Mat.Transpose, Mat.Nrows, Mat.Ncols, Mat.row, Vec.elem, Vec.Dot,
      List.range_succ, Vec2.Add, Vec2.Muln]
  have hs1 : ((slidingContact (Ops.mk Real.sqrt Real.sin Real.cos)).PreSolve
      (Ops.mk Real.sqrt Real.sin Real.cos) 1
      (slidingCircles (Ops.mk Real.sqrt Real.sin Real.cos))).2 1 =
      slidingCircles (Ops.mk Real.sqrt Real.sin Real.cos) 1 := by
    simp only [PenetrationConstraint.PreSolve, hc, ConstraintBase.applyImpulses, Store.modify]
    norm_num [Function.update, hc, hB, Body.ApplyImpulseLinear, Body.ApplyImpulseAngular,
      Body.IsStatic, Mat.Mulv, Mat.Transpose, Mat.Nrows, Mat.Ncols, Mat.row, Vec.elem, Vec.Dot,
      List.range_succ, Vec2.Add, Vec2.Muln]
  refine ⟨?_, ?_, by norm_num⟩
  · simp only [PenetrationConstraint.Solve, hp, ConstraintBase.GetVelocities,
      ConstraintBase.GetInvM, hs0, hs1, hA, hB]
    norm_num [Mat.Mul, Mat.Mulv, Mat.Transpose, Mat.Nrows, Mat.Ncols, Mat.row,
      Mat.SolveGaussSeidel, gaussSeidelSweep, Vec.elem, Vec.Add, Vec.Sub, Vec.Muln, Vec.Dot,
      Clamp, List.range_succ]
  · rw [hA, hB]; norm_num

/-! ## One step of a single falling body -/

/-- `World.Update` on a world holding one body and nothing else: weight, force
integration and velocity integration of that body. -/
theorem World.update_single (ops : Ops K)
    (isColliding : Store K → Nat → Nat → Bool × Contact K) (g dt : K) (p : Nat) (h : Store K) :
    (World.Update ops isColliding dt ((NewWorld g).AddBody p) h).2 =
      Store.modify
        (Store.modify
          (Store.modify h p (fun b => b.AddFore ⟨0, (h p).Mass * -g * PIXELS_PER_METER⟩))
          p (fun b => b.IntegrateForces dt))
        p (fun b => b.IntegrateVelocities ops dt) := by
  simp [World.Update, NewWorld, World.AddBody, World.applyForces, World.detectCollisions,
    forEachConstraint, World.solveOnce, List.range_succ]

theorem Body.integrateForces_of_not_static (b : Body K) (dt : K) (hb : b.IsStatic = false) :
    b.IntegrateForces dt =
      { b with
        Acceleration := b.SumForces.Muln b.InvMass
        Velocity := b.Velocity.Add ((b.SumForces.Muln b.InvMass).Muln dt)
        AngularAcceleration := b.sumTorque * b.InvI
        AngularVelocity := b.AngularVelocity + b.sumTorque * b.InvI * dt
        SumForces := ⟨0, 0⟩
        sumTorque := 0 } := by
  simp [Body.IntegrateForces, hb, Body.ClearFore, Body.ClearTorque]

theorem Body.integrateVelocities_of_not_static (ops : Ops K) (b : Body K) (dt : K)
    (hb : b.IsStatic = false) :
    b.IntegrateVelocities ops dt =
      { b with
        Position := b.Position.Add (b.Velocity.Muln dt)
        Rotation := b.Rotation + b.AngularVelocity * dt
        Shape := b.Shape.UpdateVertices ops (b.Rotation + b.AngularVelocity * dt)
          (b.Position.Add (b.Velocity.Muln dt)) } := by
  simp [Body.IntegrateVelocities, hb]

/-- C13. In a world created by `NewWorld(g)` that holds a single non-static body with
zero accumulated force and torque (and `InvMass = 1/Mass`, as `NewBody` sets it), no
world forces and no constraints, one `Update(dt)` sets the body's `Velocity` to
`v + (0, -g*50)*dt`, whatever the mass, then `Position` to `p + Velocity_new*dt` and
`Rotation` to `Rotation + AngularVelocity*dt`, and leaves `AngularVelocity` unchanged. -/
theorem update_gravity (ops : Ops K) (isColliding : Store K → Nat → Nat → Bool × Contact K)
    (g dt : K) (p : Nat) (h : Store K)
    (hs : (h p).IsStatic = false) (hm : (h p).InvMass = 1 / (h p).Mass)
    (hf : (h p).SumForces = ⟨0, 0⟩) (ht : (h p).sumTorque = 0) :
    ((World.Update ops isColliding dt ((NewWorld g).AddBody p) h).2 p).Velocity =
      (h p).Velocity.Add ((⟨0, -g * 50⟩ : Vec2 K).Muln dt) ∧
    ((World.Update ops isColliding dt ((NewWorld g).AddBody p) h).2 p).Position =
      (h p).Position.Add
        (((World.Update ops isColliding dt ((NewWorld g).AddBody p) h).2 p).Velocity.Muln dt) ∧
    ((World.Update ops isColliding dt ((NewWorld g).AddBody p) h).2 p).Rotation =
      (h p).Rotation + (h p).AngularVelocity * dt ∧
    ((World.Update ops isColliding dt ((NewWorld g).AddBody p) h).2 p).AngularVelocity =
      (h p).AngularVelocity := by
  rw [World.update_single]
  simp only [Store.modify_same]
  have hmass : (h p).Mass ≠ 0 := by
    intro h0
    rw [h0, div_zero] at hm
    have := Body.isStatic_of_invMass_zero hm
    rw [hs] at this
    exact Bool.false_ne_true this
  have hs1 : ((h p).AddFore ⟨0, (h p).Mass * -g * PIXELS_PER_METER⟩).IsStatic = false := hs
  rw [Body.integrateForces_of_not_static _ dt hs1]
  rw [Body.integrateVelocities_of_not_static ops _ dt (by exact hs)]
  generalize h p = b at hs hm hf ht hmass hs1 ⊢
  simp only [Body.AddFore, hf, ht, hm, Vec2.Add, Vec2.Muln, PIXELS_PER_METER, zero_mul,
    add_zero, zero_add, Vec2.mk.injEq, true_and, and_true]
  field_simp
  ring

theorem update_gravity_witness :
    ((World.Update (Ops.mk Real.sqrt Real.sin Real.cos) (fun _ a b => (false, ⟨a, b, ⟨0, 0⟩, ⟨0, 0⟩, ⟨0, 0⟩, 0⟩)) 1
        ((NewWorld 10).AddBody 0)
        (fun _ => NewBody (Ops.mk Real.sqrt Real.sin Real.cos) (NewCircleShape 1) 0 0 2)).2 0).Velocity =
      (NewBody (Ops.mk Real.sqrt Real.sin Real.cos) (NewCircleShape 1) 0 0 2).Velocity.Add
        ((⟨0, -10 * 50⟩ : Vec2 ℝ).Muln 1) :=
  (update_gravity (Ops.mk Real.sqrt Real.sin Real.cos)
    (fun _ a b => (false, ⟨a, b, ⟨0, 0⟩, ⟨0, 0⟩, ⟨0, 0⟩, 0⟩)) 10 1 0
    (fun _ => NewBody (Ops.mk Real.sqrt Real.sin Real.cos) (NewCircleShape 1) 0 0 2)
    (by simp [NewBody, Body.IsStatic]; norm_num [abs_of_pos])
    (by simp [NewBody]) rfl rfl).1

/-! ## Invariants of the bodies under the calls of a client -/

omit [LinearOrderedField K] in
theorem Store.modify_pred (P : Body K → Prop) (h : Store K) (p q : Nat) (f : Body K → Body K)
    (hf : ∀ b : Body K, P b → P (f b)) (hp : P (h p)) : P (Store.modify h q f p) := by
  by_cases hpq : p = q
  · subst hpq; rw [Store.modify_same]; exact hf _ hp
  · rw [Store.modify_other _ _ hpq]; exact hp

omit [LinearOrderedField K] in
theorem Store.foldl_pred {α : Type} (P : Body K → Prop) (p : Nat) (step : Store K → α → Store K)
    (hstep : ∀ (h : Store K) (x : α), P (h p) → P (step h x p))
    (l : List α) (h : Store K) (hp : P (h p)) : P (l.foldl step h p) := by
  induction l generalizing h with
  | nil => exact hp
  | cons x xs ih => rw [List.foldl_cons]; exact ih _ (hstep h x hp)

omit [LinearOrderedField K] in
theorem forEachConstraint_pred {C : Type} (P : Body K → Prop) (p : Nat)
    (f : C → Store K → C × Store K)
    (hf : ∀ (c : C) (h : Store K), P (h p) → P ((f c h).2 p))
    (cs : List C) (h : Store K) (hp : P (h p)) : P ((forEachConstraint f cs h).2 p) := by
  induction cs generalizing h with
  | nil => exact hp
  | cons c cs ih =>
    simp only [forEachConstraint]
    exact ih _ (hf c h hp)

theorem ConstraintBase.applyImpulses_pred (P : Body K → Prop)
    (hL : ∀ (b : Body K) (j : Vec2 K), P b → P (b.ApplyImpulseLinear j))
    (hA : ∀ (b : Body K) (j : K), P b → P (b.ApplyImpulseAngular j))
    (c : ConstraintBase K) (h : Store K) (impulses : Vec K) (p : Nat) (hp : P (h p)) :
    P (c.applyImpulses h impulses p) := by
  unfold ConstraintBase.applyImpulses
  exact Store.modify_pred P _ p c.b _ (fun b hb => hA b _ hb)
    (Store.modify_pred P _ p c.b _ (fun b hb => hL b _ hb)
      (Store.modify_pred P _ p c.a _ (fun b hb => hA b _ hb)
        (Store.modify_pred P _ p c.a _ (fun b hb => hL b _ hb) hp)))

theorem Constraint.preSolve_pred (P : Body K → Prop)
    (hL : ∀ (b : Body K) (j : Vec2 K), P b → P (b.ApplyImpulseLinear j))
    (hA : ∀ (b : Body K) (j : K), P b → P (b.ApplyImpulseAngular j))
    (ops : Ops K) (dt : K) (p : Nat) (c : Constraint K) (h : Store K) (hp : P (h p)) :
    P ((c.PreSolve ops dt h).2 p) := by
  cases c with
  | joint j => exact ConstraintBase.applyImpulses_pred P hL hA _ _ _ _ hp
  | penetration q => exact ConstraintBase.applyImpulses_pred P hL hA _ _ _ _ hp

theorem Constraint.solve_pred (P : Body K → Prop)
    (hL : ∀ (b : Body K) (j : Vec2 K), P b → P (b.ApplyImpulseLinear j))
    (hA : ∀ (b : Body K) (j : K), P b → P (b.ApplyImpulseAngular j))
    (p : Nat) (c : Constraint K) (h : Store K) (hp : P (h p)) : P ((c.Solve h).2 p) := by
  cases c with
  | joint j => exact ConstraintBase.applyImpulses_pred P hL hA _ _ _ _ hp
  | penetration q => exact ConstraintBase.applyImpulses_pred P hL hA _ _ _ _ hp

omit [LinearOrderedField K] in
theorem Constraint.postSolve_pred (P : Body K → Prop) (p : Nat) (c : Constraint K)
    (h : Store K) (hp : P (h p)) : P ((c.PostSolve h).2 p) := by
  cases c <;> exact hp

theorem World.solveLoop_pred (P : Body K → Prop)
    (hL : ∀ (b : Body K) (j : Vec2 K), P b → P (b.ApplyImpulseLinear j))
    (hA : ∀ (b : Body K) (j : K), P b → P (b.ApplyImpulseAngular j))
    (p : Nat) (n : List Nat)
    (st : List (Constraint K) × List (PenetrationConstraint K) × Store K)
    (hp : P (st.2.2 p)) :
    P ((n.foldl (fun st _ => World.solveOnce st) st).2.2 p) := by
  induction n generalizing st with
  | nil => exact hp
  | cons x xs ih =>
    rw [List.foldl_cons]
    refine ih _ ?_
    unfold World.solveOnce
    exact forEachConstraint_pred P p PenetrationConstraint.Solve
      (fun c h hh => ConstraintBase.applyImpulses_pred P hL hA _ _ _ _ hh) _ _
      (forEachConstraint_pred P p Constraint.Solve
        (fun c h hh => Constraint.solve_pred P hL hA p c h hh) _ _ hp)

/-- A property of bodies that every body method called by `World.Update` preserves is
preserved, at every address, by `World.Update`. -/
theorem World.update_pred (P : Body K → Prop) (ops : Ops K)
    (hF : ∀ (b : Body K) (f : Vec2 K), P b → P (b.AddFore f))
    (hT : ∀ (b : Body K) (t : K), P b → P (b.AddTorque t))
    (hL : ∀ (b : Body K) (j : Vec2 K), P b → P (b.ApplyImpulseLinear j))
    (hA : ∀ (b : Body K) (j : K), P b → P (b.ApplyImpulseAngular j))
    (hIF : ∀ (b : Body K) (dt : K), P b → P (b.IntegrateForces dt))
    (hIV : ∀ (b : Body K) (dt : K), P b → P (b.IntegrateVelocities ops dt))
    (isColliding : Store K → Nat → Nat → Bool × Contact K) (dt : K) (w : World K) (p : Nat)
    (h : Store K) (hp : P (h p)) :
    P ((World.Update ops isColliding dt w h).2 p) := by
  dsimp only [World.Update]
  refine Store.foldl_pred P p _
    (fun h body hh => Store.modify_pred P h p body _ (fun b hb => hIV b _ hb) hh) w.bodies _ ?_
  refine forEachConstraint_pred P p PenetrationConstraint.PostSolve (fun c h hh => hh) _ _ ?_
  refine forEachConstraint_pred P p Constraint.PostSolve
    (fun c h hh => Constraint.postSolve_pred P p c h hh) _ _ ?_
  refine World.solveLoop_pred P hL hA p (List.range 5) _ ?_
  refine forEachConstraint_pred P p (PenetrationConstraint.PreSolve ops dt)
    (fun c h hh => ConstraintBase.applyImpulses_pred P hL hA _ _ _ _ hh) _ _ ?_
  refine forEachConstraint_pred P p (Constraint.PreSolve ops dt)
    (fun c h hh => Constraint.preSolve_pred P hL hA ops dt p c h hh) _ _ ?_
  refine Store.foldl_pred P p _
    (fun h body hh => Store.modify_pred P h p body _ (fun b hb => hIF b _ hb) hh) w.bodies _ ?_
  unfold World.applyForces
  refine Store.foldl_pred P p _ ?_ w.bodies h hp
  intro h body hh
  refine Store.foldl_pred P p _
    (fun h torque hh => Store.modify_pred P h p body _ (fun b hb => hT b _ hb) hh) w.torques _ ?_
  refine Store.foldl_pred P p _
    (fun h force hh => Store.modify_pred P h p body _ (fun b hb => hF b _ hb) hh) w.forces _ ?_
  exact Store.modify_pred P h p body _ (fun b hb => hF b _ hb) hh

theorem runCalls_pred (P : Body K → Prop) (ops : Ops K)
    (hF : ∀ (b : Body K) (f : Vec2 K), P b → P (b.AddFore f))
    (hT : ∀ (b : Body K) (t : K), P b → P (b.AddTorque t))
    (hL : ∀ (b : Body K) (j : Vec2 K), P b → P (b.ApplyImpulseLinear j))
    (hA : ∀ (b : Body K) (j : K), P b → P (b.ApplyImpulseAngular j))
    (hAP : ∀ (b : Body K) (j r : Vec2 K), P b → P (b.ApplyImpulseAtPoint j r))
    (hIF : ∀ (b : Body K) (dt : K), P b → P (b.IntegrateForces dt))
    (hIV : ∀ (b : Body K) (dt : K), P b → P (b.IntegrateVelocities ops dt))
    (isColliding : Store K → Nat → Nat → Bool × Contact K) (p : Nat) (calls : List (Call K))
    (st : World K × Store K) (hp : P (st.2 p)) :
    P ((runCalls ops isColliding calls st).2 p) := by
  unfold runCalls
  induction calls generalizing st with
  | nil => exact hp
  | cons c cs ih =>
    rw [List.foldl_cons]
    refine ih _ ?_
    cases c with
    | AddFore body force => exact Store.modify_pred P _ p body _ (fun b hb => hF b _ hb) hp
    | AddTorque body torque => exact Store.modify_pred P _ p body _ (fun b hb => hT b _ hb) hp
    | ApplyImpulseLinear body j =>
      exact Store.modify_pred P _ p body _ (fun b hb => hL b _ hb) hp
    | ApplyImpulseAngular body j =>
      exact Store.modify_pred P _ p body _ (fun b hb => hA b _ hb) hp
    | ApplyImpulseAtPoint body j r =>
      exact Store.modify_pred P _ p body _ (fun b hb => hAP b _ _ hb) hp
    | IntegrateForces body dt =>
      exact Store.modify_pred P _ p body _ (fun b hb => hIF b _ hb) hp
    | IntegrateVelocities body dt =>
      exact Store.modify_pred P _ p body _ (fun b hb => hIV b _ hb) hp
    | WorldUpdate dt =>
      exact World.update_pred P ops hF hT hL hA hIF hIV isColliding dt st.1 p st.2 hp
    | WorldAddBody body => exact hp
    | WorldAddConstraint constraint => exact hp
    | WorldAddForce force => exact hp

/-! ## The world-vertex cache -/

theorem Body.verticesFresh_congr (ops : Ops K) {b c : Body K} (hs : c.Shape = b.Shape)
    (hr : c.Rotation = b.Rotation) (hp : c.Position = b.Position)
    (hb : b.VerticesFresh ops) : c.VerticesFresh ops := by
  unfold Body.VerticesFresh at hb ⊢
  rw [hs, hr, hp]
  exact hb

/-- The cache is fresh right after `UpdateVertices(Rotation, Position)`. -/
theorem Body.verticesFresh_of_update (ops : Ops K) (b : Body K) (s : Pikuma.Shape K)
    (hs : b.Shape = s.UpdateVertices ops b.Rotation b.Position) : b.VerticesFresh ops := by
  unfold Body.VerticesFresh
  rw [hs]
  cases s with
  | circle r => simp [Shape.UpdateVertices, Shape.asPolygon]
  | polygon q =>
    simp only [Shape.UpdateVertices, Shape.asPolygon, PolygonBase.UpdateVertices]
    intro i hi
    simp [vertexAt, List.getElem?_append_left, hi, List.getElem?_eq_getElem hi]
  | box q w h =>
    simp only [Shape.UpdateVertices, Shape.asPolygon, PolygonBase.UpdateVertices]
    intro i hi
    simp [vertexAt, List.getElem?_append_left, hi, List.getElem?_eq_getElem hi]

theorem Body.verticesFresh_integrateVelocities (ops : Ops K) (b : Body K) (dt : K)
    (hb : b.VerticesFresh ops) : (b.IntegrateVelocities ops dt).VerticesFresh ops := by
  unfold Body.IntegrateVelocities
  split
  · exact hb
  · exact Body.verticesFresh_of_update ops _ b.Shape rfl

/-- C16 (amended). The world-vertex cache invariant, for a body whose fields are written
only by `NewBody` and by the body and world methods (`AddFore`, `AddTorque`, the
`ApplyImpulse` methods, `IntegrateForces`, `IntegrateVelocities`, `World.Update`,
`World.AddBody`, `World.AddConstraint`, `World.AddForce`), never by a direct write to
`Position` or `Rotation`: for every polygon or box body (a circle has no cache), right
after `NewBody` and after every sequence of `World.Update` and body calls,
`WorldVertices[i] = LocalVertices[i].Rotate(Rotation) + Position` for every vertex index
`i`. -/
theorem vertices_fresh (ops : Ops K) (isColliding : Store K → Nat → Nat → Bool × Contact K)
    (shape : Shape K) (x y mass : K) (p : Nat) (w : World K) (h : Store K)
    (calls : List (Call K)) :
    (NewBody ops shape x y mass).VerticesFresh ops ∧
    ((runCalls ops isColliding calls
      (w, Function.update h p (NewBody ops shape x y mass))).2 p).VerticesFresh ops ∧
    ∀ dt : K, ((World.Update ops isColliding dt w
      (Function.update h p (NewBody ops shape x y mass))).2 p).VerticesFresh ops := by
  have h0 : (NewBody ops shape x y mass).VerticesFresh ops :=
    Body.verticesFresh_of_update ops _ shape rfl
  have hF : ∀ (b : Body K) (f : Vec2 K), b.VerticesFresh ops → (b.AddFore f).VerticesFresh ops :=
    fun b f hb => Body.verticesFresh_congr ops rfl rfl rfl hb
  have hT : ∀ (b : Body K) (t : K), b.VerticesFresh ops → (b.AddTorque t).VerticesFresh ops :=
    fun b t hb => Body.verticesFresh_congr ops rfl rfl rfl hb
  have hL : ∀ (b : Body K) (j : Vec2 K), b.VerticesFresh ops →
      (b.ApplyImpulseLinear j).VerticesFresh ops := by
    intro b j hb
    unfold Body.ApplyImpulseLinear
    split
    · exact hb
    · exact Body.verticesFresh_congr ops rfl rfl rfl hb
  have hA : ∀ (b : Body K) (j : K), b.VerticesFresh ops →
      (b.ApplyImpulseAngular j).VerticesFresh ops := by
    intro b j hb
    unfold Body.ApplyImpulseAngular
    split
    · exact hb
    · exact Body.verticesFresh_congr ops rfl rfl rfl hb
  have hAP : ∀ (b : Body K) (j r : Vec2 K), b.VerticesFresh ops →
      (b.ApplyImpulseAtPoint j r).VerticesFresh ops := by
    intro b j r hb
    unfold Body.ApplyImpulseAtPoint
    split
    · exact hb
    · exact Body.verticesFresh_congr ops rfl rfl rfl hb
  have hIF : ∀ (b : Body K) (dt : K), b.VerticesFresh ops →
      (b.IntegrateForces dt).VerticesFresh ops := by
    intro b dt hb
    unfold Body.IntegrateForces
    split
    · exact hb
    · exact Body.verticesFresh_congr ops rfl rfl rfl hb
  have hIV : ∀ (b : Body K) (dt : K), b.VerticesFresh ops →
      (b.IntegrateVelocities ops dt).VerticesFresh ops :=
    fun b dt hb => Body.verticesFresh_integrateVelocities ops b dt hb
  have hp : ((w, Function.update h p (NewBody ops shape x y mass)).2 p).VerticesFresh ops := by
    simp only [Function.update_same]; exact h0
  refine ⟨h0, ?_, ?_⟩
  · exact runCalls_pred (Body.VerticesFresh ops) ops hF hT hL hA hAP hIF hIV isColliding p calls
      _ hp
  · intro dt
    exact World.update_pred (Body.VerticesFresh ops) ops hF hT hL hA hIF hIV isColliding dt w p
      _ hp

/-! ## Projection and impulse methods (lesson17-3, lesson19) -/

theorem Vec2.sub_ne_zero {p q : Vec2 K} (hne : p ≠ q) : q.Sub p ≠ ⟨0, 0⟩ := by
  intro h0
  apply hne
  have hx : q.X - p.X = 0 := congrArg Vec2.X h0
  have hy : q.Y - p.Y = 0 := congrArg Vec2.Y h0
  cases p; cases q
  simp only [Vec2.mk.injEq] at hx hy ⊢
  constructor <;> linarith

theorem Vec2.divn_length_unit {ops : Ops K} (hops : ops.Exact) {v : Vec2 K}
    (hv : v ≠ ⟨0, 0⟩) : (v.Divn (v.Length ops)).Dot (v.Divn (v.Length ops)) = 1 := by
  have hLpos := Vec2.length_pos hops hv
  have hLL := Vec2.length_mul_self hops v
  unfold Vec2.Divn Vec2.Dot
  simp only
  unfold Vec2.Dot at hLL
  field_simp
  linarith

theorem Vec2.length_muln_unit {ops : Ops K} (hops : ops.Exact) {n : Vec2 K}
    (hn : n.Dot n = 1) {t : K} (ht : 0 ≤ t) : (n.Muln t).Length ops = t := by
  have : (n.Muln t).Dot (n.Muln t) = t * t := by
    unfold Vec2.Dot at hn ⊢
    simp only [Vec2.Muln]
    linear_combination (t * t) * hn
  unfold Vec2.Length
  rw [this]
  exact hops.sqrt_mul_self_eq ht

/-- C19. For two colliding circle bodies with non-negative radii, distinct centres and
non-negative inverse masses that are not both static, the contact computed by
`IsCollidingCircleCircle` followed by `ResolvePenetration` moves `a` by `-Normal*da`
and `b` by `Normal*db` with `da : db = InvMassA : InvMassB`, and leaves the distance
between the centres equal to `ra + rb`, which is at least the distance before. -/
theorem resolve_penetration_circles (ops : Ops K) (hops : ops.Exact) (h : Store K)
    (a b : Nat) (ra rb : K)
    (ha : (h a).Shape.asCircle = some ra) (hb : (h b).Shape.asCircle = some rb)
    (hra : 0 ≤ ra) (hrb : 0 ≤ rb) (hne : (h a).Position ≠ (h b).Position)
    (hma : 0 ≤ (h a).InvMass) (hmb : 0 ≤ (h b).InvMass)
    (hst : ((h a).IsStatic && (h b).IsStatic) = false)
    (hcol : (Lesson17.IsCollidingCircleCircle ops h a b).1 = true) :
    ∃ (c : Lesson21.Contact K) (h1 : Store K),
      Lesson17.IsCollidingCircleCircle ops h a b = (true, c) ∧
      Lesson17.ResolvePenetration c h = some h1 ∧
      (h1 a).Position = (h a).Position.Sub (c.Normal.Muln
        (c.Depth / ((h a).InvMass + (h b).InvMass) * (h a).InvMass)) ∧
      (h1 b).Position = (h b).Position.Add (c.Normal.Muln
        (c.Depth / ((h a).InvMass + (h b).InvMass) * (h b).InvMass)) ∧
      c.Depth / ((h a).InvMass + (h b).InvMass) * (h a).InvMass * (h b).InvMass =
        c.Depth / ((h a).InvMass + (h b).InvMass) * (h b).InvMass * (h a).InvMass ∧
      c.Normal.Dot c.Normal = 1 ∧
      ((h1 b).Position.Sub (h1 a).Position).Length ops = ra + rb ∧
      ((h b).Position.Sub (h a).Position).Length ops ≤
        ((h1 b).Position.Sub (h1 a).Position).Length ops := by
  have hab : a ≠ b := by
    intro e; apply hne; rw [e]
  have hba : b ≠ a := fun e => hab e.symm
  have hle : ((h b).Position.Sub (h a).Position).Dot ((h b).Position.Sub (h a).Position)
      ≤ (ra + rb) * (ra + rb) := by
    by_contra hcon
    simp [Lesson17.IsCollidingCircleCircle, ha, hb, hcon] at hcol
  have habne := Vec2.sub_ne_zero hne
  have hLpos := Vec2.length_pos hops habne
  have hLL := Vec2.length_mul_self hops ((h b).Position.Sub (h a).Position)
  have hnorm := Vec2.normalize_eq hops habne
  have hNN := Vec2.divn_length_unit hops habne
  have hsum : 0 < (h a).InvMass + (h b).InvMass := by
    rcases (add_nonneg hma hmb).lt_or_eq with hpos | hzero
    · exact hpos
    · exfalso
      have ha0 : (h a).InvMass = 0 := by linarith
      have hb0 : (h b).InvMass = 0 := by linarith
      rw [Body.isStatic_of_invMass_zero ha0, Body.isStatic_of_invMass_zero hb0] at hst
      simp at hst
  generalize hpa : (h a).Position = pa at *
  generalize hpb : (h b).Position = pb at *
  generalize hia : (h a).InvMass = ia at *
  generalize hib : (h b).InvMass = ib at *
  set L := (pb.Sub pa).Length ops with hL
  set n := (pb.Sub pa).Divn L with hn
  have hLle : L ≤ ra + rb := by
    by_contra hcon
    push_neg at hcon
    nlinarith [add_nonneg hra hrb]
  have hES : ((pa.Add (n.Muln ra)).Sub (pb.Sub (n.Muln rb))) = n.Muln (ra + rb - L) := by
    rw [hn]
    simp only [Vec2.Add, Vec2.Sub, Vec2.Muln, Vec2.Divn, Vec2.mk.injEq]
    constructor <;> field_simp <;> ring
  have hdepth : ((pa.Add (n.Muln ra)).Sub (pb.Sub (n.Muln rb))).Length ops = ra + rb - L := by
    rw [hES]; exact Vec2.length_muln_unit hops hNN (by linarith)
  have hc : Lesson17.IsCollidingCircleCircle ops h a b =
      (true, { A := some a, B := some b, Normal := n, Start := pb.Sub (n.Muln rb),
               End := pa.Add (n.Muln ra), Depth := ra + rb - L }) := by
    simp only [Lesson17.IsCollidingCircleCircle, ha, hb, hpa, hpb, hnorm]
    simp only [hle, decide_True, Bool.not_true, Bool.false_eq_true, ↓reduceIte]
    rw [hdepth]
  obtain ⟨H1, hH1⟩ : ∃ H1 : Store K, H1 =
      Store.modify
        (Store.modify h a (fun body =>
          { body with Position := body.Position.Sub (n.Muln ((ra + rb - L) / (ia + ib) * ia)) }))
        b (fun body =>
          { body with
            Position := body.Position.Add (n.Muln ((ra + rb - L) / (ia + ib) * ib)) }) :=
    ⟨_, rfl⟩
  have h1a : (H1 a).Position = pa.Sub (n.Muln ((ra + rb - L) / (ia + ib) * ia)) := by
    rw [hH1, Store.modify_other _ _ hab, Store.modify_same, hpa]
  have h1b : (H1 b).Position = pb.Add (n.Muln ((ra + rb - L) / (ia + ib) * ib)) := by
    rw [hH1, Store.modify_same, Store.modify_other _ _ hba, hpb]
  have hnew : (pb.Add (n.Muln ((ra + rb - L) / (ia + ib) * ib))).Sub
      (pa.Sub (n.Muln ((ra + rb - L) / (ia + ib) * ia))) = n.Muln (ra + rb) := by
    rw [hn]
    simp only [Vec2.Add, Vec2.Sub, Vec2.Muln, Vec2.Divn, Vec2.mk.injEq]
    constructor <;> field_simp <;> ring
  have hlen : ((H1 b).Position.Sub (H1 a).Position).Length ops = ra + rb := by
    rw [h1a, h1b, hnew]
    exact Vec2.length_muln_unit hops hNN (add_nonneg hra hrb)
  refine ⟨_, H1, hc, ?_, h1a, h1b, ?_, hNN, hlen, ?_⟩
  · simp only [Lesson17.ResolvePenetration, hst, Bool.false_eq_true, ↓reduceIte, hia, hib, hH1]
  · ring
  · rw [hlen]; exact hLle

theorem resolve_penetration_circles_witness :
    ∃ (c : Lesson21.Contact ℝ) (h1 : Store ℝ),
      Lesson17.IsCollidingCircleCircle (Ops.mk Real.sqrt Real.sin Real.cos)
        (overlappingCircles (Ops.mk Real.sqrt Real.sin Real.cos)) 0 1 = (true, c) ∧
      Lesson17.ResolvePenetration c (overlappingCircles (Ops.mk Real.sqrt Real.sin Real.cos)) =
        some h1 ∧
      ((h1 1).Position.Sub (h1 0).Position).Length (Ops.mk Real.sqrt Real.sin Real.cos) =
        10 + 10 :=
  match resolve_penetration_circles (Ops.mk Real.sqrt Real.sin Real.cos) real_ops_exact
    (overlappingCircles (Ops.mk Real.sqrt Real.sin Real.cos)) 0 1 10 10
    (by simp [overlappingCircles, twoBodies, NewBody, NewCircleShape, Shape.UpdateVertices,
      Shape.asCircle])
    (by simp [overlappingCircles, twoBodies, NewBody, NewCircleShape, Shape.UpdateVertices,
      Shape.asCircle])
    (by norm_num) (by norm_num)
    (by simp [overlappingCircles, twoBodies, NewBody])
    (by simp [overlappingCircles, twoBodies, NewBody])
    (by simp [overlappingCircles, twoBodies, NewBody])
    (by simp [overlappingCircles, twoBodies, NewBody, Body.IsStatic]; norm_num [abs_of_pos])
    (by
      norm_num [Lesson17.IsCollidingCircleCircle, overlappingCircles, twoBodies, NewBody,
        NewCircleShape, Shape.UpdateVertices, Shape.asCircle, Vec2.Sub, Vec2.Dot]) with
  | ⟨c, h1, e1, e2, _, _, _, _, e3, _⟩ => ⟨c, h1, e1, e2, e3⟩

theorem Body.invMass_ne_zero_of_not_static {b : Body K} (hb : b.IsStatic = false) :
    b.InvMass ≠ 0 := by
  intro h0
  rw [Body.isStatic_of_invMass_zero h0] at hb
  exact Bool.noConfusion hb

/-- C18. For two distinct non-static bodies of equal mass, both with restitution 1,
whose velocities are multiples of the unit contact normal (head-on), `ResolveCollision`
(with `ApplyImpulse` acting as `ApplyImpulseLinear`) exchanges the two velocities, so
the total kinetic energy and the total linear momentum are the same after the call. -/
theorem resolve_collision_swaps (applyImpulse : Body K → Vec2 K → Body K)
    (happ : ∀ (b : Body K) (j : Vec2 K), applyImpulse b j = b.ApplyImpulseLinear j)
    (c : Lesson21.Contact K) (h : Store K) (a b : Nat) (va vb : K)
    (hA : c.A = some a) (hB : c.B = some b) (hab : a ≠ b)
    (hsa : (h a).IsStatic = false) (hsb : (h b).IsStatic = false)
    (hmass : (h a).Mass = (h b).Mass) (hinv : (h a).InvMass = (h b).InvMass)
    (hra : (h a).Restitution = 1) (hrb : (h b).Restitution = 1)
    (hn : c.Normal.Dot c.Normal = 1)
    (hva : (h a).Velocity = c.Normal.Muln va) (hvb : (h b).Velocity = c.Normal.Muln vb) :
    ∃ h2 : Store K, Lesson19.ResolveCollision applyImpulse c h = some h2 ∧
      (h2 a).Velocity = (h b).Velocity ∧ (h2 b).Velocity = (h a).Velocity ∧
      (h2 a).Mass = (h a).Mass ∧ (h2 b).Mass = (h b).Mass ∧
      1 / 2 * (h2 a).Mass * (h2 a).Velocity.Dot (h2 a).Velocity +
          1 / 2 * (h2 b).Mass * (h2 b).Velocity.Dot (h2 b).Velocity =
        1 / 2 * (h a).Mass * (h a).Velocity.Dot (h a).Velocity +
          1 / 2 * (h b).Mass * (h b).Velocity.Dot (h b).Velocity ∧
      ((h2 a).Velocity.Muln (h2 a).Mass).Add ((h2 b).Velocity.Muln (h2 b).Mass) =
        ((h a).Velocity.Muln (h a).Mass).Add ((h b).Velocity.Muln (h b).Mass) := by
  have hba : b ≠ a := fun e => hab e.symm
  have hia := Body.invMass_ne_zero_of_not_static hsa
  have hst : ((h a).IsStatic && (h b).IsStatic) = false := by rw [hsa]; rfl
  obtain ⟨H1, hH1⟩ : ∃ H1 : Store K, H1 =
      Store.modify
        (Store.modify h a (fun body =>
          { body with Position := body.Position.Sub (c.Normal.Muln
            (c.Depth / ((h a).InvMass + (h b).InvMass) * (h a).InvMass)) }))
        b (fun body =>
          { body with Position := body.Position.Add (c.Normal.Muln
            (c.Depth / ((h a).InvMass + (h b).InvMass) * (h b).InvMass)) }) := ⟨_, rfl⟩
  have hRP : Lesson17.ResolvePenetration c h = some H1 := by
    simp only [Lesson17.ResolvePenetration, hA, hB, hst, Bool.false_eq_true, ↓reduceIte, hH1]
  have h1a : H1 a = { h a with Position := (h a).Position.Sub (c.Normal.Muln
      (c.Depth / ((h a).InvMass + (h b).InvMass) * (h a).InvMass)) } := by
    rw [hH1, Store.modify_other _ _ hab, Store.modify_same]
  have h1b : H1 b = { h b with Position := (h b).Position.Add (c.Normal.Muln
      (c.Depth / ((h a).InvMass + (h b).InvMass) * (h b).InvMass)) } := by
    rw [hH1, Store.modify_same, Store.modify_other _ _ hba]
  have hs1a : (H1 a).IsStatic = false := by rw [h1a]; exact hsa
  have hs1b : (H1 b).IsStatic = false := by rw [h1b]; exact hsb
  have hdot : ((c.Normal.Muln va).Sub (c.Normal.Muln vb)).Dot c.Normal = va - vb := by
    unfold Vec2.Dot at hn ⊢
    simp only [Vec2.Sub, Vec2.Muln]
    linear_combination (va - vb) * hn
  obtain ⟨H2, hH2⟩ : ∃ H2 : Store K, H2 =
      Store.modify
        (Store.modify H1 a (fun body => applyImpulse body
          (c.Normal.Muln (-(1 + min (H1 a).Restitution (H1 b).Restitution) *
            ((H1 a).Velocity.Sub (H1 b).Velocity).Dot c.Normal /
            ((H1 a).InvMass + (H1 b).InvMass)))))
        b (fun body => applyImpulse body
          ((c.Normal.Muln (-(1 + min (H1 a).Restitution (H1 b).Restitution) *
            ((H1 a).Velocity.Sub (H1 b).Velocity).Dot c.Normal /
            ((H1 a).InvMass + (H1 b).InvMass))).Muln (-1))) := ⟨_, rfl⟩
  have hRC : Lesson19.ResolveCollision applyImpulse c h = some H2 := by
    simp only [Lesson19.ResolveCollision, hRP, hA, hB, hH2]
  have hJ : -(1 + min (H1 a).Restitution (H1 b).Restitution) *
      ((H1 a).Velocity.Sub (H1 b).Velocity).Dot c.Normal / ((H1 a).InvMass + (H1 b).InvMass) =
      -(va - vb) / (h a).InvMass := by
    rw [h1a, h1b]
    dsimp only
    simp only [hra, hrb, hva, hvb, hdot, ← hinv, min_self]
    rw [div_eq_div_iff (by intro e; apply hia; linarith) hia]
    ring
  rw [hJ] at hH2
  have h2a : H2 a = (H1 a).ApplyImpulseLinear (c.Normal.Muln (-(va - vb) / (h a).InvMass)) := by
    rw [hH2, Store.modify_other _ _ hab, Store.modify_same, happ]
  have h2b : H2 b =
      (H1 b).ApplyImpulseLinear ((c.Normal.Muln (-(va - vb) / (h a).InvMass)).Muln (-1)) := by
    rw [hH2, Store.modify_same, Store.modify_other _ _ hba, happ]
  have hv2a : (H2 a).Velocity = (h b).Velocity := by
    rw [h2a, Body.applyImpulseLinear_of_exact _ _ (Or.inl hs1a), h1a, hvb]
    simp only [hva, Vec2.Add, Vec2.Muln, Vec2.mk.injEq]
    constructor <;> field_simp <;> ring
  have hv2b : (H2 b).Velocity = (h a).Velocity := by
    rw [h2b, Body.applyImpulseLinear_of_exact _ _ (Or.inl hs1b), h1b, hva]
    simp only [hvb, ← hinv, Vec2.Add, Vec2.Muln, Vec2.mk.injEq]
    constructor <;> field_simp <;> ring
  have hm2a : (H2 a).Mass = (h a).Mass := by
    rw [h2a, Body.applyImpulseLinear_of_exact _ _ (Or.inl hs1a), h1a]
  have hm2b : (H2 b).Mass = (h b).Mass := by
    rw [h2b, Body.applyImpulseLinear_of_exact _ _ (Or.inl hs1b), h1b]
  refine ⟨H2, hRC, hv2a, hv2b, hm2a, hm2b, ?_, ?_⟩
  · rw [hv2a, hv2b, hm2a, hm2b, hmass]; ring
  · rw [hv2a, hv2b, hm2a, hm2b, hmass]
    simp only [Vec2.Add, Vec2.Muln, Vec2.mk.injEq]
    constructor <;> ring

theorem resolve_collision_swaps_witness :
    ∃ h2 : Store ℝ,
      Lesson19.ResolveCollision Body.ApplyImpulseLinear
        ({ A := some 0, B := some 1, Start := ⟨1, 0⟩, End := ⟨1, 0⟩, Normal := ⟨1, 0⟩,
           Depth := 0 } : Lesson21.Contact ℝ)
        (headOnCircles (Ops.mk Real.sqrt Real.sin Real.cos)) = some h2 ∧
      (h2 0).Velocity = (headOnCircles (Ops.mk Real.sqrt Real.sin Real.cos) 1).Velocity ∧
      (h2 1).Velocity = (headOnCircles (Ops.mk Real.sqrt Real.sin Real.cos) 0).Velocity :=
  match resolve_collision_swaps (K := ℝ) Body.ApplyImpulseLinear (fun _ _ => rfl)
    { A := some 0, B := some 1, Start := ⟨1, 0⟩, End := ⟨1, 0⟩, Normal := ⟨1, 0⟩, Depth := 0 }
    (headOnCircles (Ops.mk Real.sqrt Real.sin Real.cos)) 0 1 1 (-1) rfl rfl (by decide)
    (by
      norm_num [headOnCircles, twoBodies, NewBody, Body.ApplyImpulseLinear, Body.IsStatic,
        Vec2.Add, Vec2.Muln, abs_of_pos])
    (by
      norm_num [headOnCircles, twoBodies, NewBody, Body.ApplyImpulseLinear, Body.IsStatic,
        Vec2.Add, Vec2.Muln, abs_of_pos])
    (by
      norm_num [headOnCircles, twoBodies, NewBody, Body.ApplyImpulseLinear, Body.IsStatic,
        Vec2.Add, Vec2.Muln, abs_of_pos])
    (by
      norm_num [headOnCircles, twoBodies, NewBody, Body.ApplyImpulseLinear, Body.IsStatic,
        Vec2.Add, Vec2.Muln, abs_of_pos])
    (by
      norm_num [headOnCircles, twoBodies, NewBody, Body.ApplyImpulseLinear, Body.IsStatic,
        Vec2.Add, Vec2.Muln, abs_of_pos])
    (by
      norm_num [headOnCircles, twoBodies, NewBody, Body.ApplyImpulseLinear, Body.IsStatic,
        Vec2.Add, Vec2.Muln, abs_of_pos])
    (by norm_num [Vec2.Dot])
    (by
      norm_num [headOnCircles, twoBodies, NewBody, Body.ApplyImpulseLinear, Body.IsStatic,
        Vec2.Add, Vec2.Muln, abs_of_pos])
    (by
      norm_num [headOnCircles, twoBodies, NewBody, Body.ApplyImpulseLinear, Body.IsStatic,
        Vec2.Add, Vec2.Muln, abs_of_pos]) with
  | ⟨h2, e1, e2, e3, _⟩ => ⟨h2, e1, e2, e3⟩

/-! ## Inertia of a box body, normalisation, spring force, heavy bodies -/

/-- C21. A body created by `NewBody` with a `NewBoxShape(50, 50)` shape and mass 2 has
`I = 2 * 0.083333 * (50^2 + 50 + 50) = 433.3316` and `InvI = 1/I`. -/
theorem box_body_inertia (ops : Ops K) (x y : K) :
    (NewBody ops (NewBoxShape 50 50) x y 2).I = 2 * (83333 / 1000000) * (50 ^ 2 + 50 + 50) ∧
    (NewBody ops (NewBoxShape 50 50) x y 2).I = 4333316 / 10000 ∧
    (NewBody ops (NewBoxShape 50 50) x y 2).InvI = 1 / (4333316 / 10000) := by
  have hI : (NewBody ops (NewBoxShape 50 50) x y 2).I = 4333316 / 10000 := by
    simp only [NewBody, NewBoxShape, Shape.GetMomentOfInertia]
    norm_num
  refine ⟨?_, hI, ?_⟩
  · rw [hI]; norm_num
  · have hInv : (NewBody ops (NewBoxShape 50 50) x y 2).InvI =
        if (NewBody ops (NewBoxShape 50 50) x y 2).I ≠ 0
        then 1 / (NewBody ops (NewBoxShape 50 50) x y 2).I else 0 := rfl
    rw [hInv, hI]
    norm_num

theorem Vec2.normalize_zero (ops : Ops K) : Vec2.Normalize ops (⟨0, 0⟩ : Vec2 K) = ⟨0, 0⟩ := by
  simp [Vec2.Normalize, Vec2.Divn]

theorem Vec2.normalize_muln {ops : Ops K} (hops : ops.Exact) {v : Vec2 K} (hv : v ≠ ⟨0, 0⟩) :
    v.Normalize ops = v.Muln (1 / v.Length ops) := by
  rw [Vec2.normalize_eq hops hv]
  simp only [Vec2.Divn, Vec2.Muln, Vec2.mk.injEq]
  constructor <;> ring

theorem Vec2.length_normalize {ops : Ops K} (hops : ops.Exact) {v : Vec2 K}
    (hv : v ≠ ⟨0, 0⟩) : (v.Normalize ops).Length ops = 1 := by
  rw [Vec2.normalize_eq hops hv]
  have h1 := Vec2.divn_length_unit hops hv
  have h2 : (v.Divn (v.Length ops)).Length ops =
      ops.sqrt ((v.Divn (v.Length ops)).Dot (v.Divn (v.Length ops))) := rfl
  rw [h2, h1]
  have := hops.sqrt_mul_self_eq (show (0 : K) ≤ 1 by norm_num)
  rwa [mul_one] at this

/-- C22. `Vec2.Normalize` returns the zero vector unchanged, and for a non-zero vector
`v` returns a vector of length 1 that is a positive multiple of `v`. -/
theorem normalize_spec (ops : Ops K) (hops : ops.Exact) :
    Vec2.Normalize ops (⟨0, 0⟩ : Vec2 K) = ⟨0, 0⟩ ∧
    ∀ v : Vec2 K, v ≠ ⟨0, 0⟩ →
      (v.Normalize ops).Length ops = 1 ∧ ∃ t : K, 0 < t ∧ v.Normalize ops = v.Muln t := by
  refine ⟨Vec2.normalize_zero ops, fun v hv => ⟨Vec2.length_normalize hops hv, ?_⟩⟩
  exact ⟨1 / v.Length ops, one_div_pos.mpr (Vec2.length_pos hops hv),
    Vec2.normalize_muln hops hv⟩

theorem normalize_spec_witness :
    Vec2.Normalize (Ops.mk Real.sqrt Real.sin Real.cos) (⟨0, 0⟩ : Vec2 ℝ) = ⟨0, 0⟩ ∧
    ∀ v : Vec2 ℝ, v ≠ ⟨0, 0⟩ →
      (v.Normalize (Ops.mk Real.sqrt Real.sin Real.cos)).Length
          (Ops.mk Real.sqrt Real.sin Real.cos) = 1 ∧
        ∃ t : ℝ, 0 < t ∧ v.Normalize (Ops.mk Real.sqrt Real.sin Real.cos) = v.Muln t :=
  normalize_spec (Ops.mk Real.sqrt Real.sin Real.cos) real_ops_exact

/-- C23. For `dt > 0`, `JointConstraint.PreSolve(dt)` sets
`bias = (0.2/dt) * max(0, |pb - pa|^2 - 0.01)` with `pa`, `pb` the world positions of
the two anchor points; the bias is non-negative, and is 0 whenever the squared anchor
separation is at most `0.01`. -/
theorem joint_bias (ops : Ops K) (dt : K) (c : JointConstraint K) (h : Store K)
    (hdt : 0 < dt) :
    (c.PreSolve ops dt h).1.bias =
      2 / 10 / dt * max 0
        ((((h c.base.b).LocalSpaceToWorldSpace ops c.base.bPoint).Sub
            ((h c.base.a).LocalSpaceToWorldSpace ops c.base.aPoint)).Dot
          (((h c.base.b).LocalSpaceToWorldSpace ops c.base.bPoint).Sub
            ((h c.base.a).LocalSpaceToWorldSpace ops c.base.aPoint)) - 1 / 100) ∧
    0 ≤ (c.PreSolve ops dt h).1.bias ∧
    ((((h c.base.b).LocalSpaceToWorldSpace ops c.base.bPoint).Sub
          ((h c.base.a).LocalSpaceToWorldSpace ops c.base.aPoint)).Dot
        (((h c.base.b).LocalSpaceToWorldSpace ops c.base.bPoint).Sub
          ((h c.base.a).LocalSpaceToWorldSpace ops c.base.aPoint)) ≤ 1 / 100 →
      (c.PreSolve ops dt h).1.bias = 0) := by
  have hb : (c.PreSolve ops dt h).1.bias =
      2 / 10 / dt * max 0
        ((((h c.base.b).LocalSpaceToWorldSpace ops c.base.bPoint).Sub
            ((h c.base.a).LocalSpaceToWorldSpace ops c.base.aPoint)).Dot
          (((h c.base.b).LocalSpaceToWorldSpace ops c.base.bPoint).Sub
            ((h c.base.a).LocalSpaceToWorldSpace ops c.base.aPoint)) - 1 / 100) := rfl
  refine ⟨hb, ?_, ?_⟩
  · rw [hb]
    exact mul_nonneg (div_nonneg (by norm_num) hdt.le) (le_max_left _ _)
  · intro hle
    rw [hb, max_eq_left (by linarith), mul_zero]

theorem joint_bias_witness :
    0 ≤ ((pendulumJoint (K := ℝ)).PreSolve (Ops.mk Real.sqrt Real.sin Real.cos) 1
      (pendulumStore (Ops.mk Real.sqrt Real.sin Real.cos))).1.bias :=
  (joint_bias (Ops.mk Real.sqrt Real.sin Real.cos) 1 pendulumJoint
    (pendulumStore (Ops.mk Real.sqrt Real.sin Real.cos)) (by norm_num)).2.1

/-- C28. `GenerateSpringForce` returns `d_hat * (-k * (|d| - restLength))` with
`d = Position - anchor` and `d_hat = Normalize(d)`; the force is zero when
`|d| = restLength`; for `d != 0` and `k > 0` it is a negative multiple of `d` (towards
the anchor) when the spring is stretched and a positive multiple of `d` (away from the
anchor) when it is compressed.  The method only reads the body. -/
theorem spring_force (ops : Ops K) (hops : ops.Exact) (b : Body K) (anchor : Vec2 K)
    (restLength k : K) :
    b.GenerateSpringForce ops anchor restLength k =
      ((b.Position.Sub anchor).Normalize ops).Muln
        (-k * ((b.Position.Sub anchor).Length ops - restLength)) ∧
    ((b.Position.Sub anchor).Length ops = restLength →
      b.GenerateSpringForce ops anchor restLength k = ⟨0, 0⟩) ∧
    (b.Position.Sub anchor ≠ ⟨0, 0⟩ → 0 < k →
      restLength < (b.Position.Sub anchor).Length ops →
      ∃ t : K, t < 0 ∧
        b.GenerateSpringForce ops anchor restLength k = (b.Position.Sub anchor).Muln t) ∧
    (b.Position.Sub anchor ≠ ⟨0, 0⟩ → 0 < k →
      (b.Position.Sub anchor).Length ops < restLength →
      ∃ t : K, 0 < t ∧
        b.GenerateSpringForce ops anchor restLength k = (b.Position.Sub anchor).Muln t) := by
  refine ⟨rfl, ?_, ?_, ?_⟩
  · intro hrest
    simp [Body.GenerateSpringForce, hrest, Vec2.Muln]
  · intro hd hk hlt
    have hL := Vec2.length_pos hops hd
    refine ⟨1 / (b.Position.Sub anchor).Length ops *
      (-k * ((b.Position.Sub anchor).Length ops - restLength)), ?_, ?_⟩
    · exact mul_neg_of_pos_of_neg (one_div_pos.mpr hL)
        (by nlinarith)
    · simp only [Body.GenerateSpringForce]
      rw [Vec2.normalize_muln hops hd]
      simp only [Vec2.Muln, Vec2.mk.injEq]
      constructor <;> ring
  · intro hd hk hlt
    have hL := Vec2.length_pos hops hd
    refine ⟨1 / (b.Position.Sub anchor).Length ops *
      (-k * ((b.Position.Sub anchor).Length ops - restLength)), ?_, ?_⟩
    · exact mul_pos (one_div_pos.mpr hL) (by nlinarith)
    · simp only [Body.GenerateSpringForce]
      rw [Vec2.normalize_muln hops hd]
      simp only [Vec2.Muln, Vec2.mk.injEq]
      constructor <;> ring

theorem spring_force_witness :
    (NewBody (Ops.mk Real.sqrt Real.sin Real.cos) (NewCircleShape 1) 3 4 1).GenerateSpringForce
        (Ops.mk Real.sqrt Real.sin Real.cos) ⟨0, 0⟩ 5 2 =
      (((NewBody (Ops.mk Real.sqrt Real.sin Real.cos) (NewCircleShape 1) 3 4 1).Position.Sub
          ⟨0, 0⟩).Normalize (Ops.mk Real.sqrt Real.sin Real.cos)).Muln
        (-2 * (((NewBody (Ops.mk Real.sqrt Real.sin Real.cos) (NewCircleShape 1) 3 4 1).Position.Sub
          ⟨0, 0⟩).Length (Ops.mk Real.sqrt Real.sin Real.cos) - 5)) :=
  (spring_force (Ops.mk Real.sqrt Real.sin Real.cos) real_ops_exact
    (NewBody (Ops.mk Real.sqrt Real.sin Real.cos) (NewCircleShape 1) 3 4 1) ⟨0, 0⟩ 5 2).1

/-- C29. A body created by `NewBody` with a mass greater than 200 (and a shape whose
inertia factor is not 0) has `InvMass = 1/mass`, which is not 0, yet `IsStatic` holds;
`IntegrateForces`, `IntegrateVelocities` and the three `ApplyImpulse` methods return it
unchanged, while `GetInvM` of a constraint on it still holds its non-zero `InvMass`
and `InvI`. -/
theorem heavy_body_static (ops : Ops K) (shape : Shape K) (x y mass : K)
    (hmass : 200 < mass) (hshape : shape.GetMomentOfInertia ≠ 0) :
    (NewBody ops shape x y mass).InvMass = 1 / mass ∧
    (NewBody ops shape x y mass).InvMass ≠ 0 ∧
    (NewBody ops shape x y mass).InvI = 1 / (shape.GetMomentOfInertia * mass) ∧
    (NewBody ops shape x y mass).InvI ≠ 0 ∧
    (NewBody ops shape x y mass).IsStatic = true ∧
    (∀ dt : K, (NewBody ops shape x y mass).IntegrateForces dt = NewBody ops shape x y mass) ∧
    (∀ dt : K, (NewBody ops shape x y mass).IntegrateVelocities ops dt =
      NewBody ops shape x y mass) ∧
    (∀ j : Vec2 K, (NewBody ops shape x y mass).ApplyImpulseLinear j =
      NewBody ops shape x y mass) ∧
    (∀ j : K, (NewBody ops shape x y mass).ApplyImpulseAngular j =
      NewBody ops shape x y mass) ∧
    (∀ j r : Vec2 K, (NewBody ops shape x y mass).ApplyImpulseAtPoint j r =
      NewBody ops shape x y mass) ∧
    ∀ (c : ConstraintBase K) (h : Store K), h c.a = NewBody ops shape x y mass →
      Vec.elem (Mat.row (c.GetInvM h) 0) 0 = 1 / mass ∧
      Vec.elem (Mat.row (c.GetInvM h) 1) 1 = 1 / mass ∧
      Vec.elem (Mat.row (c.GetInvM h) 2) 2 = 1 / (shape.GetMomentOfInertia * mass) := by
  have hm0 : mass ≠ 0 := by intro e; rw [e] at hmass; norm_num at hmass
  have hmpos : 0 < mass := by linarith
  have hinv : (NewBody ops shape x y mass).InvMass = 1 / mass := by
    simp [NewBody, hm0]
  have hinvI : (NewBody ops shape x y mass).InvI = 1 / (shape.GetMomentOfInertia * mass) := by
    simp [NewBody, hm0, hshape]
  have hst : (NewBody ops shape x y mass).IsStatic = true := by
    simp only [Body.IsStatic, hinv, sub_zero, decide_eq_true_eq]
    rw [abs_of_pos (one_div_pos.mpr hmpos), div_lt_div_iff₀ hmpos (by norm_num)]
    linarith
  refine ⟨hinv, ?_, hinvI, ?_, hst, ?_, ?_, ?_, ?_, ?_, ?_⟩
  · rw [hinv]; exact one_div_ne_zero hm0
  · rw [hinvI]; exact one_div_ne_zero (mul_ne_zero hshape hm0)
  · intro dt; simp only [Body.IntegrateForces, hst, ↓reduceIte]
  · intro dt; simp only [Body.IntegrateVelocities, hst, ↓reduceIte]
  · intro j; simp only [Body.ApplyImpulseLinear, hst, ↓reduceIte]
  · intro j; simp only [Body.ApplyImpulseAngular, hst, ↓reduceIte]
  · intro j r; simp only [Body.ApplyImpulseAtPoint, hst, ↓reduceIte]
  · intro c h hc
    simp only [ConstraintBase.GetInvM, Mat.row, Vec.elem, hc, hinv, hinvI]
    simp

theorem heavy_body_static_witness :
    (NewBody (Ops.mk Real.sqrt Real.sin Real.cos) (NewCircleShape 1) 0 0 1000).IsStatic = true ∧
    (NewBody (Ops.mk Real.sqrt Real.sin Real.cos) (NewCircleShape 1) 0 0 1000).InvMass ≠ 0 :=
  ⟨(heavy_body_static (Ops.mk Real.sqrt Real.sin Real.cos) (NewCircleShape 1) 0 0 1000
      (by norm_num) (by norm_num [NewCircleShape, Shape.GetMomentOfInertia])).2.2.2.2.1,
   (heavy_body_static (Ops.mk Real.sqrt Real.sin Real.cos) (NewCircleShape 1) 0 0 1000
      (by norm_num) (by norm_num [NewCircleShape, Shape.GetMomentOfInertia])).2.1⟩

/-! ## Clipping a segment against a line -/

theorem clipDistance_segment (ops : Ops K) (c0 c1 p0 p1 : Vec2 K) (t : K) :
    clipDistance ops c0 c1 (p0.Add ((p1.Sub p0).Muln t)) =
      clipDistance ops c0 c1 p0 + t * (clipDistance ops c0 c1 p1 - clipDistance ops c0 c1 p0) := by
  simp only [clipDistance, Vec2.Cross, Vec2.Sub, Vec2.Add, Vec2.Muln]
  ring

/-- The interpolation parameter of the crossing point is strictly between 0 and 1, and
the crossing point is on the clip line. -/
theorem clip_crossing {d0 d1 : K} (hx : d0 * d1 < 0) :
    0 < d0 / (d0 - d1) ∧ d0 / (d0 - d1) < 1 ∧ d0 + d0 / (d0 - d1) * (d1 - d0) = 0 := by
  rcases lt_trichotomy d0 0 with h0 | h0 | h0
  · have h1 : 0 < d1 := by
      by_contra hcon
      have := mul_nonneg_of_nonpos_of_nonpos h0.le (not_lt.mp hcon)
      linarith
    have hden : d0 - d1 < 0 := by linarith
    have hne : d0 - d1 ≠ 0 := hden.ne
    refine ⟨div_pos_of_neg_of_neg h0 hden, ?_, ?_⟩
    · rw [div_lt_one_of_neg hden]; linarith
    · field_simp; ring
  · rw [h0, zero_mul] at hx; exact absurd hx (lt_irrefl 0)
  · have h1 : d1 < 0 := by
      by_contra hcon
      have := mul_nonneg h0.le (not_lt.mp hcon)
      linarith
    have hden : 0 < d0 - d1 := by linarith
    have hne : d0 - d1 ≠ 0 := hden.ne'
    refine ⟨div_pos h0 hden, ?_, ?_⟩
    · rw [div_lt_one hden]; linarith
    · field_simp; ring

/-- The result of `ClipSegmentToLine` on a 2-point segment, by cases. -/
theorem clipSegmentToLine_eq (ops : Ops K) (p0 p1 c0 c1 : Vec2 K) :
    ClipSegmentToLine ops [p0, p1] c0 c1 =
      if clipDistance ops c0 c1 p0 ≤ 0 then
        if clipDistance ops c0 c1 p1 ≤ 0 then (2, [p0, p1])
        else if clipDistance ops c0 c1 p0 * clipDistance ops c0 c1 p1 < 0 then
          (2, [p0, p0.Add ((p1.Sub p0).Muln (clipDistance ops c0 c1 p0 /
            (clipDistance ops c0 c1 p0 - clipDistance ops c0 c1 p1)))])
        else (1, [p0, ⟨0, 0⟩])
      else
        if clipDistance ops c0 c1 p1 ≤ 0 then
          if clipDistance ops c0 c1 p0 * clipDistance ops c0 c1 p1 < 0 then
            (2, [p1, p0.Add ((p1.Sub p0).Muln (clipDistance ops c0 c1 p0 /
              (clipDistance ops c0 c1 p0 - clipDistance ops c0 c1 p1)))])
          else (1, [p1, ⟨0, 0⟩])
        else if clipDistance ops c0 c1 p0 * clipDistance ops c0 c1 p1 < 0 then
          (1, [p0.Add ((p1.Sub p0).Muln (clipDistance ops c0 c1 p0 /
            (clipDistance ops c0 c1 p0 - clipDistance ops c0 c1 p1))), ⟨0, 0⟩])
        else (0, [⟨0, 0⟩, ⟨0, 0⟩]) := by
  have e0 : ((vertexAt [p0, p1] 0).Sub c0).Cross ((c1.Sub c0).Normalize ops) =
      clipDistance ops c0 c1 p0 := rfl
  have e1 : ((vertexAt [p0, p1] 1).Sub c0).Cross ((c1.Sub c0).Normalize ops) =
      clipDistance ops c0 c1 p1 := rfl
  simp only [ClipSegmentToLine, e0, e1]
  by_cases h0 : clipDistance ops c0 c1 p0 ≤ 0 <;>
    by_cases h1 : clipDistance ops c0 c1 p1 ≤ 0 <;>
    by_cases hx : clipDistance ops c0 c1 p0 * clipDistance ops c0 c1 p1 < 0 <;>
    simp [h0, h1, hx, vertexAt, List.replicate]
  exact absurd hx (not_lt.mpr (mul_nonneg_of_nonpos_of_nonpos h0 h1))

theorem Vec2.add_muln_zero (p q : Vec2 K) : p.Add ((q.Sub p).Muln 0) = p := by
  cases p; cases q; simp [Vec2.Add, Vec2.Sub, Vec2.Muln]

theorem Vec2.add_muln_one (p q : Vec2 K) : p.Add ((q.Sub p).Muln 1) = q := by
  cases p; cases q; simp [Vec2.Add, Vec2.Sub, Vec2.Muln]

/-- C26. `ClipSegmentToLine` on a 2-point segment `[p0, p1]`: the count is at most 2 and
the output has 2 entries; the first `numOut` entries are `p0` if its signed distance
`(p0 - c0) x unit(c1 - c0)` is `<= 0`, then `p1` if its signed distance is `<= 0`, then
the interpolated crossing point if the two distances have opposite signs; the crossing
point has signed distance exactly 0; and each of these points lies on the input segment
and has signed distance `<= 0`. -/
theorem clipSegmentToLine_spec (ops : Ops K) (p0 p1 c0 c1 : Vec2 K) :
    (ClipSegmentToLine ops [p0, p1] c0 c1).1 ≤ 2 ∧
    (ClipSegmentToLine ops [p0, p1] c0 c1).2.length = 2 ∧
    (ClipSegmentToLine ops [p0, p1] c0 c1).2.take (ClipSegmentToLine ops [p0, p1] c0 c1).1 =
      (if clipDistance ops c0 c1 p0 ≤ 0 then [p0] else []) ++
      (if clipDistance ops c0 c1 p1 ≤ 0 then [p1] else []) ++
      (if clipDistance ops c0 c1 p0 * clipDistance ops c0 c1 p1 < 0 then
        [p0.Add ((p1.Sub p0).Muln (clipDistance ops c0 c1 p0 /
          (clipDistance ops c0 c1 p0 - clipDistance ops c0 c1 p1)))] else []) ∧
    (clipDistance ops c0 c1 p0 * clipDistance ops c0 c1 p1 < 0 →
      clipDistance ops c0 c1 (p0.Add ((p1.Sub p0).Muln (clipDistance ops c0 c1 p0 /
        (clipDistance ops c0 c1 p0 - clipDistance ops c0 c1 p1)))) = 0) ∧
    ∀ q ∈ (ClipSegmentToLine ops [p0, p1] c0 c1).2.take (ClipSegmentToLine ops [p0, p1] c0 c1).1,
      clipDistance ops c0 c1 q ≤ 0 ∧
      ∃ t : K, 0 ≤ t ∧ t ≤ 1 ∧ q = p0.Add ((p1.Sub p0).Muln t) := by
  have hcross : clipDistance ops c0 c1 p0 * clipDistance ops c0 c1 p1 < 0 →
      clipDistance ops c0 c1 (p0.Add ((p1.Sub p0).Muln (clipDistance ops c0 c1 p0 /
        (clipDistance ops c0 c1 p0 - clipDistance ops c0 c1 p1)))) = 0 := by
    intro hx
    rw [clipDistance_segment]
    exact (clip_crossing hx).2.2
  have hq0 : ∃ t : K, 0 ≤ t ∧ t ≤ 1 ∧ p0 = p0.Add ((p1.Sub p0).Muln t) :=
    ⟨0, le_refl _, zero_le_one, (Vec2.add_muln_zero p0 p1).symm⟩
  have hq1 : ∃ t : K, 0 ≤ t ∧ t ≤ 1 ∧ p1 = p0.Add ((p1.Sub p0).Muln t) :=
    ⟨1, zero_le_one, le_refl _, (Vec2.add_muln_one p0 p1).symm⟩
  have hqx : clipDistance ops c0 c1 p0 * clipDistance ops c0 c1 p1 < 0 →
      ∃ t : K, 0 ≤ t ∧ t ≤ 1 ∧
        p0.Add ((p1.Sub p0).Muln (clipDistance ops c0 c1 p0 /
          (clipDistance ops c0 c1 p0 - clipDistance ops c0 c1 p1))) =
        p0.Add ((p1.Sub p0).Muln t) :=
    fun hx => ⟨_, (clip_crossing hx).1.le, (clip_crossing hx).2.1.le, rfl⟩
  rw [clipSegmentToLine_eq]
  refine ⟨?_, ?_, ?_, hcross, ?_⟩
  · split_ifs <;> simp
  · split_ifs <;> simp
  · by_cases h0 : clipDistance ops c0 c1 p0 ≤ 0 <;>
      by_cases h1 : clipDistance ops c0 c1 p1 ≤ 0 <;>
      by_cases hx : clipDistance ops c0 c1 p0 * clipDistance ops c0 c1 p1 < 0 <;>
      simp [h0, h1, hx]
    exact absurd hx (not_lt.mpr (mul_nonneg_of_nonpos_of_nonpos h0 h1))
  · by_cases h0 : clipDistance ops c0 c1 p0 ≤ 0 <;>
      by_cases h1 : clipDistance ops c0 c1 p1 ≤ 0 <;>
      by_cases hx : clipDistance ops c0 c1 p0 * clipDistance ops c0 c1 p1 < 0 <;>
      simp only [h0, h1, hx, ↓reduceIte, List.take_succ_cons, List.take_zero, List.mem_cons,
        List.mem_singleton, List.not_mem_nil, or_false, forall_eq_or_imp, forall_eq,
        false_implies, implies_true, and_true] <;>
      first
        | exact ⟨⟨trivial, hq0⟩, trivial, hq1⟩
        | exact ⟨⟨trivial, hq0⟩, (hcross hx).le, hqx hx⟩
        | exact ⟨⟨trivial, hq1⟩, (hcross hx).le, hqx hx⟩
        | exact ⟨trivial, hq0⟩
        | exact ⟨trivial, hq1⟩
        | exact ⟨(hcross hx).le, hqx hx⟩

/-! ## Which bodies a contact records -/

omit [LinearOrderedField K] in
theorem no_new_contacts (a b : Nat) (contacts : List (Contact K)) :
    ∃ new : List (Contact K), contacts = contacts ++ new ∧ ∀ c ∈ new, c.A = a ∧ c.B = b :=
  ⟨[], by simp, by simp⟩

theorem appendClippedContacts_bodies (a b : Nat) (vref normal : Vec2 K) (flip : Bool)
    (pts : List (Vec2 K)) (contacts : List (Contact K)) :
    ∃ new : List (Contact K),
      appendClippedContacts a b vref normal flip pts contacts = contacts ++ new ∧
      ∀ c ∈ new, c.A = a ∧ c.B = b := by
  induction pts generalizing contacts with
  | nil => exact ⟨[], by simp [appendClippedContacts], by simp⟩
  | cons v vs ih =>
    simp only [appendClippedContacts]
    split_ifs with hsep hflip
    · obtain ⟨new, hnew, hall⟩ := ih (contacts ++ [_])
      refine ⟨_ :: new, by rw [hnew, List.append_assoc]; rfl, ?_⟩
      intro c hc
      rcases List.mem_cons.mp hc with rfl | hc
      · exact ⟨rfl, rfl⟩
      · exact hall c hc
    · obtain ⟨new, hnew, hall⟩ := ih (contacts ++ [_])
      refine ⟨_ :: new, by rw [hnew, List.append_assoc]; rfl, ?_⟩
      intro c hc
      rcases List.mem_cons.mp hc with rfl | hc
      · exact ⟨rfl, rfl⟩
      · exact hall c hc
    · exact ih contacts

theorem isCollidingCircleCircle_bodies (ops : Ops K) (h : Store K) (a b : Nat)
    (contacts : List (Contact K)) :
    ∃ new : List (Contact K),
      (IsCollidingCircleCircle ops h a b contacts).2 = contacts ++ new ∧
      ∀ c ∈ new, c.A = a ∧ c.B = b := by
  unfold IsCollidingCircleCircle
  split
  · dsimp only
    split_ifs
    · exact ⟨[], by simp, by simp⟩
    · refine ⟨[_], rfl, ?_⟩
      intro c hc
      rw [List.mem_singleton] at hc
      rw [hc]
      exact ⟨rfl, rfl⟩
  · exact ⟨[], by simp, by simp⟩

theorem isCollidingPolygonPolygon_bodies (ops : Ops K) (h : Store K) (a b : Nat)
    (contacts : List (Contact K)) :
    ∃ new : List (Contact K),
      (IsCollidingPolygonPolygon ops h a b contacts).2 = contacts ++ new ∧
      ∀ c ∈ new, c.A = a ∧ c.B = b := by
  unfold IsCollidingPolygonPolygon
  split
  · dsimp only
    split_ifs <;> first
      | exact no_new_contacts a b contacts
      | exact appendClippedContacts_bodies a b _ _ _ _ contacts
  · exact ⟨[], by simp, by simp⟩

theorem isCollidingPolygonCircle_bodies (ops : Ops K) (h : Store K) (polygon circle : Nat)
    (contacts : List (Contact K)) :
    ∃ new : List (Contact K),
      (IsCollidingPolygonCircle ops h polygon circle contacts).2 = contacts ++ new ∧
      ∀ c ∈ new, c.A = polygon ∧ c.B = circle := by
  have one : ∀ c : Contact K, c.A = polygon → c.B = circle →
      ∃ new : List (Contact K), contacts ++ [c] = contacts ++ new ∧
        ∀ c ∈ new, c.A = polygon ∧ c.B = circle := by
    intro c hA hB
    refine ⟨[c], rfl, ?_⟩
    intro d hd
    rw [List.mem_singleton] at hd
    rw [hd]
    exact ⟨hA, hB⟩
  unfold IsCollidingPolygonCircle
  split
  · dsimp only
    split_ifs <;> first
      | exact no_new_contacts polygon circle contacts
      | exact one _ rfl rfl
  · exact ⟨[], by simp, by simp⟩

/-- C27 (amended). Every contact appended by `IsColliding(a, b)` records `a` as body `A`
and `b` as body `B`, except when `a` is a circle and `b` a polygon or box: the call is
then routed to `IsCollidingPolygonCircle(b, a)` and the contact records `b` as `A` and
`a` as `B`. -/
theorem isColliding_bodies (ops : Ops K) (h : Store K) (a b : Nat)
    (contacts : List (Contact K)) :
    ∃ new : List (Contact K),
      (IsColliding ops h a b contacts).2 = contacts ++ new ∧
      ∀ c ∈ new,
        if (h a).Shape.GetType = .CIRCLE_SHAPE ∧ (h b).Shape.GetType ≠ .CIRCLE_SHAPE then
          c.A = b ∧ c.B = a
        else c.A = a ∧ c.B = b := by
  unfold IsColliding
  cases hta : (h a).Shape.GetType <;> cases htb : (h b).Shape.GetType <;>
    simp only [and_self, reduceCtorEq, and_false, false_and, or_false, or_true, false_or,
      true_or, and_true, true_and, ↓reduceIte, ne_eq, not_true_eq_false, not_false_eq_true]
  · exact isCollidingCircleCircle_bodies ops h a b contacts
  · exact isCollidingPolygonCircle_bodies ops h b a contacts
  · exact isCollidingPolygonCircle_bodies ops h b a contacts
  · exact isCollidingPolygonCircle_bodies ops h a b contacts
  · exact isCollidingPolygonPolygon_bodies ops h a b contacts
  · exact isCollidingPolygonPolygon_bodies ops h a b contacts
  · exact isCollidingPolygonCircle_bodies ops h a b contacts
  · exact isCollidingPolygonPolygon_bodies ops h a b contacts
  · exact isCollidingPolygonPolygon_bodies ops h a b contacts

/-- C27 (counterexample). A circle `a` of radius 1 centred at `(3/2, 0)` (address 0)
against a 2x2 box `b` centred at the origin (address 1): `IsColliding(a, b)` appends one
contact, which records `b` as body `A` and `a` as body `B`, with normal `(1, 0)`, from
the box towards the circle. -/
theorem isColliding_circle_polygon_swapped :
    IsColliding (Ops.mk Real.sqrt Real.sin Real.cos)
        (twoBodies (NewBody (Ops.mk Real.sqrt Real.sin Real.cos) (NewCircleShape 1) (3 / 2) 0 1)
          (NewBody (Ops.mk Real.sqrt Real.sin Real.cos) (NewBoxShape 2 2) 0 0 1)) 0 1 [] =
      (true,
        [{ A := 1, B := 0, Start := ⟨1 / 2, 0⟩, End := ⟨1, 0⟩, Normal := ⟨1, 0⟩,
           Depth := 1 / 2 }]) := by
  have hd : IsColliding (Ops.mk Real.sqrt Real.sin Real.cos)
      (twoBodies (NewBody (Ops.mk Real.sqrt Real.sin Real.cos) (NewCircleShape 1) (3 / 2) 0 1)
        (NewBody (Ops.mk Real.sqrt Real.sin Real.cos) (NewBoxShape 2 2) 0 0 1)) 0 1 [] =
      IsCollidingPolygonCircle (Ops.mk Real.sqrt Real.sin Real.cos)
        (twoBodies (NewBody (Ops.mk Real.sqrt Real.sin Real.cos) (NewCircleShape 1) (3 / 2) 0 1)
          (NewBody (Ops.mk Real.sqrt Real.sin Real.cos) (NewBoxShape 2 2) 0 0 1)) 1 0 [] := by
    simp [IsColliding, twoBodies, NewBody, NewBoxShape, NewCircleShape, Shape.UpdateVertices,
      Shape.GetType]
  rw [hd]
  norm_num [IsCollidingPolygonCircle, nearestEdgeLoop, twoBodies, NewBody, NewBoxShape,
    NewCircleShape, Shape.UpdateVertices, PolygonBase.UpdateVertices, Vec2.Rotate, Vec2.Add,
    Shape.asPolygon, Shape.asCircle, PolygonBase.GetWorldVertices, PolygonBase.EdgeAt,
    vertexAt, Vec2.Normal, Vec2.Normalize, Vec2.Length, Vec2.Dot, Vec2.Sub, Vec2.Divn,
    Vec2.Muln, MaxFloat64, List.range_succ, real_sqrt_four]

/-! ## The bias of a penetration constraint -/

/-- A point taken to the local space of a body and back to world space by a body with
the same position and rotation is the point itself. -/
theorem Body.world_local_world (ops : Ops K) (hops : ops.Exact) (b0 b : Body K)
    (hp : b.Position = b0.Position) (hr : b.Rotation = b0.Rotation) (p : Vec2 K) :
    b.LocalSpaceToWorldSpace ops (b0.WorldSpaceToLocalSpace ops p) = p := by
  have h1 := hops.sin_sq_add_cos_sq b0.Rotation
  have hs := hops.sin_neg b0.Rotation
  have hc := hops.cos_neg b0.Rotation
  obtain ⟨x, y⟩ := p
  simp only [Body.WorldSpaceToLocalSpace, Body.LocalSpaceToWorldSpace, Vec2.Rotate,
    Vec2.Add, Vec2.Sub, hs, hc, hp, hr, Vec2.mk.injEq]
  constructor
  · linear_combination (x - b0.Position.X) * h1
  · linear_combination (y - b0.Position.Y) * h1

/-- C24. For `dt > 0`, `PenetrationConstraint.PreSolve(dt)` sets
`bias = (0.2/dt) * min(0, (pa - pb)·n + 0.01)`, where `pa`, `pb` and `n` are the two
anchor points and the normal taken to world space; the bias is never positive.  For the
constraint `NewPenetrationConstraint(a, b, start, end, normal)` built in the store `h0`
with a unit `normal` and `end - start = depth * normal`, pre-solved in a store `h` where
`a` and `b` have the position and rotation they had in `h0`,
`bias = (0.2/dt) * min(0, 0.01 - depth)`, which is `0` exactly when `depth <= 0.01`. -/
theorem penetration_bias (ops : Ops K) (hops : ops.Exact) (dt : K) (hdt : 0 < dt)
    (c : PenetrationConstraint K) (h h0 : Store K) (a b : Nat)
    (start end_ normal : Vec2 K) (depth : K) :
    (c.PreSolve ops dt h).1.bias =
      2 / 10 / dt * min 0
        ((((h c.base.a).LocalSpaceToWorldSpace ops c.base.aPoint).Sub
            ((h c.base.b).LocalSpaceToWorldSpace ops c.base.bPoint)).Dot
          ((h c.base.a).LocalSpaceToWorldSpace ops c.normal) + 1 / 100) ∧
    (c.PreSolve ops dt h).1.bias ≤ 0 ∧
    (normal.Dot normal = 1 → end_.Sub start = normal.Muln depth →
      (h a).Position = (h0 a).Position → (h a).Rotation = (h0 a).Rotation →
      (h b).Position = (h0 b).Position → (h b).Rotation = (h0 b).Rotation →
      ((NewPenetrationConstraint ops h0 a b start end_ normal).PreSolve ops dt h).1.bias =
          2 / 10 / dt * min 0 (1 / 100 - depth) ∧
        (((NewPenetrationConstraint ops h0 a b start end_ normal).PreSolve ops dt h).1.bias = 0 ↔
          depth ≤ 1 / 100)) := by
  have hgen : ∀ c : PenetrationConstraint K, (c.PreSolve ops dt h).1.bias =
      2 / 10 / dt * min 0
        ((((h c.base.a).LocalSpaceToWorldSpace ops c.base.aPoint).Sub
            ((h c.base.b).LocalSpaceToWorldSpace ops c.base.bPoint)).Dot
          ((h c.base.a).LocalSpaceToWorldSpace ops c.normal) + 1 / 100) := by
    intro c
    have hC : (((h c.base.b).LocalSpaceToWorldSpace ops c.base.bPoint).Sub
          ((h c.base.a).LocalSpaceToWorldSpace ops c.base.aPoint)).Dot
          (((h c.base.a).LocalSpaceToWorldSpace ops c.normal).Muln (-1)) =
        (((h c.base.a).LocalSpaceToWorldSpace ops c.base.aPoint).Sub
            ((h c.base.b).LocalSpaceToWorldSpace ops c.base.bPoint)).Dot
          ((h c.base.a).LocalSpaceToWorldSpace ops c.normal) := by
      simp only [Vec2.Dot, Vec2.Sub, Vec2.Muln]
      ring
    rw [← hC]
    rfl
  have hk : (0 : K) < 2 / 10 / dt := div_pos (by norm_num) hdt
  refine ⟨hgen c, ?_, ?_⟩
  · rw [hgen c]
    exact mul_nonpos_of_nonneg_of_nonpos hk.le (min_le_left _ _)
  · intro hn hd hpa hra hpb hrb
    have hb : ((NewPenetrationConstraint ops h0 a b start end_ normal).PreSolve ops dt h).1.bias =
        2 / 10 / dt * min 0 (1 / 100 - depth) := by
      rw [hgen]
      have e1 : (h a).LocalSpaceToWorldSpace ops ((h0 a).WorldSpaceToLocalSpace ops start) =
          start := Body.world_local_world ops hops _ _ hpa hra start
      have e2 : (h b).LocalSpaceToWorldSpace ops ((h0 b).WorldSpaceToLocalSpace ops end_) =
          end_ := Body.world_local_world ops hops _ _ hpb hrb end_
      have e3 : (h a).LocalSpaceToWorldSpace ops ((h0 a).WorldSpaceToLocalSpace ops normal) =
          normal := Body.world_local_world ops hops _ _ hpa hra normal
      have hdot : (start.Sub end_).Dot normal = -depth := by
        have hx : end_.X - start.X = normal.X * depth := by
          have := congrArg Vec2.X hd
          simpa [Vec2.Sub, Vec2.Muln] using this
        have hy : end_.Y - start.Y = normal.Y * depth := by
          have := congrArg Vec2.Y hd
          simpa [Vec2.Sub, Vec2.Muln] using this
        have hn1 : normal.X * normal.X + normal.Y * normal.Y = 1 := hn
        simp only [Vec2.Dot, Vec2.Sub]
        linear_combination (-normal.X) * hx + (-normal.Y) * hy + (-depth) * hn1
      simp only [NewPenetrationConstraint, e1, e2, e3, hdot]
      congr 2
      ring
    refine ⟨hb, ?_⟩
    rw [hb]
    constructor
    · intro h0
      rcases mul_eq_zero.mp h0 with h0 | h0
      · exact absurd h0 hk.ne.symm
      · have := min_le_right (0 : K) (1 / 100 - depth)
        rw [h0] at this
        linarith
    · intro hle
      rw [min_eq_left (by linarith), mul_zero]

/-- Witness for C24 at `K = ℝ`: the two circles of `slidingCircles` with a contact from
`(0, 1)` to `(0, 3/2)` along the normal `(0, 1)`, of depth `1/2`, and `dt = 1`. -/
theorem penetration_bias_witness :
    ((NewPenetrationConstraint (Ops.mk Real.sqrt Real.sin Real.cos)
        (slidingCircles (Ops.mk Real.sqrt Real.sin Real.cos)) 0 1 ⟨0, 1⟩ ⟨0, 3 / 2⟩
        ⟨0, 1⟩).PreSolve (Ops.mk Real.sqrt Real.sin Real.cos) 1
        (slidingCircles (Ops.mk Real.sqrt Real.sin Real.cos))).1.bias =
      2 / 10 / 1 * min 0 (1 / 100 - 1 / 2) :=
  ((penetration_bias (Ops.mk Real.sqrt Real.sin Real.cos) real_ops_exact 1 (by norm_num)
    (slidingContact (Ops.mk Real.sqrt Real.sin Real.cos))
    (slidingCircles (Ops.mk Real.sqrt Real.sin Real.cos))
    (slidingCircles (Ops.mk Real.sqrt Real.sin Real.cos)) 0 1 ⟨0, 1⟩ ⟨0, 3 / 2⟩ ⟨0, 1⟩
    (1 / 2)).2.2 (by norm_num [Vec2.Dot]) (by norm_num [Vec2.Sub, Vec2.Muln]) rfl rfl rfl
    rfl).1

/-! ## `FindMinSeparation` as a max-min -/

theorem map_vertexAt_range (l : List (Vec2 K)) :
    (List.range l.length).map (vertexAt l) = l := by
  apply List.ext_getElem
  · simp
  · intro i h1 h2
    simp [vertexAt, List.getD_eq_getElem?_getD, List.getElem?_eq_getElem h2]
theorem foldl_vertices_range {β : Type} (f : β → Vec2 K → β) (init : β) (l : List (Vec2 K)) :
    l.foldl f init = (List.range l.length).foldl (fun acc j => f acc (vertexAt l j)) init := by
  conv_lhs => rw [← map_vertexAt_range l]
  rw [List.foldl_map]

/-- A loop that keeps the first least value of `f` below the initial `M0`, with its
tag `g`. -/
theorem argminLoop_spec {α : Type} (f : Nat → K) (g : Nat → α) (M0 : K) (z0 : α) (k : Nat) :
    (∀ j < k, ((List.range k).foldl
        (fun (st : K × α) i => if f i < st.1 then (f i, g i) else st) (M0, z0)).1 ≤ f j) ∧
    ((List.range k).foldl
        (fun (st : K × α) i => if f i < st.1 then (f i, g i) else st) (M0, z0)).1 ≤ M0 ∧
    (((List.range k).foldl
        (fun (st : K × α) i => if f i < st.1 then (f i, g i) else st) (M0, z0) = (M0, z0) ∧
        ∀ j < k, M0 ≤ f j) ∨
      ∃ j < k, (List.range k).foldl
          (fun (st : K × α) i => if f i < st.1 then (f i, g i) else st) (M0, z0) = (f j, g j) ∧
        f j < M0 ∧ ∀ i < j, f j < f i) := by
  induction k with
  | zero => simp
  | succ k ih =>
    rw [List.range_succ, List.foldl_append, List.foldl_cons, List.foldl_nil]
    generalize (List.range k).foldl
      (fun (st : K × α) i => if f i < st.1 then (f i, g i) else st) (M0, z0) = r at ih ⊢
    obtain ⟨h1, h2, h3⟩ := ih
    by_cases hlt : f k < r.1
    · simp only [hlt, ↓reduceIte]
      refine ⟨?_, (hlt.trans_le h2).le, Or.inr ⟨k, Nat.lt_succ_self k, rfl, hlt.trans_le h2, ?_⟩⟩
      · intro j hj
        rcases Nat.lt_succ_iff_lt_or_eq.mp hj with hj | rfl
        · exact (hlt.trans_le (h1 j hj)).le
        · exact le_refl _
      · intro i hi
        exact hlt.trans_le (h1 i hi)
    · simp only [hlt, ↓reduceIte]
      have hle : r.1 ≤ f k := not_lt.mp hlt
      refine ⟨?_, h2, ?_⟩
      · intro j hj
        rcases Nat.lt_succ_iff_lt_or_eq.mp hj with hj | rfl
        · exact h1 j hj
        · exact hle
      · rcases h3 with ⟨hr, hall⟩ | ⟨j, hj, hr, hjM, hfirst⟩
        · left
          refine ⟨hr, ?_⟩
          intro j hj
          rcases Nat.lt_succ_iff_lt_or_eq.mp hj with hj | rfl
          · exact hall j hj
          · rw [hr] at hle
            exact hle
        · exact Or.inr ⟨j, Nat.lt_succ_of_lt hj, hr, hjM, hfirst⟩

/-- A loop that keeps the first greatest value of `f` above the initial `S0`, with its
tag `g`. -/
theorem argmaxLoop_spec {α : Type} (f : Nat → K) (g : Nat → α) (S0 : K) (z0 : α) (k : Nat) :
    (∀ j < k, f j ≤ ((List.range k).foldl
        (fun (st : K × α) i => if f i > st.1 then (f i, g i) else st) (S0, z0)).1) ∧
    (((List.range k).foldl
        (fun (st : K × α) i => if f i > st.1 then (f i, g i) else st) (S0, z0) = (S0, z0) ∧
        ∀ j < k, f j ≤ S0) ∨
      ∃ j < k, (List.range k).foldl
          (fun (st : K × α) i => if f i > st.1 then (f i, g i) else st) (S0, z0) = (f j, g j) ∧
        S0 < f j ∧ ∀ i < j, f i < f j) := by
  induction k with
  | zero => simp
  | succ k ih =>
    rw [List.range_succ, List.foldl_append, List.foldl_cons, List.foldl_nil]
    generalize (List.range k).foldl
      (fun (st : K × α) i => if f i > st.1 then (f i, g i) else st) (S0, z0) = r at ih ⊢
    obtain ⟨h1, h3⟩ := ih
    by_cases hlt : f k > r.1
    · simp only [hlt, ↓reduceIte]
      have hS : S0 < f k := by
        rcases h3 with ⟨hr, -⟩ | ⟨j, -, hr, hjS, -⟩
        · rw [hr] at hlt
          exact hlt
        · rw [hr] at hlt
          exact hjS.trans hlt
      refine ⟨?_, Or.inr ⟨k, Nat.lt_succ_self k, rfl, hS, ?_⟩⟩
      · intro j hj
        rcases Nat.lt_succ_iff_lt_or_eq.mp hj with hj | rfl
        · exact ((h1 j hj).trans_lt hlt).le
        · exact le_refl _
      · intro i hi
        exact (h1 i hi).trans_lt hlt
    · simp only [hlt, ↓reduceIte]
      have hle : f k ≤ r.1 := not_lt.mp hlt
      refine ⟨?_, ?_⟩
      · intro j hj
        rcases Nat.lt_succ_iff_lt_or_eq.mp hj with hj | rfl
        · exact h1 j hj
        · exact hle
      · rcases h3 with ⟨hr, hall⟩ | ⟨j, hj, hr, hjM, hfirst⟩
        · left
          refine ⟨hr, ?_⟩
          intro j hj
          rcases Nat.lt_succ_iff_lt_or_eq.mp hj with hj | rfl
          · exact hall j hj
          · rw [hr] at hle
            exact hle
        · exact Or.inr ⟨j, Nat.lt_succ_of_lt hj, hr, hjM, hfirst⟩

/-- The inner loop of `FindMinSeparation` for edge `i`, as a loop over the vertex
indices of the other polygon. -/
theorem minSepLoop_range (ops : Ops K) (s s2 : PolygonBase K) (i : Nat) (init : K × Vec2 K) :
    minSepLoop (s.GetWorldVertice i) ((s.EdgeAt i).Normal ops) s2.GetWorldVertices init =
      (List.range s2.GetWorldVertices.length).foldl
        (fun (st : K × Vec2 K) j =>
          if s.edgeDistance ops i (s2.GetWorldVertice j) < st.1 then
            (s.edgeDistance ops i (s2.GetWorldVertice j), s2.GetWorldVertice j)
          else st) init := by
  unfold minSepLoop
  rw [foldl_vertices_range]
  rfl

/-- One pass of the outer loop keeps the state unless the least projection of the edge
is greater than the separation so far. -/
theorem findMinSeparationStep_eq (ops : Ops K) (s s2 : PolygonBase K) (st : K × Nat × Vec2 K)
    (i : Nat) :
    findMinSeparationStep ops s s2 st i =
      if (minSepLoop (s.GetWorldVertice i) ((s.EdgeAt i).Normal ops) s2.GetWorldVertices
          (MaxFloat64, ⟨0, 0⟩)).1 > st.1 then
        ((minSepLoop (s.GetWorldVertice i) ((s.EdgeAt i).Normal ops) s2.GetWorldVertices
            (MaxFloat64, ⟨0, 0⟩)).1, i,
          (minSepLoop (s.GetWorldVertice i) ((s.EdgeAt i).Normal ops) s2.GetWorldVertices
            (MaxFloat64, ⟨0, 0⟩)).2)
      else st := by
  unfold findMinSeparationStep
  simp only
  generalize (minSepLoop (s.GetWorldVertice i) ((s.EdgeAt i).Normal ops) s2.GetWorldVertices
    (MaxFloat64, ⟨0, 0⟩)) = r
  by_cases hgt : r.1 > st.1
  · simp only [hgt, ↓reduceIte, max_self]
  · simp only [hgt, ↓reduceIte, max_eq_left (not_lt.mp hgt)]

theorem minSepLoop_fst (v normal : Vec2 K) (vs2 : List (Vec2 K)) (init : K × Vec2 K) :
    (minSepLoop v normal vs2 init).1 =
      vs2.foldl (fun m v2 => min m ((v2.Sub v).Dot normal)) init.1 := by
  unfold minSepLoop
  induction vs2 generalizing init with
  | nil => rfl
  | cons w ws ih =>
    rw [List.foldl_cons, List.foldl_cons, ih]
    congr 1
    by_cases hlt : (w.Sub v).Dot normal < init.1
    · simp only [hlt, ↓reduceIte, min_eq_right hlt.le]
    · simp only [hlt, ↓reduceIte, min_eq_left (not_lt.mp hlt)]

theorem findMinSeparationStep_fst (ops : Ops K) (s s2 : PolygonBase K)
    (st : K × Nat × Vec2 K) (i : Nat) :
    (findMinSeparationStep ops s s2 st i).1 =
      max st.1 (minSepLoop (s.GetWorldVertice i) ((s.EdgeAt i).Normal ops) s2.GetWorldVertices
        (MaxFloat64, ⟨0, 0⟩)).1 := by
  rw [findMinSeparationStep_eq]
  split_ifs with hgt
  · exact (max_eq_right hgt.le).symm
  · exact (max_eq_left (not_lt.mp hgt)).symm

/-- The separation of lesson30-3 is the value of the `math.Min`/`math.Max` formulation of
lesson19 on the same polygons. -/
theorem findMinSeparation_fst (ops : Ops K) (s s2 : PolygonBase K) :
    (s.FindMinSeparation ops s2).1 =
      Lesson19.FindMinSeparation PolygonBase.GetWorldVertices PolygonBase.GetWorldVertice
        PolygonBase.EdgeAt (Vec2.Normal ops) s s2 := by
  unfold PolygonBase.FindMinSeparation Lesson19.FindMinSeparation
  have key : ∀ (l : List Nat) (st : K × Nat × Vec2 K),
      (l.foldl (findMinSeparationStep ops s s2) st).1 =
        l.foldl (fun separation i =>
          max separation ((List.range s2.GetWorldVertices.length).foldl
            (fun minSep j =>
              min minSep (((s2.GetWorldVertice j).Sub (s.GetWorldVertice i)).Dot
                ((s.EdgeAt i).Normal ops))) MaxFloat64)) st.1 := by
    intro l
    induction l with
    | nil => intro st; rfl
    | cons i is ih =>
      intro st
      rw [List.foldl_cons, List.foldl_cons, ih, findMinSeparationStep_fst, minSepLoop_fst,
        foldl_vertices_range]
      rfl
  exact key _ _

/-- For an edge all of whose projections are below `MaxFloat64`, the inner loop returns
the least projection and the first vertex attaining it. -/
theorem minSepLoop_spec (ops : Ops K) (s s2 : PolygonBase K) (i : Nat)
    (hm : 0 < s2.GetWorldVertices.length)
    (hb : ∀ j < s2.GetWorldVertices.length,
      s.edgeDistance ops i (s2.GetWorldVertice j) < MaxFloat64) :
    (∀ j < s2.GetWorldVertices.length,
      (minSepLoop (s.GetWorldVertice i) ((s.EdgeAt i).Normal ops) s2.GetWorldVertices
        (MaxFloat64, ⟨0, 0⟩)).1 ≤ s.edgeDistance ops i (s2.GetWorldVertice j)) ∧
    ∃ j < s2.GetWorldVertices.length,
      minSepLoop (s.GetWorldVertice i) ((s.EdgeAt i).Normal ops) s2.GetWorldVertices
          (MaxFloat64, ⟨0, 0⟩) =
        (s.edgeDistance ops i (s2.GetWorldVertice j), s2.GetWorldVertice j) ∧
      ∀ j' < j, s.edgeDistance ops i (s2.GetWorldVertice j) <
        s.edgeDistance ops i (s2.GetWorldVertice j') := by
  rw [minSepLoop_range]
  obtain ⟨h1, -, h3⟩ := argminLoop_spec (fun j => s.edgeDistance ops i (s2.GetWorldVertice j))
    (fun j => s2.GetWorldVertice j) MaxFloat64 ⟨0, 0⟩ s2.GetWorldVertices.length
  refine ⟨h1, ?_⟩
  rcases h3 with ⟨-, hall⟩ | ⟨j, hj, hr, -, hfirst⟩
  · exact absurd (hb 0 hm) (not_lt.mpr (hall 0 hm))
  · exact ⟨j, hj, hr, hfirst⟩

/-- C25. For non-empty polygons `P` and `Q` whose projections
`d i j = (Q.vertex(j) - P.vertex(i))·Normal(P.EdgeAt(i))` all lie strictly between
`-MaxFloat64` and `MaxFloat64` (the two sentinels of the loops),
`P.FindMinSeparation(Q)` returns `(s, i, q)` where `s` is the least projection of edge
`i` and no edge has a greater least projection (`s` is the max over edges of the min
over vertices), `i` is the first edge whose least projection is `s`, and `q` is the
first vertex of `Q` whose projection on edge `i` is `s`.  With no condition at all, `s`
is the value of the `math.Min`/`math.Max` formulation `FindMinSeparation(P, Q)` of
lesson19, run with the polygon methods of lesson30-3. -/
theorem findMinSeparation_max_min (ops : Ops K) (s s2 : PolygonBase K)
    (hn : 0 < s.GetWorldVertices.length) (hm : 0 < s2.GetWorldVertices.length)
    (hb : ∀ i < s.GetWorldVertices.length, ∀ j < s2.GetWorldVertices.length,
      -MaxFloat64 < s.edgeDistance ops i (s2.GetWorldVertice j) ∧
        s.edgeDistance ops i (s2.GetWorldVertice j) < MaxFloat64) :
    (s.FindMinSeparation ops s2).1 =
      Lesson19.FindMinSeparation PolygonBase.GetWorldVertices PolygonBase.GetWorldVertice
        PolygonBase.EdgeAt (Vec2.Normal ops) s s2 ∧
    (s.FindMinSeparation ops s2).2.1 < s.GetWorldVertices.length ∧
    (∀ j < s2.GetWorldVertices.length,
      (s.FindMinSeparation ops s2).1 ≤
        s.edgeDistance ops (s.FindMinSeparation ops s2).2.1 (s2.GetWorldVertice j)) ∧
    (∃ j < s2.GetWorldVertices.length,
      (s.FindMinSeparation ops s2).2.2 = s2.GetWorldVertice j ∧
      s.edgeDistance ops (s.FindMinSeparation ops s2).2.1 (s2.GetWorldVertice j) =
        (s.FindMinSeparation ops s2).1 ∧
      ∀ j' < j, (s.FindMinSeparation ops s2).1 <
        s.edgeDistance ops (s.FindMinSeparation ops s2).2.1 (s2.GetWorldVertice j')) ∧
    (∀ i < s.GetWorldVertices.length, ∃ j < s2.GetWorldVertices.length,
      s.edgeDistance ops i (s2.GetWorldVertice j) ≤ (s.FindMinSeparation ops s2).1) ∧
    (∀ i < (s.FindMinSeparation ops s2).2.1, ∃ j < s2.GetWorldVertices.length,
      s.edgeDistance ops i (s2.GetWorldVertice j) < (s.FindMinSeparation ops s2).1) := by
  refine ⟨findMinSeparation_fst ops s s2, ?_⟩
  have hstep : findMinSeparationStep ops s s2 =
      fun (st : K × Nat × Vec2 K) i =>
        if (minSepLoop (s.GetWorldVertice i) ((s.EdgeAt i).Normal ops) s2.GetWorldVertices
            (MaxFloat64, ⟨0, 0⟩)).1 > st.1 then
          ((minSepLoop (s.GetWorldVertice i) ((s.EdgeAt i).Normal ops) s2.GetWorldVertices
              (MaxFloat64, ⟨0, 0⟩)).1, i,
            (minSepLoop (s.GetWorldVertice i) ((s.EdgeAt i).Normal ops) s2.GetWorldVertices
              (MaxFloat64, ⟨0, 0⟩)).2)
        else st := by
    funext st i
    exact findMinSeparationStep_eq ops s s2 st i
  have inner := fun i (hi : i < s.GetWorldVertices.length) =>
    minSepLoop_spec ops s s2 i hm (fun j hj => (hb i hi j hj).2)
  obtain ⟨o1, o2⟩ := argmaxLoop_spec
    (fun i => (minSepLoop (s.GetWorldVertice i) ((s.EdgeAt i).Normal ops) s2.GetWorldVertices
      (MaxFloat64, ⟨0, 0⟩)).1)
    (fun i => (i, (minSepLoop (s.GetWorldVertice i) ((s.EdgeAt i).Normal ops)
      s2.GetWorldVertices (MaxFloat64, ⟨0, 0⟩)).2))
    (-MaxFloat64) (0, ⟨0, 0⟩) s.GetWorldVertices.length
  have hR : s.FindMinSeparation ops s2 = (List.range s.GetWorldVertices.length).foldl
      (fun (st : K × Nat × Vec2 K) i =>
        if (minSepLoop (s.GetWorldVertice i) ((s.EdgeAt i).Normal ops) s2.GetWorldVertices
            (MaxFloat64, ⟨0, 0⟩)).1 > st.1 then
          ((minSepLoop (s.GetWorldVertice i) ((s.EdgeAt i).Normal ops) s2.GetWorldVertices
              (MaxFloat64, ⟨0, 0⟩)).1, i,
            (minSepLoop (s.GetWorldVertice i) ((s.EdgeAt i).Normal ops) s2.GetWorldVertices
              (MaxFloat64, ⟨0, 0⟩)).2)
        else st) (-MaxFloat64, 0, ⟨0, 0⟩) := by
    unfold PolygonBase.FindMinSeparation
    rw [hstep]
  rw [← hR] at o1 o2
  rcases o2 with ⟨-, hall⟩ | ⟨i, hi, hr, -, hfirst⟩
  · exfalso
    obtain ⟨-, j, hj, hj2, -⟩ := inner 0 hn
    have h0 := hall 0 hn
    simp only [hj2] at h0
    exact absurd (hb 0 hn j hj).1 (not_lt.mpr h0)
  · obtain ⟨i1, j, hj, hj2, hj3⟩ := inner i hi
    have e1 : (s.FindMinSeparation ops s2).1 = s.edgeDistance ops i (s2.GetWorldVertice j) := by
      rw [hr, hj2]
    have e2 : (s.FindMinSeparation ops s2).2.1 = i := by rw [hr]
    have e3 : (s.FindMinSeparation ops s2).2.2 = s2.GetWorldVertice j := by rw [hr, hj2]
    rw [e2, e3]
    refine ⟨hi, ?_, ⟨j, hj, rfl, e1.symm, ?_⟩, ?_, ?_⟩
    · intro j' hj'
      rw [e1]
      have := i1 j' hj'
      rw [hj2] at this
      exact this
    · intro j' hj'
      rw [e1]
      exact hj3 j' hj'
    · intro i' hi'
      obtain ⟨-, j', hj', hj2', -⟩ := inner i' hi'
      refine ⟨j', hj', ?_⟩
      have := o1 i' hi'
      simp only [hj2'] at this
      exact this
    · intro i' hi'
      obtain ⟨-, j', hj', hj2', -⟩ := inner i' (hi'.trans hi)
      refine ⟨j', hj', ?_⟩
      have := hfirst i' hi'
      simp only [hj2', hj2] at this
      rw [e1]
      exact this

/-- Witness for C25 at `K = ℝ`: the square `[0, 2]^2` against the square `[1, 3]^2`. -/
theorem findMinSeparation_max_min_witness :
    (PolygonBase.FindMinSeparation (Ops.mk Real.sqrt Real.sin Real.cos)
        (⟨[⟨-1, -1⟩, ⟨1, -1⟩, ⟨1, 1⟩, ⟨-1, 1⟩], [⟨0, 0⟩, ⟨2, 0⟩, ⟨2, 2⟩, ⟨0, 2⟩]⟩ :
          PolygonBase ℝ)
        ⟨[⟨-1, -1⟩, ⟨1, -1⟩, ⟨1, 1⟩, ⟨-1, 1⟩], [⟨1, 1⟩, ⟨3, 1⟩, ⟨3, 3⟩, ⟨1, 3⟩]⟩).1 =
      Lesson19.FindMinSeparation PolygonBase.GetWorldVertices PolygonBase.GetWorldVertice
        PolygonBase.EdgeAt (Vec2.Normal (Ops.mk Real.sqrt Real.sin Real.cos))
        (⟨[⟨-1, -1⟩, ⟨1, -1⟩, ⟨1, 1⟩, ⟨-1, 1⟩], [⟨0, 0⟩, ⟨2, 0⟩, ⟨2, 2⟩, ⟨0, 2⟩]⟩ :
          PolygonBase ℝ)
        ⟨[⟨-1, -1⟩, ⟨1, -1⟩, ⟨1, 1⟩, ⟨-1, 1⟩], [⟨1, 1⟩, ⟨3, 1⟩, ⟨3, 3⟩, ⟨1, 3⟩]⟩ ∧
    (PolygonBase.FindMinSeparation (Ops.mk Real.sqrt Real.sin Real.cos)
        (⟨[⟨-1, -1⟩, ⟨1, -1⟩, ⟨1, 1⟩, ⟨-1, 1⟩], [⟨0, 0⟩, ⟨2, 0⟩, ⟨2, 2⟩, ⟨0, 2⟩]⟩ :
          PolygonBase ℝ)
        ⟨[⟨-1, -1⟩, ⟨1, -1⟩, ⟨1, 1⟩, ⟨-1, 1⟩], [⟨1, 1⟩, ⟨3, 1⟩, ⟨3, 3⟩, ⟨1, 3⟩]⟩).2.1 <
      (PolygonBase.GetWorldVertices
        (⟨[⟨-1, -1⟩, ⟨1, -1⟩, ⟨1, 1⟩, ⟨-1, 1⟩], [⟨0, 0⟩, ⟨2, 0⟩, ⟨2, 2⟩, ⟨0, 2⟩]⟩ :
          PolygonBase ℝ)).length :=
  have hw := findMinSeparation_max_min (Ops.mk Real.sqrt Real.sin Real.cos)
    (⟨[⟨-1, -1⟩, ⟨1, -1⟩, ⟨1, 1⟩, ⟨-1, 1⟩], [⟨0, 0⟩, ⟨2, 0⟩, ⟨2, 2⟩, ⟨0, 2⟩]⟩ : PolygonBase ℝ)
    ⟨[⟨-1, -1⟩, ⟨1, -1⟩, ⟨1, 1⟩, ⟨-1, 1⟩], [⟨1, 1⟩, ⟨3, 1⟩, ⟨3, 3⟩, ⟨1, 3⟩]⟩
    (by simp [PolygonBase.GetWorldVertices]) (by simp [PolygonBase.GetWorldVertices])
    (by
      intro i hi j hj
      simp only [PolygonBase.GetWorldVertices, List.length_cons, List.length_nil] at hi hj
      interval_cases i <;> interval_cases j <;>
        norm_num [PolygonBase.edgeDistance, PolygonBase.GetWorldVertice, PolygonBase.EdgeAt,
          vertexAt, Vec2.Normal, Vec2.Normalize, Vec2.Length, Vec2.Dot, Vec2.Sub, Vec2.Divn,
          real_sqrt_four, MaxFloat64])
  ⟨hw.1, hw.2.1⟩

/-! ## Balanced impulses and linear momentum -/

theorem Vec.eq_of_length_six (v : Vec K) (hv : v.length = 6) :
    v = [Vec.elem v 0, Vec.elem v 1, Vec.elem v 2, Vec.elem v 3, Vec.elem v 4, Vec.elem v 5] := by
  match v, hv with
  | [_, _, _, _, _, _], _ => rfl

theorem Mat.mulv_transpose_two_rows (a0 a1 a2 a3 a4 a5 b0 b1 b2 b3 b4 b5 x y : K) :
    Mat.Mulv (Mat.Transpose [[a0, a1, a2, a3, a4, a5], [b0, b1, b2, b3, b4, b5]]) [x, y] =
      [x * a0 + y * b0, x * a1 + y * b1, x * a2 + y * b2, x * a3 + y * b3, x * a4 + y * b4,
        x * a5 + y * b5] := by
  simp [Mat.Mulv, Mat.Transpose, Mat.Nrows, Mat.Ncols, Mat.row, Vec.elem, Vec.Dot,
    List.range_succ]

/-- The product of the transpose of a balanced Jacobian of one or two rows with a vector
of as many multipliers is a balanced vector of impulses. -/
theorem Mat.mulv_transpose_balanced (m : Mat K) (lam : Vec K) (r : Nat)
    (hr : r = 1 ∨ r = 2) (hl : lam.length = r) (hm : m.length = r)
    (hrows : ∀ row ∈ m, row.length = 6 ∧ Vec.Balanced row) :
    Vec.Balanced (Mat.Mulv (Mat.Transpose m) lam) := by
  rcases hr with rfl | rfl
  · obtain ⟨x, rfl⟩ := List.length_eq_one.mp hl
    obtain ⟨r0, rfl⟩ := List.length_eq_one.mp hm
    obtain ⟨h6, h3, h4⟩ := hrows r0 (List.mem_singleton_self r0)
    rw [Vec.eq_of_length_six r0 h6, Mat.mulv_transpose_row]
    unfold Vec.Balanced
    simp only [Vec.elem, List.getD_cons_zero, List.getD_cons_succ] at h3 h4 ⊢
    rw [h3, h4]
    constructor <;> ring
  · obtain ⟨x, y, rfl⟩ := List.length_eq_two.mp hl
    obtain ⟨r0, r1, rfl⟩ := List.length_eq_two.mp hm
    obtain ⟨h6, h3, h4⟩ := hrows r0 (by simp)
    obtain ⟨k6, k3, k4⟩ := hrows r1 (by simp)
    rw [Vec.eq_of_length_six r0 h6, Vec.eq_of_length_six r1 k6, Mat.mulv_transpose_two_rows]
    unfold Vec.Balanced
    simp only [Vec.elem, List.getD_cons_zero, List.getD_cons_succ] at h3 h4 k3 k4 ⊢
    rw [h3, h4, k3, k4]
    constructor <;> ring

omit [LinearOrderedField K] in
theorem foldl_length_invariant {β : Type} (f : List K → β → List K) (n : Nat)
    (hf : ∀ u x, u.length = n → (f u x).length = n) (l : List β) (u : List K)
    (hu : u.length = n) : (l.foldl f u).length = n := by
  induction l generalizing u with
  | nil => exact hu
  | cons x xs ih => exact ih _ (hf u x hu)

theorem gaussSeidelSweep_length (m : Mat K) (v u : Vec K) :
    (gaussSeidelSweep m v u).length = u.length := by
  unfold gaussSeidelSweep
  apply foldl_length_invariant _ u.length _ _ u rfl
  intro w i hw
  dsimp only
  split_ifs
  · exact hw
  · rw [List.length_set]; exact hw

theorem Mat.solveGaussSeidel_length (m : Mat K) (v : Vec K) :
    (Mat.SolveGaussSeidel m v).length = v.length := by
  unfold Mat.SolveGaussSeidel
  apply foldl_length_invariant _ v.length _ _ _ (by simp)
  intro w i hw
  rw [gaussSeidelSweep_length]; exact hw

theorem Vec.add_length (v o : Vec K) : (Vec.Add v o).length = v.length := by
  simp [Vec.Add]

theorem Vec.sub_length (v o : Vec K) : (Vec.Sub v o).length = v.length := by
  simp [Vec.Sub]

theorem Vec.muln_length (v : Vec K) (n : K) : (Vec.Muln v n).length = v.length := by
  simp [Vec.Muln]

theorem Vec.elem_eq_getElem (v : Vec K) (i : Nat) (hi : i < v.length) :
    Vec.elem v i = v[i] := by
  simp [Vec.elem, List.getD_eq_getElem?_getD, List.getElem?_eq_getElem hi]

/-- Adding multipliers to the accumulated ones and subtracting the accumulated ones
again gives the multipliers back. -/
theorem Vec.add_sub_cancel (cl lam : Vec K) (hl : cl.length = lam.length) :
    Vec.Sub (Vec.Add cl lam) cl = lam := by
  apply List.ext_getElem
  · rw [Vec.sub_length, Vec.add_length, hl]
  · intro i h1 h2
    have hi : i < cl.length := by rw [hl]; exact h2
    have hadd : i < (Vec.Add cl lam).length := by rw [Vec.add_length]; exact hi
    have e1 : Vec.elem (Vec.Add cl lam) i = Vec.elem cl i + Vec.elem lam i := by
      rw [Vec.elem_eq_getElem _ _ hadd]
      simp [Vec.Add]
    simp only [Vec.Sub, List.getElem_map, List.getElem_range, e1]
    rw [Vec.elem_eq_getElem lam i h2]
    ring

/-- The multipliers `lambda` of `JointConstraint.Solve` are as many as the rows of the
Jacobian. -/
theorem JointConstraint.solve_lambda_length (c : JointConstraint K) (h : Store K)
    (hJ : c.Jacobian.length = 1) (hrows : ∀ row ∈ c.Jacobian, row.length = 6) :
    (Mat.SolveGaussSeidel
      (Mat.Mul (Mat.Mul c.Jacobian (c.base.GetInvM h)) (Mat.Transpose c.Jacobian))
      ((Vec.Muln (Mat.Mulv c.Jacobian (c.base.GetVelocities h)) (-1)).set 0
        (Vec.elem (Vec.Muln (Mat.Mulv c.Jacobian (c.base.GetVelocities h)) (-1)) 0 -
          c.bias))).length = 1 := by
  rw [Mat.solveGaussSeidel_length, List.length_set, Vec.muln_length]
  obtain ⟨r0, hr0⟩ := List.length_eq_one.mp hJ
  have h6 := hrows r0 (by rw [hr0]; exact List.mem_singleton_self r0)
  rw [hr0, Vec.eq_of_length_six r0 h6, Mat.mulv_row _ _ _ _ _ _ _ (by simp [ConstraintBase.GetVelocities])]
  rfl

theorem Constraint.preSolve_base (ops : Ops K) (dt : K) (c : Constraint K) (h : Store K) :
    (c.PreSolve ops dt h).1.base = c.base := by
  cases c <;> rfl

theorem Constraint.solve_base (c : Constraint K) (h : Store K) :
    (c.Solve h).1.base = c.base := by
  cases c <;> rfl

/-- The store after `PreSolve` is the store before it with the warm-start impulses
`Jᵀ * cachedLambda` applied, `J` being the Jacobian `PreSolve` has just computed. -/
theorem Constraint.preSolve_store (ops : Ops K) (dt : K) (c : Constraint K) (h : Store K) :
    (c.PreSolve ops dt h).2 = c.base.applyImpulses h
      (Mat.Mulv (Mat.Transpose (c.PreSolve ops dt h).1.Jacobian) c.cachedLambda) := by
  cases c <;> rfl

/-- After `PreSolve` every row of the Jacobian is balanced. -/
theorem Constraint.preSolve_balanced (ops : Ops K) (dt : K) (c : Constraint K) (h : Store K)
    (hc : c.cachedLambda.length = c.rows) : (c.PreSolve ops dt h).1.Balanced := by
  cases c with
  | joint j =>
    refine ⟨hc, rfl, ?_⟩
    intro row hrow
    have hrow1 := List.mem_singleton.mp hrow
    rw [hrow1]
    refine ⟨rfl, ?_, ?_⟩
    · simp only [Vec.elem, List.getD_cons_zero, List.getD_cons_succ, Vec2.Muln, Vec2.Sub]
      ring
    · simp only [Vec.elem, List.getD_cons_zero, List.getD_cons_succ, Vec2.Muln, Vec2.Sub]
      ring
  | penetration q =>
    refine ⟨hc, rfl, ?_⟩
    intro row hrow
    simp only [Constraint.PreSolve, Constraint.Jacobian, PenetrationConstraint.PreSolve,
      List.mem_cons, List.mem_singleton, List.not_mem_nil, or_false] at hrow
    rcases hrow with rfl | rfl
    · refine ⟨rfl, ?_, ?_⟩ <;> simp [Vec.elem]
    · split_ifs
      · refine ⟨rfl, ?_, ?_⟩ <;> simp [Vec.elem]
      · refine ⟨rfl, ?_, ?_⟩ <;> simp [Vec.elem]

/-- The store after `Solve` is the store before it with the impulses
`Jᵀ * (cachedLambda after - cachedLambda before)` applied. -/
theorem Constraint.solve_store (c : Constraint K) (h : Store K) (hc : c.Balanced) :
    (c.Solve h).2 = c.base.applyImpulses h
      (Mat.Mulv (Mat.Transpose c.Jacobian)
        (Vec.Sub (c.Solve h).1.cachedLambda c.cachedLambda)) := by
  cases c with
  | joint j =>
    obtain ⟨h1, h2, h3⟩ := hc
    have hlen := JointConstraint.solve_lambda_length j h h2 (fun row hrow => (h3 row hrow).1)
    have hcancel := Vec.add_sub_cancel j.cachedLambda _ (h1.trans hlen.symm)
    simp only [Constraint.Solve, Constraint.cachedLambda, Constraint.Jacobian, Constraint.base,
      JointConstraint.Solve]
    rw [hcancel]
  | penetration q => rfl

/-- `Solve` keeps the Jacobian and the length of `cachedLambda`. -/
theorem Constraint.solve_balanced (c : Constraint K) (h : Store K) (hc : c.Balanced) :
    (c.Solve h).1.Balanced := by
  cases c with
  | joint j =>
    obtain ⟨h1, h2, h3⟩ := hc
    refine ⟨?_, h2, h3⟩
    simp only [Constraint.Solve, Constraint.cachedLambda, JointConstraint.Solve]
    rw [Vec.add_length]
    exact h1
  | penetration q =>
    obtain ⟨h1, h2, h3⟩ := hc
    refine ⟨?_, h2, h3⟩
    simp only [Constraint.Solve, Constraint.cachedLambda, PenetrationConstraint.Solve]
    split_ifs <;> simp only [List.length_set, Vec.add_length] <;> exact h1

/-- The impulses of `Solve` are balanced. -/
theorem Constraint.solve_impulses_balanced (c : Constraint K) (h : Store K)
    (hc : c.Balanced) :
    Vec.Balanced (Mat.Mulv (Mat.Transpose c.Jacobian)
      (Vec.Sub (c.Solve h).1.cachedLambda c.cachedLambda)) := by
  have hr : c.rows = 1 ∨ c.rows = 2 := by cases c <;> simp [Constraint.rows]
  have hrows : (c.Solve h).1.rows = c.rows := by cases c <;> rfl
  refine Mat.mulv_transpose_balanced _ _ c.rows hr ?_ hc.2.1 hc.2.2
  rw [Vec.sub_length, (Constraint.solve_balanced c h hc).1, hrows]

/-- The warm-start impulses of `PreSolve` are balanced. -/
theorem Constraint.preSolve_impulses_balanced (ops : Ops K) (dt : K) (c : Constraint K)
    (h : Store K) (hc : c.cachedLambda.length = c.rows) :
    Vec.Balanced (Mat.Mulv (Mat.Transpose (c.PreSolve ops dt h).1.Jacobian) c.cachedLambda) := by
  have hr : c.rows = 1 ∨ c.rows = 2 := by cases c <;> simp [Constraint.rows]
  have hrows : (c.PreSolve ops dt h).1.rows = c.rows := by cases c <;> rfl
  have hb := Constraint.preSolve_balanced ops dt c h hc
  refine Mat.mulv_transpose_balanced _ _ c.rows hr hc ?_ hb.2.2
  rw [hb.2.1, hrows]

/-- A linear and an angular impulse on a non-static body. -/
theorem Body.applyImpulses_of_not_static (b : Body K) (j : Vec2 K) (w : K)
    (hb : b.IsStatic = false) :
    (b.ApplyImpulseLinear j).ApplyImpulseAngular w =
      { b with
        Velocity := b.Velocity.Add (j.Muln b.InvMass)
        AngularVelocity := b.AngularVelocity + w * b.InvI } := by
  have h1 := Body.applyImpulseLinear_of_exact b j (Or.inl hb)
  have hs : (b.ApplyImpulseLinear j).IsStatic = false := by
    rw [Body.isStatic_congr (b.applyImpulseLinear_invMass j).1]; exact hb
  rw [Body.applyImpulseAngular_of_exact _ _ (Or.inl hs), h1]

/-- The four impulse applications leave every mass as it was. -/
theorem ConstraintBase.applyImpulses_mass (c : ConstraintBase K) (h : Store K)
    (impulses : Vec K) (p : Nat) :
    (c.applyImpulses h impulses p).Mass = (h p).Mass := by
  have key : ∀ (h : Store K) (q : Nat) (f : Body K → Body K),
      (∀ b, (f b).Mass = b.Mass) → (Store.modify h q f p).Mass = (h p).Mass := by
    intro h q f hf
    by_cases hpq : p = q
    · subst hpq; rw [Store.modify_same]; exact hf _
    · rw [Store.modify_other _ _ hpq]
  have hl : ∀ (j : Vec2 K) (b : Body K), (b.ApplyImpulseLinear j).Mass = b.Mass := by
    intro j b; unfold Body.ApplyImpulseLinear; split_ifs <;> rfl
  have ha : ∀ (w : K) (b : Body K), (b.ApplyImpulseAngular w).Mass = b.Mass := by
    intro w b; unfold Body.ApplyImpulseAngular; split_ifs <;> rfl
  unfold ConstraintBase.applyImpulses
  rw [key _ _ _ (ha _), key _ _ _ (hl _), key _ _ _ (ha _), key _ _ _ (hl _)]

/-- Balanced impulses on two non-static bodies with `Mass * InvMass = 1` keep the total
linear momentum. -/
theorem ConstraintBase.applyImpulses_momentum (c : ConstraintBase K) (h : Store K)
    (impulses : Vec K) (hbal : Vec.Balanced impulses)
    (hA : (h c.a).IsStatic = false) (hB : (h c.b).IsStatic = false)
    (hmA : (h c.a).Mass * (h c.a).InvMass = 1) (hmB : (h c.b).Mass * (h c.b).InvMass = 1) :
    c.momentum (c.applyImpulses h impulses) = c.momentum h := by
  obtain ⟨h3, h4⟩ := hbal
  by_cases hab : c.a = c.b
  · have hBa : (h c.a).IsStatic = false := hA
    have hres : c.applyImpulses h impulses c.a =
        (((((h c.a).ApplyImpulseLinear ⟨Vec.elem impulses 0, Vec.elem impulses 1⟩).ApplyImpulseAngular
          (Vec.elem impulses 2)).ApplyImpulseLinear
            ⟨Vec.elem impulses 3, Vec.elem impulses 4⟩).ApplyImpulseAngular
          (Vec.elem impulses 5)) := by
      unfold ConstraintBase.applyImpulses
      rw [← hab]
      simp only [Store.modify_same]
    have hs1 : (((h c.a).ApplyImpulseLinear
        ⟨Vec.elem impulses 0, Vec.elem impulses 1⟩).ApplyImpulseAngular
          (Vec.elem impulses 2)).IsStatic = false := by
      rw [Body.applyImpulses_of_not_static _ _ _ hA]
      exact hA
    unfold ConstraintBase.momentum
    rw [← hab, hres, Body.applyImpulses_of_not_static _ _ _ hs1,
      Body.applyImpulses_of_not_static _ _ _ hA, h3, h4]
    simp only [Vec2.Add, Vec2.Muln, Vec2.mk.injEq]
    constructor <;> ring
  · have hresA : c.applyImpulses h impulses c.a =
        ((h c.a).ApplyImpulseLinear ⟨Vec.elem impulses 0, Vec.elem impulses 1⟩).ApplyImpulseAngular
          (Vec.elem impulses 2) := by
      unfold ConstraintBase.applyImpulses
      rw [Store.modify_other _ _ hab, Store.modify_other _ _ hab]
      simp only [Store.modify_same]
    have hresB : c.applyImpulses h impulses c.b =
        ((h c.b).ApplyImpulseLinear ⟨Vec.elem impulses 3, Vec.elem impulses 4⟩).ApplyImpulseAngular
          (Vec.elem impulses 5) := by
      unfold ConstraintBase.applyImpulses
      simp only [Store.modify_same]
      rw [Store.modify_other _ _ (Ne.symm hab), Store.modify_other _ _ (Ne.symm hab)]
    unfold ConstraintBase.momentum
    rw [hresA, hresB, Body.applyImpulses_of_not_static _ _ _ hA,
      Body.applyImpulses_of_not_static _ _ _ hB, h3, h4]
    simp only [Vec2.Add, Vec2.Muln, Vec2.mk.injEq]
    constructor
    · linear_combination (Vec.elem impulses 0) * hmA - (Vec.elem impulses 0) * hmB
    · linear_combination (Vec.elem impulses 1) * hmA - (Vec.elem impulses 1) * hmB

/-- What balanced impulses keep of two non-static bodies with `Mass * InvMass = 1`:
being non-static, the products `Mass * InvMass`, and the total linear momentum. -/
theorem ConstraintBase.applyImpulses_keeps (c : ConstraintBase K) (h : Store K)
    (impulses : Vec K) (hbal : Vec.Balanced impulses)
    (hA : (h c.a).IsStatic = false) (hB : (h c.b).IsStatic = false)
    (hmA : (h c.a).Mass * (h c.a).InvMass = 1) (hmB : (h c.b).Mass * (h c.b).InvMass = 1) :
    (c.applyImpulses h impulses c.a).IsStatic = false ∧
    (c.applyImpulses h impulses c.b).IsStatic = false ∧
    (c.applyImpulses h impulses c.a).Mass * (c.applyImpulses h impulses c.a).InvMass = 1 ∧
    (c.applyImpulses h impulses c.b).Mass * (c.applyImpulses h impulses c.b).InvMass = 1 ∧
    c.momentum (c.applyImpulses h impulses) = c.momentum h := by
  refine ⟨?_, ?_, ?_, ?_, ConstraintBase.applyImpulses_momentum c h impulses hbal hA hB hmA hmB⟩
  · rw [Body.isStatic_congr (c.applyImpulses_invMass h impulses c.a).1]; exact hA
  · rw [Body.isStatic_congr (c.applyImpulses_invMass h impulses c.b).1]; exact hB
  · rw [(c.applyImpulses_invMass h impulses c.a).1, c.applyImpulses_mass]; exact hmA
  · rw [(c.applyImpulses_invMass h impulses c.b).1, c.applyImpulses_mass]; exact hmB

/-- Any number of `Solve` calls on a balanced constraint between two non-static bodies
with `Mass * InvMass = 1` keeps the total linear momentum. -/
theorem Constraint.solve_iterate_momentum (n : Nat) (c : Constraint K) (h : Store K)
    (hc : c.Balanced)
    (hA : (h c.base.a).IsStatic = false) (hB : (h c.base.b).IsStatic = false)
    (hmA : (h c.base.a).Mass * (h c.base.a).InvMass = 1)
    (hmB : (h c.base.b).Mass * (h c.base.b).InvMass = 1) :
    c.base.momentum (Nat.iterate (fun p : Constraint K × Store K => p.1.Solve p.2) n (c, h)).2 =
      c.base.momentum h := by
  induction n generalizing c h with
  | zero => rfl
  | succ n ih =>
    rw [Function.iterate_succ_apply]
    have hk := ConstraintBase.applyImpulses_keeps c.base h _
      (Constraint.solve_impulses_balanced c h hc) hA hB hmA hmB
    rw [← Constraint.solve_store c h hc] at hk
    have hbase := Constraint.solve_base c h
    have hstep := ih (c.Solve h).1 (c.Solve h).2 (Constraint.solve_balanced c h hc)
      (by rw [hbase]; exact hk.1) (by rw [hbase]; exact hk.2.1)
      (by rw [hbase]; exact hk.2.2.1) (by rw [hbase]; exact hk.2.2.2.1)
    rw [hbase] at hstep
    rw [hstep]
    exact hk.2.2.2.2

theorem newJointConstraint_balanced (ops : Ops K) (h : Store K) (a b : Nat)
    (anchorPoint : Vec2 K) :
    (Constraint.joint (NewJointConstraint ops h a b anchorPoint)).Balanced := by
  refine ⟨rfl, rfl, ?_⟩
  intro row hrow
  have hrow1 : row = [0, 0, 0, 0, 0, 0] := by
    simpa [Constraint.Jacobian, NewJointConstraint, NewMat, List.replicate] using hrow
  rw [hrow1]
  refine ⟨rfl, ?_, ?_⟩ <;> simp [Vec.elem]

theorem newPenetrationConstraint_balanced (ops : Ops K) (h : Store K) (a b : Nat)
    (aCollisionPoint bCollisionPoint normal : Vec2 K) :
    (Constraint.penetration
      (NewPenetrationConstraint ops h a b aCollisionPoint bCollisionPoint normal)).Balanced := by
  refine ⟨rfl, rfl, ?_⟩
  intro row hrow
  have hrow1 : row = [0, 0, 0, 0, 0, 0] := by
    simpa [Constraint.Jacobian, NewPenetrationConstraint, NewMat, List.replicate] using hrow
  rw [hrow1]
  refine ⟨rfl, ?_, ?_⟩ <;> simp [Vec.elem]

/-- C30. For a joint or penetration constraint in the shape its constructor and
`PreSolve` give it (`cachedLambda` with one entry per Jacobian row, Jacobian rows of six
entries), the impulse vector applied by `PreSolve` (`Jᵀ * cachedLambda`, warm start) and
the one applied by `Solve` (`Jᵀ` times the change of `cachedLambda`) both have a linear
part for body B that is the exact negation of the linear part for body A, and both calls
keep that shape.  Hence, when both bodies are non-static with `Mass * InvMass = 1`, the
total linear momentum `MassA * VelocityA + MassB * VelocityB` is unchanged by `PreSolve`,
by `Solve`, and by `PreSolve` followed by any number `n` of `Solve` calls. -/
theorem impulses_balanced (ops : Ops K) (dt : K) (c : Constraint K) (h : Store K) (n : Nat)
    (hc : c.Balanced) :
    ((c.PreSolve ops dt h).2 = c.base.applyImpulses h
        (Mat.Mulv (Mat.Transpose (c.PreSolve ops dt h).1.Jacobian) c.cachedLambda) ∧
      Vec.Balanced
        (Mat.Mulv (Mat.Transpose (c.PreSolve ops dt h).1.Jacobian) c.cachedLambda)) ∧
    ((c.Solve h).2 = c.base.applyImpulses h
        (Mat.Mulv (Mat.Transpose c.Jacobian)
          (Vec.Sub (c.Solve h).1.cachedLambda c.cachedLambda)) ∧
      Vec.Balanced
        (Mat.Mulv (Mat.Transpose c.Jacobian)
          (Vec.Sub (c.Solve h).1.cachedLambda c.cachedLambda))) ∧
    (c.PreSolve ops dt h).1.Balanced ∧ (c.Solve h).1.Balanced ∧
    ((h c.base.a).IsStatic = false → (h c.base.b).IsStatic = false →
      (h c.base.a).Mass * (h c.base.a).InvMass = 1 →
      (h c.base.b).Mass * (h c.base.b).InvMass = 1 →
      c.base.momentum (c.PreSolve ops dt h).2 = c.base.momentum h ∧
      c.base.momentum (c.Solve h).2 = c.base.momentum h ∧
      c.base.momentum
          (Nat.iterate (fun p : Constraint K × Store K => p.1.Solve p.2) n
            (c.PreSolve ops dt h)).2 =
        c.base.momentum h) := by
  have hpre := Constraint.preSolve_impulses_balanced ops dt c h hc.1
  have hsol := Constraint.solve_impulses_balanced c h hc
  have hpb := Constraint.preSolve_balanced ops dt c h hc.1
  refine ⟨⟨Constraint.preSolve_store ops dt c h, hpre⟩, ⟨Constraint.solve_store c h hc, hsol⟩,
    hpb, Constraint.solve_balanced c h hc, ?_⟩
  intro hA hB hmA hmB
  have hk := ConstraintBase.applyImpulses_keeps c.base h _ hpre hA hB hmA hmB
  rw [← Constraint.preSolve_store ops dt c h] at hk
  have hs := ConstraintBase.applyImpulses_keeps c.base h _ hsol hA hB hmA hmB
  rw [← Constraint.solve_store c h hc] at hs
  refine ⟨hk.2.2.2.2, hs.2.2.2.2, ?_⟩
  have hbase := Constraint.preSolve_base ops dt c h
  have hit := Constraint.solve_iterate_momentum n (c.PreSolve ops dt h).1 (c.PreSolve ops dt h).2
    hpb (by rw [hbase]; exact hk.1) (by rw [hbase]; exact hk.2.1)
    (by rw [hbase]; exact hk.2.2.1) (by rw [hbase]; exact hk.2.2.2.1)
  rw [hbase] at hit
  rw [hit]
  exact hk.2.2.2.2

/-- Witness for C30 at `K = ℝ`: the penetration constraint of the two unit circles of
`slidingCircles`, `PreSolve` with `dt = 1` followed by three `Solve` calls. -/
theorem impulses_balanced_witness :
    ConstraintBase.momentum
        (Constraint.penetration (slidingContact (Ops.mk Real.sqrt Real.sin Real.cos))).base
        (Nat.iterate (fun p : Constraint ℝ × Store ℝ => p.1.Solve p.2) 3
          ((Constraint.penetration (slidingContact (Ops.mk Real.sqrt Real.sin Real.cos))).PreSolve
            (Ops.mk Real.sqrt Real.sin Real.cos) 1
            (slidingCircles (Ops.mk Real.sqrt Real.sin Real.cos)))).2 =
      ConstraintBase.momentum
        (Constraint.penetration (slidingContact (Ops.mk Real.sqrt Real.sin Real.cos))).base
        (slidingCircles (Ops.mk Real.sqrt Real.sin Real.cos)) :=
  ((impulses_balanced (Ops.mk Real.sqrt Real.sin Real.cos) 1
    (Constraint.penetration (slidingContact (Ops.mk Real.sqrt Real.sin Real.cos)))
    (slidingCircles (Ops.mk Real.sqrt Real.sin Real.cos)) 3
    (newPenetrationConstraint_balanced _ _ _ _ _ _ _)).2.2.2.2
    (by
      norm_num [Constraint.base, slidingContact, NewPenetrationConstraint, slidingCircles,
        twoBodies, NewBody, NewCircleShape, Shape.GetMomentOfInertia, Shape.UpdateVertices,
        Body.ApplyImpulseLinear, Body.IsStatic, Vec2.Add, Vec2.Muln, abs_of_pos])
    (by
      norm_num [Constraint.base, slidingContact, NewPenetrationConstraint, slidingCircles,
        twoBodies, NewBody, NewCircleShape, Shape.GetMomentOfInertia, Shape.UpdateVertices,
        Body.IsStatic, abs_of_pos])
    (by
      norm_num [Constraint.base, slidingContact, NewPenetrationConstraint, slidingCircles,
        twoBodies, NewBody, NewCircleShape, Shape.GetMomentOfInertia, Shape.UpdateVertices,
        Body.ApplyImpulseLinear, Body.IsStatic, Vec2.Add, Vec2.Muln, abs_of_pos])
    (by
      norm_num [Constraint.base, slidingContact, NewPenetrationConstraint, slidingCircles,
        twoBodies, NewBody, NewCircleShape, Shape.GetMomentOfInertia, Shape.UpdateVertices,
        Body.IsStatic, abs_of_pos])).2.2

/-- C16 (counterexample). A static 2x2 box body created by `NewBody` at `(0, 0)` with
mass 0, whose `Position` is then set to `(5, 5)` by a direct field write: after
`World.Update` on the world holding that body, `Position` is still `(5, 5)` and
`WorldVertices` is still the square around `(0, 0)`, because `IntegrateVelocities`
returns at the `IsStatic` guard before `UpdateVertices`; the cache is stale. -/
theorem static_body_moved_stale :
    ((World.Update (Ops.mk Real.sqrt Real.sin Real.cos)
        (fun _ _ _ => (false, ⟨0, 0, ⟨0, 0⟩, ⟨0, 0⟩, ⟨0, 0⟩, 0⟩)) (1 / 60)
        ((NewWorld (98 / 10)).AddBody 0)
        (fun _ =>
          { NewBody (Ops.mk Real.sqrt Real.sin Real.cos) (NewBoxShape 2 2) 0 0 0 with
            Position := ⟨5, 5⟩ })).2 0).Position = ⟨5, 5⟩ ∧
    ((World.Update (Ops.mk Real.sqrt Real.sin Real.cos)
        (fun _ _ _ => (false, ⟨0, 0, ⟨0, 0⟩, ⟨0, 0⟩, ⟨0, 0⟩, 0⟩)) (1 / 60)
        ((NewWorld (98 / 10)).AddBody 0)
        (fun _ =>
          { NewBody (Ops.mk Real.sqrt Real.sin Real.cos) (NewBoxShape 2 2) 0 0 0 with
            Position := ⟨5, 5⟩ })).2 0).Shape.asPolygon =
      some ⟨[⟨-1, -1⟩, ⟨1, -1⟩, ⟨1, 1⟩, ⟨-1, 1⟩], [⟨-1, -1⟩, ⟨1, -1⟩, ⟨1, 1⟩, ⟨-1, 1⟩]⟩ ∧
    ¬ ((World.Update (Ops.mk Real.sqrt Real.sin Real.cos)
        (fun _ _ _ => (false, ⟨0, 0, ⟨0, 0⟩, ⟨0, 0⟩, ⟨0, 0⟩, 0⟩)) (1 / 60)
        ((NewWorld (98 / 10)).AddBody 0)
        (fun _ =>
          { NewBody (Ops.mk Real.sqrt Real.sin Real.cos) (NewBoxShape 2 2) 0 0 0 with
            Position := ⟨5, 5⟩ })).2 0).VerticesFresh
      (Ops.mk Real.sqrt Real.sin Real.cos) := by
  have hout : (World.Update (Ops.mk Real.sqrt Real.sin Real.cos)
        (fun _ _ _ => (false, ⟨0, 0, ⟨0, 0⟩, ⟨0, 0⟩, ⟨0, 0⟩, 0⟩)) (1 / 60)
        ((NewWorld (98 / 10)).AddBody 0)
        (fun _ =>
          { NewBody (Ops.mk Real.sqrt Real.sin Real.cos) (NewBoxShape 2 2) 0 0 0 with
            Position := ⟨5, 5⟩ })).2 0 =
      { Position := ⟨5, 5⟩, Velocity := ⟨0, 0⟩, Acceleration := ⟨0, 0⟩, Rotation := 0,
        AngularVelocity := 0, AngularAcceleration := 0, SumForces := ⟨0, 0⟩, sumTorque := 0,
        Mass := 0, InvMass := 0, I := 0, InvI := 0, Restitution := 1, Friction := 7 / 10,
        Shape := .box ⟨[⟨-1, -1⟩, ⟨1, -1⟩, ⟨1, 1⟩, ⟨-1, 1⟩],
          [⟨-1, -1⟩, ⟨1, -1⟩, ⟨1, 1⟩, ⟨-1, 1⟩]⟩ 2 2 } := by
    rw [World.update_single]
    norm_num [Store.modify, NewBody, NewBoxShape, Shape.GetMomentOfInertia,
      Shape.UpdateVertices, PolygonBase.UpdateVertices, Vec2.Rotate, Vec2.Add,
      Body.AddFore, Body.IntegrateForces, Body.IntegrateVelocities, Body.IsStatic,
      PIXELS_PER_METER]
  rw [hout]
  refine ⟨rfl, rfl, ?_⟩
  intro hfresh
  have h0 := hfresh 0 (by simp)
  norm_num [vertexAt, Vec2.Rotate, Vec2.Add] at h0

end Theorems

end Pikuma
